import Mathlib

/-!
# imgbrd-grabber: `Image` model (src/lib/src/models/image.cpp)

Shallow embedding of the parts of `Image` that the specification talks about:
the media/variant resolution loop of the constructor, the save-action
resolution (`preSave` / `postSave`), the JSON persistence (`write` / `read`), the
details-loading machine (`loadDetails` / `abortTags` / `parseDetails` /
`parseUgoiraDetails`) and the construction from a metadata record.

Conventions of the embedding
* `QString`, `QUrl` are `String`; a null/empty `QString` is `""`.
* C++ `int` values are `Int`; `qulonglong` is a `Nat` below `2 ^ 64`.
* `QSharedPointer<ImageSize>` is the pointed-to value; a null pointer is `none`.
* `QMap<K, V>` is a finite function `K → Option V` (enum keys) or an
  association list (string keys).
* External collaborators (disk, profile, site, converters) are read through
  oracle fields of an environment structure and written through a list of
  `Effect`s, in program order.
* Calls to `log(...)` have no effect on any modelled state and are left out,
  except in the details-loading machine, where they are recorded by level.
-/

namespace Grabber

/-! ## Sizes and media variants -/

/-- The role of a media variant, `Image::Size`. -/
inductive Size where
  | Unknown
  | Thumbnail
  | Sample
  | Full
  deriving DecidableEq, Repr

/-- Qt `QSize`: a default-constructed `QSize()` has width and height `-1`. -/
structure QSize where
  width : Int
  height : Int
  deriving DecidableEq, Repr

/-- Default constructor `QSize()`. -/
def QSize.invalid : QSize := ⟨-1, -1⟩

/-- Qt `QSize::isEmpty`: either dimension is less than or equal to zero. -/
def QSize.isEmpty (s : QSize) : Bool := decide (s.width ≤ 0) || decide (s.height ≤ 0)

/-- Qt `QSize::isValid`: both dimensions are greater than or equal to zero. -/
def QSize.isValid (s : QSize) : Bool := decide (0 ≤ s.width) && decide (0 ≤ s.height)

/-- Area of a size, width x height. -/
def QSize.area (s : QSize) : Int := s.width * s.height

/-- Modelled from the spec: `isBigger` of utils/size-utils.h, which is not part of
the sources at hand. The spec: "Bigger" = larger width×height area, ties broken
by width. -/
def isBigger (a b : QSize) : Bool :=
  decide (b.area < a.area) || (decide (a.area = b.area) && decide (b.width < a.width))

/-- Modelled from the spec: `isInRange` of utils/size-utils.h, which is not part of
the sources at hand. The spec: the candidate's largest dimension lies in
`[min, max]`. -/
def isInRange (a : QSize) (min max : Int) : Bool :=
  decide (min ≤ Max.max a.width a.height) && decide (Max.max a.width a.height ≤ max)

/-- One concrete binary candidate, `ImageSize`: the fields the constructor and
the lookups read. `type` is the explicit role hint (`Unknown` = none). -/
structure ImageSize where
  type : Size
  url : String
  size : QSize
  fileSize : Int
  rect : Option (Int × Int × Int × Int)
  deriving DecidableEq, Repr

/-- A freshly created `ImageSize` (`QSharedPointer<ImageSize>::create()`). -/
def ImageSize.default : ImageSize :=
  { type := Size.Unknown, url := "", size := QSize.invalid, fileSize := 0, rect := none }

/-- The map `QMap<Image::Size, V>`. -/
abbrev SizeMap (V : Type) := Size → Option V

/-- The empty map. -/
def SizeMap.empty {V : Type} : SizeMap V := fun _ => none

/-- `QMap::insert(key, value)`. -/
def SizeMap.insert {V : Type} (m : SizeMap V) (k : Size) (v : V) : SizeMap V :=
  fun k' => if k' = k then some v else m k'

/-- State of the constructor around the "Medias" block: `m_sizes`, `m_allSizes`
and the local bookkeeping map `sizes`. -/
structure Resolver where
  m_sizes : SizeMap ImageSize
  m_allSizes : List ImageSize
  sizes : SizeMap QSize

/-- `sizes[key]` on the local `QMap<Size, QSize>`: a missing key reads as `QSize()`. -/
def Resolver.sizeOf (r : Resolver) (k : Size) : QSize := (r.sizes k).getD QSize.invalid

/-- State right after the "Sizes" loop of the constructor (image.cpp:123-147) for
the three default variants, in the key order of the `prefixes` map, followed by
the initialisation of `sizes` (image.cpp:154-161). -/
def Resolver.init (thumbnail sample full : ImageSize) : Resolver :=
  let m : SizeMap ImageSize :=
    ((SizeMap.empty.insert Size.Thumbnail thumbnail).insert Size.Sample sample).insert Size.Full full
  { m_sizes := m
    m_allSizes := [thumbnail, sample, full]
    sizes := fun k =>
      match k with
      | Size.Thumbnail => some (((m Size.Thumbnail).map ImageSize.size).getD QSize.invalid)
      | Size.Sample => some (((m Size.Sample).map ImageSize.size).getD QSize.invalid)
      | Size.Full => some (((m Size.Full).map ImageSize.size).getD QSize.invalid)
      | Size.Unknown => none }

/-- Assign `media` to role `k` together with its size in the bookkeeping map. -/
def Resolver.assign (r : Resolver) (k : Size) (media : ImageSize) : Resolver :=
  { r with m_sizes := r.m_sizes.insert k media, sizes := r.sizes.insert k media.size }

/-- `m_allSizes.append(media)`. -/
def Resolver.push (r : Resolver) (media : ImageSize) : Resolver :=
  { r with m_allSizes := r.m_allSizes ++ [media] }

/-- Thumbnail rule (image.cpp:176-186): preview gets the biggest size between
150 and 300. -/
def Resolver.thumbnailRule (r : Resolver) (media : ImageSize) : Resolver :=
  if (r.sizeOf Size.Thumbnail).isEmpty ||
      (isInRange media.size 150 300 &&
        (isBigger media.size (r.sizeOf Size.Thumbnail) ||
          !isInRange (r.sizeOf Size.Thumbnail) 150 300)) then
    r.assign Size.Thumbnail media
  else r

/-- Sample rule (image.cpp:188-192): sample is optional and takes the biggest
size between 500 and 1500. -/
def Resolver.sampleRule (r : Resolver) (media : ImageSize) : Resolver :=
  if isInRange media.size 500 1500 && isBigger media.size (r.sizeOf Size.Sample) then
    r.assign Size.Sample media
  else r

/-- Full rule (image.cpp:194-198): full just takes the biggest size available. -/
def Resolver.fullRule (r : Resolver) (media : ImageSize) : Resolver :=
  if isBigger media.size (r.sizeOf Size.Full) then
    r.assign Size.Full media
  else r

/-- One iteration of `for (const auto &media : medias)` (image.cpp:163-199). -/
def Resolver.step (r : Resolver) (media : ImageSize) : Resolver :=
  let r0 := r.push media
  -- If type is provided, trust it
  if media.type ≠ Size.Unknown then
    r0.assign media.type media
  else
    ((r0.thumbnailRule media).sampleRule media).fullRule media

/-- The whole resolution loop over the candidate list. -/
def Resolver.run (r : Resolver) (medias : List ImageSize) : Resolver :=
  medias.foldl Resolver.step r

/-- The "Medias" block of the constructor for given default variants. -/
def resolveMedias (thumbnail sample full : ImageSize) (medias : List ImageSize) : Resolver :=
  (Resolver.init thumbnail sample full).run medias

/-- Variant finally assigned to a role, `m_sizes[role]`. -/
def Resolver.variant (r : Resolver) (k : Size) : Option ImageSize := r.m_sizes k

/-- The Full entry of `m_sizes` and the Full entry of the bookkeeping map agree. -/
def Resolver.FullSync (r : Resolver) : Prop :=
  ∃ f, r.m_sizes Size.Full = some f ∧ r.sizeOf Size.Full = f.size

/-! ### Sample inputs -/

/-- A candidate with a role hint, a URL and pixel dimensions. -/
def mkMedia (t : Size) (url : String) (w h : Int) : ImageSize :=
  { type := t, url := url, size := ⟨w, h⟩, fileSize := 0, rect := none }


/-! ## Save-action resolution (`Image::preSave`, `Image::postSave`) -/

/-- Outcome of a save, `Image::SaveResult` (the enumerators image.cpp uses). -/
inductive SaveResult where
  | AlreadyExistsDisk
  | AlreadyExistsMd5
  | AlreadyExistsDeletedMd5
  | Saved
  | Copied
  | Moved
  | Linked
  | Shortcut
  | NotLoaded
  | Error
  deriving DecidableEq, Repr

/-- The shared hash → path registry: pairs (md5, path). -/
abbrev Registry := List (String × String)

/-- The profile as seen by `Image`: the registry and the lookup
`Profile::md5Action`, whose answer (action token, recorded duplicate path) is a
function of the registry, the hash and the destination. The lookup is declared
in models/profile.h, which is not part of the sources at hand, and is taken as
a parameter. -/
structure Profile where
  md5s : Registry
  md5Policy : Registry → String → String → String × String

/-- `m_profile->md5Action(md5, path)`. -/
def Profile.md5Action (p : Profile) (md5 path : String) : String × String :=
  p.md5Policy p.md5s md5 path

/-- Modelled from the spec: `Profile::removeMd5(md5, path)` of models/profile.h,
not part of the sources at hand. The spec: remove the old hash→path registry
entry for the old path. -/
def Profile.removeMd5 (p : Profile) (md5 path : String) : Profile :=
  { p with md5s := p.md5s.filter fun e => decide (e ≠ (md5, path)) }

/-- Modelled from the spec: `Profile::addMd5(md5, path)` of models/profile.h, not
part of the sources at hand. The spec: register the (hash → path) pair. -/
def Profile.addMd5 (p : Profile) (md5 path : String) : Profile :=
  { p with md5s := p.md5s ++ [(md5, path)] }

/-- Calls that act on the outside world, in program order. -/
inductive Effect where
  /-- `m_profile->md5Action(md5, path)`: the registry is consulted. -/
  | md5Action (md5 path : String)
  /-- `dir.mkpath(p)`: directory creation is attempted. -/
  | mkpath (p : String)
  /-- `m_sizes[size]->save(path)`: the payload of the variant is written to `path`. -/
  | saveFile (size : Size) (path : String)
  /-- `QFile(src).copy(dst)`. -/
  | copy (src dst : String)
  /-- `QFile::rename(src, dst)`. -/
  | rename (src dst : String)
  /-- `createLink(src, dst, kind)`. -/
  | createLink (src dst kind : String)
  /-- `m_profile->removeMd5(md5, path)`. -/
  | removeMd5 (md5 path : String)
  /-- `m_profile->addMd5(md5, path)`. -/
  | addMd5 (md5 path : String)
  /-- Log files of `getExternalLogFiles` are written for the file at `path`. -/
  | externalLogFiles (path : String)
  /-- `setFileCreationDate(path, createdAt())`. -/
  | setFileCreationDate (path : String)
  /-- The command hooks `before`, `tag`, `image`, `tag`, `after` run for `path`. -/
  | commands (path : String) (startCommands : Bool)
  /-- An external converter is run on `path` towards format `target`. -/
  | convert (tool path target : String)
  /-- `exiftool.setMetadata(path, ...)`. -/
  | setMetadata (path : String)
  /-- `setSavePath(path, size)`. -/
  | setSavePath (path : String) (size : Size)
  deriving DecidableEq, Repr

/-- The disk and platform as read by `preSave`. -/
structure Disk where
  /-- `QFile(path).exists()` / `QFile::exists(path)`. -/
  fileExists : String → Bool
  /-- `QDir(p).exists()`. -/
  dirExists : String → Bool
  /-- Result of `dir.mkpath(p)`. -/
  mkpath : String → Bool
  /-- `QDir::separator()`. -/
  separator : String
  /-- Whether `Q_OS_WIN` is defined. -/
  isWindows : Bool
  /-- Result of `m_sizes[size]->save(path)`: the path the payload came from, empty
  when the variant holds no payload. -/
  save : Size → String → String

/-- The fields of the item read by the save path. -/
structure SaveItem where
  /-- `m_md5`. -/
  m_md5 : String
  /-- `m_sizes[Full]->md5()`, the hash computed from the bytes. -/
  md5forced : String
  /-- `m_url`. -/
  m_url : String
  /-- `m_extension`. -/
  m_extension : String

/-- `Image::md5()`. -/
def SaveItem.md5 (i : SaveItem) : String :=
  if i.m_md5.isEmpty then i.md5forced else i.m_md5

/-- `path.section(sep, 0, -2)`: the fields of `path` up to the last but one. -/
def sectionAllButLast (path sep : String) : String :=
  String.intercalate sep (path.splitOn sep).dropLast

/-- The pair `md5action` of `preSave` (image.cpp:672-674). -/
def md5actionFor (profile : Profile) (item : SaveItem) (path : String) (size : Size) :
    String × String :=
  if size ≠ Size.Thumbnail then profile.md5Action item.md5 path else ("save", "")

/-- Result of `preSave`: the save result, the profile afterwards and the calls made. -/
structure PreSaveOut where
  result : SaveResult
  profile : Profile
  effects : List Effect

/-- `Image::preSave(path, size)` (image.cpp:661-735). -/
def preSave (disk : Disk) (profile : Profile) (item : SaveItem) (path : String) (size : Size) :
    PreSaveOut :=
  let force := false
  -- Check if file already exists on disk
  if disk.fileExists path && !force then
    ⟨SaveResult.AlreadyExistsDisk, profile, []⟩
  else
    -- Check MD5 database
    let md5action := md5actionFor profile item path size
    let fx0 := if size ≠ Size.Thumbnail then [Effect.md5Action item.md5 path] else []
    let whatToDo := md5action.1
    let md5Duplicate := md5action.2
    -- Early return if this file shouldn't be saved
    if whatToDo == "ignore" && !force then
      if !disk.fileExists md5Duplicate then
        ⟨SaveResult.AlreadyExistsDeletedMd5, profile, fx0⟩
      else
        ⟨SaveResult.AlreadyExistsMd5, profile, fx0⟩
    else
      -- Create the destination directory since we're going to put a file there
      let p := sectionAllButLast path disk.separator
      let fx1 := if disk.dirExists p then fx0 else fx0 ++ [Effect.mkpath p]
      if !disk.dirExists p && !disk.mkpath p then
        ⟨SaveResult.Error, profile, fx1⟩
      -- Basic save action
      else if whatToDo == "save" || force then
        let savePath := disk.save size path
        if savePath.isEmpty then
          ⟨SaveResult.NotLoaded, profile, fx1 ++ [Effect.saveFile size path]⟩
        else
          ⟨SaveResult.Saved, profile, fx1 ++ [Effect.saveFile size path]⟩
      -- Copy already existing file to the new path
      else if whatToDo == "copy" then
        ⟨SaveResult.Copied, profile, fx1 ++ [Effect.copy md5Duplicate path]⟩
      -- Move already existing file to the new path
      else if whatToDo == "move" then
        ⟨SaveResult.Moved, profile.removeMd5 item.md5 md5Duplicate,
          fx1 ++ [Effect.rename md5Duplicate path, Effect.removeMd5 item.md5 md5Duplicate]⟩
      -- Create a shortcut/link to the existing file
      else if whatToDo == "link" || whatToDo == "hardlink" then
        if disk.isWindows && whatToDo == "link" then
          ⟨SaveResult.Shortcut, profile, fx1 ++ [Effect.createLink md5Duplicate path whatToDo]⟩
        else
          ⟨SaveResult.Linked, profile, fx1 ++ [Effect.createLink md5Duplicate path whatToDo]⟩
      else
        ⟨SaveResult.Error, profile, fx1⟩

/-- Settings and external tools read by `postSaving`. The tools are declared in
headers that are not part of the sources at hand and are taken as parameters. -/
structure PostEnv where
  /-- `Save/keepDate`. -/
  keepDate : Bool
  /-- `Save/headerDetection`. -/
  headerDetection : Bool
  /-- `Save/FFmpegRemuxWebmToMp4`. -/
  remuxWebm : Bool
  /-- `Save/FFmpegConvertWebmToMp4`. -/
  convertWebm : Bool
  /-- `Save/ImageConversion/<EXT>/to`, lower-cased, as a function of the extension. -/
  imageConversionTarget : String → String
  /-- `Save/ImageConversionBackend`. -/
  imageConversionBackend : String
  /-- `Save/ConvertUgoira`. -/
  convertUgoira : Bool
  /-- `Save/ConvertUgoiraFormat`. -/
  ugoiraFormat : String
  /-- `Save/MetadataExiftoolExtensions`, split on spaces. -/
  exiftoolExts : List String
  /-- The rendered `metadata` map handed to exiftool, as a function of the path. -/
  exiftoolMetadata : String → List (String × String)
  /-- `getExtension(path)`. -/
  getExtension : String → String
  /-- `getExtensionFromHeader(path)`. -/
  getExtensionFromHeader : String → String
  /-- `info.path() + QDir::separator() + info.completeBaseName() + "." + headerExt`. -/
  withHeaderExt : String → String → String
  /-- Result of `QFile::rename(path, newPath)`. -/
  rename : String → String → Bool
  /-- `QDir::toNativeSeparators(path)`. -/
  toNativeSeparators : String → String
  /-- `FFmpeg::getVideoCodec(path)`. -/
  videoCodec : String → String
  /-- `FFmpeg::remux(path, target, true, timeout)`. -/
  ffmpegRemux : String → String → String
  /-- `FFmpeg::convert(path, target, true, timeout)`. -/
  ffmpegConvert : String → String → String
  /-- `ImageMagick::convert(path, target, true, timeout)`. -/
  magickConvert : String → String → String
  /-- `FFmpeg::convertUgoira(path, frames, target, deleteOriginal, timeout)`. -/
  ffmpegConvertUgoira : String → String → String

/-- `QString::toLower()`, character by character. -/
def qLower (s : String) : String := String.mk (s.data.map Char.toLower)

/-- `QString::trimmed()`: the whitespace at both ends removed. -/
def qTrimmed (s : String) : String :=
  String.mk ((s.data.dropWhile Char.isWhitespace).reverse.dropWhile Char.isWhitespace).reverse

/-- `Image::extension()`. -/
def SaveItem.extension (env : PostEnv) (i : SaveItem) : String :=
  let urlExt := qLower (env.getExtension i.m_url)
  if !urlExt.isEmpty then urlExt else i.m_extension

/-- Running state of `postSaving`: the current path, the current extension, the
profile and the calls made so far. -/
structure PostState where
  path : String
  ext : String
  profile : Profile
  effects : List Effect

/-- Stage "Keep original date" (image.cpp:793-796). -/
def PostState.keepDate (env : PostEnv) (s : PostState) : PostState :=
  if env.keepDate then { s with effects := s.effects ++ [Effect.setFileCreationDate s.path] }
  else s

/-- Stage "Guess extension from file header" (image.cpp:798-812). -/
def PostState.headerDetection (env : PostEnv) (s : PostState) : PostState :=
  if env.headerDetection && env.getExtension s.path == s.ext then
    let headerExt := env.getExtensionFromHeader s.path
    if !headerExt.isEmpty && headerExt != s.ext then
      let newPath := env.withHeaderExt s.path headerExt
      if !env.rename s.path newPath then
        { s with effects := s.effects ++ [Effect.rename s.path newPath] }
      else
        { s with path := env.toNativeSeparators newPath, ext := headerExt,
                 effects := s.effects ++ [Effect.rename s.path newPath] }
    else s
  else s

/-- Stage "Commands" (image.cpp:814-828). -/
def PostState.commands (s : PostState) (startCommands : Bool) : PostState :=
  { s with effects := s.effects ++ [Effect.commands s.path startCommands] }

/-- A disk on which only the listed files exist, every directory exists and every
variant has a payload. -/
def sampleDisk (files : List String) : Disk :=
  { fileExists := fun p => files.contains p
    dirExists := fun _ => true
    mkpath := fun _ => true
    separator := "/"
    isWindows := false
    save := fun _ _ => "/tmp/payload" }

/-- The same disk, on which no variant holds a payload. -/
def sampleDiskNoPayload (files : List String) : Disk :=
  { sampleDisk files with save := fun _ _ => "" }

/-- A profile whose lookup answers with a fixed action for every registered hash
and `save` otherwise. -/
def sampleProfile (action : String) (md5s : Registry) : Profile :=
  { md5s := md5s
    md5Policy := fun reg md5 _ =>
      match reg.find? (fun e => e.1 == md5) with
      | some e => (action, e.2)
      | none => ("save", "") }

/-- An item with a declared hash. -/
def sampleItem : SaveItem :=
  { m_md5 := "abc", md5forced := "abc", m_url := "https://test.com/file.jpg", m_extension := "" }

/-! ## JSON persistence (`Image::write`, `Image::read`) -/

/-- A JSON value, `QJsonValue` (`null` also stands for `Undefined`). -/
inductive Json where
  | null
  | bool (b : Bool)
  | num (n : Int)
  | str (s : String)
  | arr (xs : List Json)
  | obj (kvs : List (String × Json))

/-- A string-keyed map (`QJsonObject`, `QVariantMap`, `QMap<QString, V>`) as an
association list with at most one entry per key. -/
abbrev StrMap (V : Type) := List (String × V)

/-- `map.contains(key)`. -/
def StrMap.has {V : Type} (m : StrMap V) (k : String) : Bool := (m.lookup k).isSome

/-- `map[key] = value`: replace the entry of `key`, or add one. -/
def StrMap.set {V : Type} : StrMap V → String → V → StrMap V
  | [], k, v => [(k, v)]
  | (k', v') :: rest, k, v =>
    if k' == k then (k, v) :: rest else (k', v') :: StrMap.set rest k v

/-- `map.keys()`. -/
def StrMap.keys {V : Type} (m : StrMap V) : List String := m.map Prod.fst

/-- A JSON object, `QJsonObject`. -/
abbrev JsonObject := StrMap Json

/-- `json[key]` on a const object: the value, `Undefined` when the key is missing. -/
def JsonObject.get (o : JsonObject) (k : String) : Json := (o.lookup k).getD Json.null

/-- `QJsonValue::toString()`: the string, empty for any other kind of value. -/
def Json.toStr : Json → String
  | Json.str s => s
  | _ => ""

/-- `QJsonValue::isString()`. -/
def Json.isString : Json → Bool
  | Json.str _ => true
  | _ => false

/-- `QJsonValue::toObject()`: the object, empty for any other kind of value. -/
def Json.toObject : Json → JsonObject
  | Json.obj kvs => kvs
  | _ => []

/-- `QJsonValue::toArray()`: the array, empty for any other kind of value. -/
def Json.toArray : Json → List Json
  | Json.arr xs => xs
  | _ => []

/-- A `QVariant` of the data and identity maps: a JSON-representable value or a
`QDateTime`, the latter held as its ISO 8601 text. -/
inductive Variant where
  | json (j : Json)
  | dateTime (iso : String)

/-- A tag: text and type name (`Tag::text()`, `Tag::type().name()`). -/
structure Tag where
  text : String
  type : String
  deriving DecidableEq, Repr

/-- The site as seen by `Image`. `detailsUrl` is `none` when `detailsApi()` is null,
else `detailsApi()->detailsUrl(id, md5, site, identity).url`. -/
structure Site where
  url : String
  name : String
  fixUrl : String → String
  detailsUrl : Option (Nat → String → StrMap Variant → String)

/-- Helpers declared in headers that are not part of the sources at hand
(tags/tag.h, models/image-size.h, functions.h), taken as parameters. -/
structure Helpers where
  /-- `Tag::write(json)` on a fresh object. -/
  tagWrite : Tag → JsonObject
  /-- `Tag::read(json)` on a fresh tag: the tag read, `none` when it returns false. -/
  tagRead : JsonObject → Option Tag
  /-- `Tag(text)`. -/
  tagOfString : String → Tag
  /-- `ImageSize::write(json)` on a fresh object. -/
  sizeWrite : ImageSize → JsonObject
  /-- `ImageSize::read(json)` on a fresh `ImageSize`. -/
  sizeRead : JsonObject → ImageSize
  /-- `getExtension(url)`. -/
  getExtension : String → String

/-- Arguments the `ExtensionRotator` is built with. -/
structure ExtensionRotator where
  initialExtension : String
  extensions : List String
  deriving DecidableEq, Repr

/-- The fields of `Image` that `write`, `read` and `init` touch, but for the parent
gallery. -/
structure ImageData where
  parentSite : Option Site
  sizes : SizeMap ImageSize
  tags : List Tag
  search : List String
  name : String
  id : Nat
  md5 : String
  url : String
  data : StrMap Variant
  identity : StrMap Variant
  pageUrl : String
  extensionRotator : Option ExtensionRotator

/-- An item with its chain of parent galleries (`m_parentGallery`). -/
inductive Image where
  | mk (d : ImageData) (parentGallery : Option Image)

/-- The fields of the item itself. -/
def Image.d : Image → ImageData
  | Image.mk d _ => d

/-- `m_parentGallery`. -/
def Image.parentGallery : Image → Option Image
  | Image.mk _ g => g

/-- `Image(profile)`: the item `read` is called on. -/
def ImageData.fresh : ImageData :=
  { parentSite := none, sizes := SizeMap.empty, tags := [], search := [], name := "", id := 0,
    md5 := "", url := "", data := [], identity := [], pageUrl := "", extensionRotator := none }

/-- `Image(profile)` without a parent gallery. -/
def Image.fresh : Image := Image.mk ImageData.fresh none

/-- `Image::url(size)`. -/
def ImageData.urlOf (d : ImageData) (size : Size) : String :=
  if size = Size.Full then d.url else ((d.sizes size).map ImageSize.url).getD ""

/-- `Image::hasTag(tag)`: case-insensitive comparison with the trimmed tag. -/
def hasTag (tags : List Tag) (tag : String) : Bool :=
  tags.any fun t => qLower t.text == qLower (qTrimmed tag)

/-- Character of a decimal digit. -/
def digitChar (d : Nat) : Char := Char.ofNat (48 + d)

/-- `QString::number(n)` for an unsigned integer: its decimal digits. -/
def qstringNumber (n : Nat) : String :=
  if n = 0 then "0" else String.mk ((Nat.digits 10 n).reverse.map digitChar)

/-- Value of a string of decimal digits, `none` when a character is not a digit. -/
def decimalValue (cs : List Char) : Option Nat :=
  cs.foldl
    (fun acc c =>
      match acc with
      | some a => if c.isDigit then some (a * 10 + (c.toNat - 48)) else none
      | none => none)
    (some 0)

/-- `QString::toULongLong()`: the value of a decimal string that fits 64 bits, `0`
for anything else. -/
def toULongLong (s : String) : Nat :=
  if s.data.isEmpty then 0
  else
    match decimalValue s.data with
    | some n => if n < 2 ^ 64 then n else 0
    | none => 0

/-- The map `sizeToStringMap` (image.cpp:295-300). -/
def sizeToString : Size → Option String
  | Size.Full => some "full"
  | Size.Sample => some "sample"
  | Size.Thumbnail => some "thumbnail"
  | Size.Unknown => none

/-- The keys of a `QMap<Image::Size, V>`. -/
def SizeMap.keys {V : Type} (m : SizeMap V) : List Size :=
  [Size.Unknown, Size.Thumbnail, Size.Sample, Size.Full].filter fun k => (m k).isSome

/-- The "Sizes" block of `write` (image.cpp:313-324). -/
def writeSizes (h : Helpers) (sizes : SizeMap ImageSize) (json : JsonObject) : JsonObject :=
  let jsonSizes : JsonObject :=
    (SizeMap.keys sizes).foldl
      (fun acc size =>
        match sizes size, sizeToString size with
        | some is, some name =>
          let jsonSize := h.sizeWrite is
          if !jsonSize.isEmpty then acc.set name (Json.obj jsonSize) else acc
        | _, _ => acc)
      []
  if !jsonSizes.isEmpty then json.set "sizes" (Json.obj jsonSizes) else json

/-- One value of the "Arbitrary tokens" block of `write` (image.cpp:345-347). -/
def variantToJson : Variant → Json
  | Variant.dateTime iso => Json.str ("date:" ++ iso)
  | Variant.json j => j

/-- `QJsonValue::fromVariant` of the "Identity" block (image.cpp:356): a date is
written as its ISO 8601 text. -/
def identityToJson : Variant → Json
  | Variant.dateTime iso => Json.str iso
  | Variant.json j => j

/-- One value of the "Arbitrary tokens" block of `read` (image.cpp:426-430). -/
def jsonToVariant (j : Json) : Variant :=
  match j with
  | Json.str s => if s.startsWith "date:" then Variant.dateTime (s.drop 5) else Variant.json j
  | _ => Variant.json j

/-- Everything `write` stores after the parent gallery (image.cpp:313-360). -/
def ImageData.writeFields (h : Helpers) (d : ImageData) (json : JsonObject) : JsonObject :=
  let json := writeSizes h d.sizes json
  let tags : List Json := d.tags.map fun tag => Json.obj (h.tagWrite tag)
  let json := json.set "name" (Json.str d.name)
  let json := json.set "id" (Json.str (qstringNumber d.id))
  let json := json.set "md5" (Json.str d.md5)
  let json := json.set "tags" (Json.arr tags)
  let json := json.set "url" (Json.str d.url)
  let json := json.set "search" (Json.arr (d.search.map Json.str))
  let jsonData : JsonObject :=
    d.data.foldl (fun acc e => acc.set e.1 (variantToJson e.2)) []
  let json := if !jsonData.isEmpty then json.set "data" (Json.obj jsonData) else json
  let jsonIdentity : JsonObject :=
    d.identity.foldl (fun acc e => acc.set e.1 (identityToJson e.2)) []
  if !jsonIdentity.isEmpty then json.set "identity" (Json.obj jsonIdentity) else json

/-- `Image::write(json)` (image.cpp:302-361). The result is `none` when `m_parentSite`
of the item or of one of its parent galleries is null (the code dereferences it). -/
def Image.write (h : Helpers) : Image → JsonObject → Option JsonObject
  | Image.mk d none, json =>
    match d.parentSite with
    | none => none
    | some site => some (d.writeFields h (json.set "website" (Json.str site.url)))
  | Image.mk d (some gallery), json =>
    match d.parentSite with
    | none => none
    | some site =>
      match Image.write h gallery [] with
      | none => none
      | some jsonGallery =>
        some (d.writeFields h
          ((json.set "website" (Json.str site.url)).set "gallery" (Json.obj jsonGallery)))

/-- `Image::init()` (image.cpp:275-292) for an item whose site is `site`. -/
def ImageData.init (h : Helpers) (site : Site) (d : ImageData) : ImageData :=
  let pageUrl :=
    if d.pageUrl.isEmpty then
      match site.detailsUrl with
      | some detailsUrl => detailsUrl d.id d.md5 d.identity
      | none => d.pageUrl
    else d.pageUrl
  let pageUrl := site.fixUrl pageUrl
  let animated := hasTag d.tags "gif" || hasTag d.tags "animated_gif" || hasTag d.tags "mp4" ||
    hasTag d.tags "animated_png" || hasTag d.tags "webm" || hasTag d.tags "animated" ||
    hasTag d.tags "video"
  let extensions :=
    if animated then ["mp4", "webm", "gif", "jpg", "png", "jpeg", "swf"]
    else ["jpg", "png", "gif", "jpeg", "webm", "swf", "mp4"]
  { d with pageUrl := pageUrl,
           extensionRotator := some ⟨h.getExtension d.url, extensions⟩ }

/-- The "Sizes" block of `read` (image.cpp:383-394). -/
def readSizes (h : Helpers) (json : JsonObject) (sizes : SizeMap ImageSize) : SizeMap ImageSize :=
  [(Size.Full, "full"), (Size.Sample, "sample"), (Size.Thumbnail, "thumbnail")].foldl
    (fun acc e =>
      let sizeObj :=
        if json.has "sizes" then
          let jsonSizes := (json.get "sizes").toObject
          if jsonSizes.has e.2 then h.sizeRead (jsonSizes.get e.2).toObject
          else ImageSize.default
        else ImageSize.default
      acc.insert e.1 sizeObj)
    sizes

/-- The "Tags" block of `read` (image.cpp:396-408): the tags appended to `m_tags`. -/
def readTags (h : Helpers) (jsonTags : List Json) : List Tag :=
  jsonTags.filterMap fun jsonTag =>
    if jsonTag.isString then some (h.tagOfString jsonTag.toStr)
    else h.tagRead jsonTag.toObject

/-- Everything `read` does after the site and the parent gallery are settled
(image.cpp:381-453). -/
def ImageData.readFields (h : Helpers) (site : Site) (json : JsonObject) (d : ImageData) :
    ImageData :=
  let d := { d with parentSite := some site }
  let d := { d with sizes := readSizes h json d.sizes }
  let d := { d with tags := d.tags ++ readTags h (json.get "tags").toArray }
  let d := { d with search := d.search ++ (json.get "search").toArray.map Json.toStr }
  let d := { d with name := (json.get "name").toStr,
                    id := toULongLong (json.get "id").toStr,
                    md5 := (json.get "md5").toStr }
  let d :=
    if json.has "data" then
      { d with data := (json.get "data").toObject.foldl
                 (fun acc e => acc.set e.1 (jsonToVariant e.2)) d.data }
    else d
  let d :=
    if json.has "identity" then
      { d with identity := (json.get "identity").toObject.foldl
                 (fun acc e => acc.set e.1 (Variant.json e.2)) d.identity }
    else d
  let fullUrl := ((d.sizes Size.Full).map ImageSize.url).getD ""
  let d :=
    if json.has "file_url" then
      let url := (json.get "file_url").toStr
      { d with url := url,
               sizes :=
                 if fullUrl.isEmpty then
                   d.sizes.insert Size.Full
                     { ((d.sizes Size.Full).getD ImageSize.default) with url := url }
                 else d.sizes }
    else
      { d with url := if json.has "url" then (json.get "url").toStr else fullUrl }
  d.init h site

/-- `Image::read(json, sites)` (image.cpp:363-454) on the item `self`: the returned
flag and the item afterwards. -/
def Image.read (h : Helpers) (sites : StrMap Site) (json : JsonObject) (self : Image) :
    Bool × Image :=
  let site := (json.get "website").toStr
  match sites.lookup site with
  | none => (false, self)
  | some parentSite =>
    match hg : json.lookup "gallery" with
    | none => (true, Image.mk (self.d.readFields h parentSite json) self.parentGallery)
    | some jsonGallery =>
      let r := Image.read h sites jsonGallery.toObject Image.fresh
      if r.1 then (true, Image.mk (self.d.readFields h parentSite json) (some r.2))
      else (false, self)
termination_by sizeOf json
decreasing_by
  have key : ∀ (o : JsonObject) (v : Json), o.lookup "gallery" = some v → sizeOf v < sizeOf o := by
    intro o
    induction o with
    | nil => intro v hv; simp at hv
    | cons e rest ih =>
      intro v hv
      obtain ⟨k, w⟩ := e
      simp only [List.lookup] at hv
      split at hv
      · cases hv
        simp
        omega
      · have := ih v hv
        simp
        omega
  have h1 := key json jsonGallery hg
  have h2 : sizeOf jsonGallery.toObject ≤ sizeOf jsonGallery := by
    cases jsonGallery <;> simp [Json.toObject]
  omega

/-- Whether the site of the item and of every gallery up its parent chain is set
and is a key of the known-sites map. -/
def Image.sitesKnown (sites : StrMap Site) : Image → Bool
  | Image.mk d none =>
    match d.parentSite with
    | some site => StrMap.has sites site.url
    | none => false
  | Image.mk d (some gallery) =>
    (match d.parentSite with
     | some site => StrMap.has sites site.url
     | none => false) && Image.sitesKnown sites gallery

/-! ### Sample inputs -/

/-- A tag codec storing text and type under the keys `text` and `type`. -/
def sampleHelpers : Helpers :=
  { tagWrite := fun t => [("text", Json.str t.text), ("type", Json.str t.type)]
    tagRead := fun o => some ⟨(JsonObject.get o "text").toStr, (JsonObject.get o "type").toStr⟩
    tagOfString := fun s => ⟨s, "unknown"⟩
    sizeWrite := fun is => if is.url.isEmpty then [] else [("url", Json.str is.url)]
    sizeRead := fun o => { ImageSize.default with url := (JsonObject.get o "url").toStr }
    getExtension := fun url => ((url.splitOn ".").getLast?).getD "" }

/-- A site without a details API. -/
def sampleSite (url : String) : Site :=
  { url := url, name := url, fixUrl := fun u => u, detailsUrl := none }

/-- An item of `site` with the given id and tags. -/
def sampleImageData (site : String) (id : Nat) (tags : List Tag) : ImageData :=
  { ImageData.fresh with
    parentSite := some (sampleSite site), id := id, md5 := "abc", name := "item",
    tags := tags, search := ["tag1", "tag2"], url := "https://test.com/file.jpg" }

/-! ## Details loading (`Image::loadDetails`, `abortTags`, `parseDetails`,
`parseUgoiraDetails`)

The item is driven by the completion of its network requests. The calls the
machine makes (requests, aborts, signals, log lines by level) are recorded as
`DetailsEvent`s in program order. -/

/-- Result carried by the signal `finishedLoadingTags`, `Image::LoadTagsResult`. -/
inductive LoadTagsResult where
  | Ok
  | NetworkError
  | CloudflareError
  | Error
  deriving DecidableEq, Repr

/-- Class of a request, `Site::QueryType` (the two enumerators `loadDetails` uses). -/
inductive QueryType where
  | Details
  | Retry
  deriving DecidableEq, Repr

/-- Severity of a log line, `Logger::LogLevel` (logger.h). -/
inductive LogLevel where
  | Debug
  | Info
  | Warning
  | Error
  deriving DecidableEq, Repr

/-- Error of a reply, `NetworkReply::NetworkError`, as far as the code tells the
values apart: none, the cancellation, any other. -/
inductive ReplyError where
  | NoError
  | OperationCanceledError
  | Other (code : Nat)
  deriving DecidableEq, Repr

/-- What the slots read from a finished reply. -/
structure FinishedReply where
  /-- `attribute(RedirectionTargetAttribute).toUrl()`, empty when absent. -/
  redirectionTarget : String
  /-- `attribute(HttpStatusCodeAttribute).toInt()`. -/
  statusCode : Int
  /-- `rawHeader("server")`. -/
  server : String
  /-- `error()`. -/
  error : ReplyError
  /-- `readAll()` as UTF-8. -/
  body : String
  deriving DecidableEq, Repr

/-- The slot a request is connected to. -/
inductive Slot where
  | parseDetails
  | parseUgoiraDetails
  deriving DecidableEq, Repr

/-- Calls made by the details machine, in program order. -/
inductive DetailsEvent where
  /-- `m_parentSite->get(url, type)` with `finished` connected to `slot`. -/
  | get (url : String) (type : QueryType) (slot : Slot)
  /-- `m_loadDetails->abort()`. -/
  | abort
  /-- `log(message, level)`. -/
  | log (level : LogLevel)
  /-- `emit finishedLoadingTags(result)`. -/
  | finishedLoadingTags (result : LoadTagsResult)
  /-- `emit urlChanged(before, after)`. -/
  | urlChanged (before after : String)
  deriving DecidableEq, Repr

/-- A pool membership (`Pool`, models/pool.h). -/
structure Pool where
  id : Int
  name : String
  deriving DecidableEq, Repr

/-- A `QDateTime`: its validity and its ISO 8601 text. -/
structure QDateTime where
  isValid : Bool
  iso : String
  deriving DecidableEq, Repr

/-- Result of the details parser, `ParsedDetails`. -/
structure ParsedDetails where
  error : String
  pools : List Pool
  tags : List Tag
  createdAt : QDateTime
  sources : List String
  imageUrl : String
  deriving DecidableEq, Repr

/-- The reply `m_loadDetails` points to. -/
structure ReplyHandle where
  /-- `isRunning()`. -/
  isRunning : Bool
  deriving DecidableEq, Repr

/-- The fields of `Image` the details machine reads and writes. -/
structure DetailsItem where
  m_loadingDetails : Bool
  m_loadedDetails : Bool
  m_pageUrl : String
  /-- `m_loadDetails`, `none` when null. -/
  m_loadDetails : Option ReplyHandle
  m_url : String
  /-- `m_sizes[Full]->url`. -/
  fullUrl : String
  /-- `m_sizes[Full]->fileSize`. -/
  fullFileSize : Int
  m_extension : String
  m_tags : List Tag
  m_pools : List Pool
  m_sources : List String
  m_data : StrMap Variant
  m_identity : StrMap Variant
  m_extensionRotator : Option ExtensionRotator
  m_detailsParsWarnAsErr : Bool

/-- The details parser of the site, `Api` (models/api/api.h). -/
structure DetailsApi where
  name : String
  /-- `api->parseDetails(source, statusCode, site)`. -/
  parseDetails : String → Int → ParsedDetails

/-- The endpoint `ugoira_details` of the site, `ApiEndpoint`. -/
structure UgoiraEndpoint where
  /-- `endpoint->url(identity, 1, 1, {}, site).url`. -/
  url : StrMap Variant → String
  /-- `endpoint->parseAny(source, statusCode)`. -/
  parseAny : String → Int → Variant

/-- Site, settings and helpers read by the details machine; they are declared in
headers that are not part of the sources at hand and are taken as parameters. -/
structure DetailsEnv where
  /-- `m_parentSite->fixUrl(url)`. -/
  fixUrl : String → String
  /-- `m_parentSite->fixUrl(url, old)`. -/
  fixUrlFrom : String → String → String
  /-- `m_parentSite->detailsApi()`, `none` when null. -/
  detailsApi : Option DetailsApi
  /-- `m_parentSite->apiEndpoint("ugoira_details")`, `none` when null. -/
  ugoiraDetails : Option UgoiraEndpoint
  /-- `Save/ConvertUgoira`. -/
  convertUgoira : Bool
  /-- `getExtension(url)`. -/
  getExtension : String → String

/-- `Image::extension()` on the fields of the details machine. -/
def DetailsItem.extension (env : DetailsEnv) (s : DetailsItem) : String :=
  let urlExt := qLower (env.getExtension s.m_url)
  if !urlExt.isEmpty then urlExt else s.m_extension

/-- `Image::loadDetails(rateLimit)` (image.cpp:457-484). -/
def loadDetails (s : DetailsItem) (rateLimit : Bool) : DetailsItem × List DetailsEvent :=
  if s.m_loadingDetails then
    (s, [])
  else if s.m_loadedDetails || s.m_pageUrl.isEmpty then
    (s, [DetailsEvent.finishedLoadingTags LoadTagsResult.Ok])
  else
    let aborted : List DetailsEvent :=
      match s.m_loadDetails with
      | some reply => if reply.isRunning then [DetailsEvent.abort] else []
      | none => []
    let type := if rateLimit then QueryType.Retry else QueryType.Details
    ({ s with m_loadDetails := some ⟨true⟩, m_loadingDetails := true },
      aborted ++ [DetailsEvent.log LogLevel.Info,
        DetailsEvent.get s.m_pageUrl type Slot.parseDetails])

/-- `Image::abortTags()` (image.cpp:485-491). The result is `none` when the loading
flag is set while `m_loadDetails` is null (the code dereferences it). -/
def abortTags (s : DetailsItem) : Option (DetailsItem × List DetailsEvent) :=
  if s.m_loadingDetails then
    match s.m_loadDetails with
    | none => none
    | some reply =>
      if reply.isRunning then
        some ({ s with m_loadingDetails := false }, [DetailsEvent.abort])
      else some (s, [])
  else some (s, [])

/-- The test `statusCode == 429 || statusCode == 503 || statusCode == 509`. -/
def isRateLimited (statusCode : Int) : Bool :=
  statusCode == 429 || statusCode == 503 || statusCode == 509

/-- The Cloudflare test of `parseDetails` (image.cpp:513). -/
def isCloudflareWall (reply : FinishedReply) : Bool :=
  (reply.statusCode == 403 || reply.statusCode == 429 || reply.statusCode == 503) &&
    reply.server == "cloudflare"

/-- The block "Fill data from parsing result" (image.cpp:551-563). -/
def DetailsItem.merge (s : DetailsItem) (ret : ParsedDetails) : DetailsItem :=
  let s := if !ret.pools.isEmpty then { s with m_pools := ret.pools } else s
  let s := if !ret.tags.isEmpty then { s with m_tags := ret.tags } else s
  let s :=
    if ret.createdAt.isValid then
      { s with m_data := s.m_data.set "date" (Variant.dateTime ret.createdAt.iso) }
    else s
  if !ret.sources.isEmpty then { s with m_sources := ret.sources } else s

/-- The block "Image url" (image.cpp:565-582). -/
def DetailsItem.updateUrl (env : DetailsEnv) (s : DetailsItem) (ret : ParsedDetails) :
    DetailsItem × List DetailsEvent :=
  if !ret.imageUrl.isEmpty then
    let before := s.m_url
    let newUrl := env.fixUrlFrom ret.imageUrl before
    let s := { s with m_url := newUrl, fullUrl := newUrl, m_extensionRotator := none }
    if before != s.m_url then
      let s :=
        if env.getExtension before != env.getExtension s.m_url then
          { s with fullFileSize := 0 }
        else s
      (s, [DetailsEvent.urlChanged before s.m_url])
    else (s, [])
  else (s, [])

/-- The end of `parseDetails` after the URL block (image.cpp:584-605): the details
are marked loaded, then either the follow-up request for the ugoira metadata is
issued or the result is signalled. -/
def DetailsItem.finishParse (env : DetailsEnv) (s : DetailsItem) :
    DetailsItem × List DetailsEvent :=
  let s := { s with m_loadDetails := none, m_loadedDetails := true }
  if s.extension env == "zip" && env.convertUgoira then
    match env.ugoiraDetails with
    | some endpoint =>
      (s, [DetailsEvent.log LogLevel.Info,
        DetailsEvent.get (endpoint.url s.m_identity) QueryType.Details Slot.parseUgoiraDetails])
    | none => (s, [DetailsEvent.finishedLoadingTags LoadTagsResult.Ok])
  else (s, [DetailsEvent.finishedLoadingTags LoadTagsResult.Ok])

/-- `Image::parseDetails()` (image.cpp:492-606), run on the `finished` signal of the
reply `m_loadDetails` points to; `reply` is what the slot reads from it. -/
def parseDetails (env : DetailsEnv) (reply : FinishedReply) (s : DetailsItem) :
    DetailsItem × List DetailsEvent :=
  -- the reply has finished: it is not running any more
  let s := { s with m_loadDetails := s.m_loadDetails.map fun _ => ⟨false⟩ }
  let s := { s with m_loadingDetails := false }
  -- Check redirection
  if !reply.redirectionTarget.isEmpty then
    let s := { s with m_pageUrl := env.fixUrl reply.redirectionTarget }
    let r := loadDetails s false
    (r.1, DetailsEvent.log LogLevel.Info :: r.2)
  else if isRateLimited reply.statusCode then
    let r := loadDetails s true
    (r.1, DetailsEvent.log LogLevel.Info :: r.2)
  -- Detect Cloudflare
  else if isCloudflareWall reply then
    ({ s with m_loadDetails := none },
      [DetailsEvent.log LogLevel.Error,
        DetailsEvent.finishedLoadingTags LoadTagsResult.CloudflareError])
  -- Aborted or connection error
  else if reply.error ≠ ReplyError.NoError then
    ({ s with m_loadDetails := none },
      (if reply.error ≠ ReplyError.OperationCanceledError then
        [DetailsEvent.log LogLevel.Error] else []) ++
      [DetailsEvent.finishedLoadingTags LoadTagsResult.NetworkError])
  else
    -- Get an api able to parse details
    match env.detailsApi with
    | none => (s, [])
    | some api =>
      -- Parse source
      let ret := api.parseDetails reply.body reply.statusCode
      if !ret.error.isEmpty then
        ({ s with m_loadDetails := none },
          [DetailsEvent.log
              (if s.m_detailsParsWarnAsErr then LogLevel.Error else LogLevel.Warning),
            DetailsEvent.finishedLoadingTags LoadTagsResult.Error])
      else
        let u := DetailsItem.updateUrl env (s.merge ret) ret
        let f := DetailsItem.finishParse env u.1
        (f.1, u.2 ++ f.2)

/-- `Image::parseUgoiraDetails()` (image.cpp:607-629) on the finished follow-up
reply. The result is `none` when the reply carries no error while the endpoint
`ugoira_details` is null (the code dereferences it). -/
def parseUgoiraDetails (env : DetailsEnv) (reply : FinishedReply) (s : DetailsItem) :
    Option (DetailsItem × List DetailsEvent) :=
  -- Handle network errors
  if reply.error ≠ ReplyError.NoError then
    some (s,
      (if reply.error ≠ ReplyError.OperationCanceledError then
        [DetailsEvent.log LogLevel.Error] else []) ++
      [DetailsEvent.finishedLoadingTags LoadTagsResult.NetworkError])
  else
    -- Parse the metadata
    match env.ugoiraDetails with
    | none => none
    | some endpoint =>
      some ({ s with m_data :=
                s.m_data.set "ugoira_metadata" (endpoint.parseAny reply.body reply.statusCode) },
        [DetailsEvent.finishedLoadingTags LoadTagsResult.Ok])

/-- The requests for the details page among the calls: URL and class of every
`get` connected to `parseDetails`. -/
def detailsRequests (events : List DetailsEvent) : List (String × QueryType) :=
  events.filterMap fun e =>
    match e with
    | DetailsEvent.get url type Slot.parseDetails => some (url, type)
    | _ => none

/-- The follow-up requests among the calls: URL of every `get` connected to
`parseUgoiraDetails`. -/
def followUpRequests (events : List DetailsEvent) : List String :=
  events.filterMap fun e =>
    match e with
    | DetailsEvent.get url _ Slot.parseUgoiraDetails => some url
    | _ => none

/-- The result signals among the calls. -/
def resultSignals (events : List DetailsEvent) : List LoadTagsResult :=
  events.filterMap fun e =>
    match e with
    | DetailsEvent.finishedLoadingTags result => some result
    | _ => none

/-- The URL-changed notifications among the calls. -/
def urlChanges (events : List DetailsEvent) : List (String × String) :=
  events.filterMap fun e =>
    match e with
    | DetailsEvent.urlChanged before after => some (before, after)
    | _ => none

/-- The pending details request completes with each of `replies` in turn: every
completion runs `parseDetails`; the calls are accumulated. -/
def completeAll (env : DetailsEnv) :
    List FinishedReply → DetailsItem × List DetailsEvent → DetailsItem × List DetailsEvent
  | [], acc => acc
  | reply :: rest, acc =>
    let r := parseDetails env reply acc.1
    completeAll env rest (r.1, acc.2 ++ r.2)

/-- A load is requested with `loadDetails()`, then the request and its re-issues
complete with `replies`. -/
def detailsRun (env : DetailsEnv) (s : DetailsItem) (replies : List FinishedReply) :
    DetailsItem × List DetailsEvent :=
  completeAll env replies (loadDetails s false)

/-- A load whose parse triggers the follow-up request: `parseDetails` on `reply`,
then the follow-up completes with `followUp` and `parseUgoiraDetails` runs. -/
def parseThenFollowUp (env : DetailsEnv) (reply followUp : FinishedReply) (s : DetailsItem) :
    Option (DetailsItem × List DetailsEvent) :=
  let r := parseDetails env reply s
  (parseUgoiraDetails env followUp r.1).map fun u => (u.1, r.2 ++ u.2)

/-- The reply is handed to the parser: no redirect, no rate limit, no Cloudflare
wall, no transport error, a parser is there and it reports no error. -/
def ParseSucceeds (env : DetailsEnv) (reply : FinishedReply) (api : DetailsApi) : Prop :=
  reply.redirectionTarget.isEmpty = true ∧ isRateLimited reply.statusCode = false ∧
    isCloudflareWall reply = false ∧ reply.error = ReplyError.NoError ∧
    env.detailsApi = some api ∧
    (api.parseDetails reply.body reply.statusCode).error.isEmpty = true

/-! ### Sample inputs -/

/-- An idle item with a details page. -/
def sampleDetailsItem : DetailsItem :=
  { m_loadingDetails := false, m_loadedDetails := false,
    m_pageUrl := "https://test.com/post/1", m_loadDetails := none,
    m_url := "https://test.com/file.jpg", fullUrl := "https://test.com/file.jpg",
    fullFileSize := 1234, m_extension := "", m_tags := [⟨"old", "general"⟩], m_pools := [],
    m_sources := ["https://source.com"], m_data := [], m_identity := [],
    m_extensionRotator := none, m_detailsParsWarnAsErr := false }

/-- The same item with a details request in flight. -/
def sampleLoadingItem : DetailsItem :=
  { sampleDetailsItem with m_loadingDetails := true, m_loadDetails := some ⟨true⟩ }

/-- A parser that accepts every page and reports the given tags and image URL. -/
def sampleApi (tags : List Tag) (imageUrl : String) : DetailsApi :=
  { name := "Html"
    parseDetails := fun _ _ =>
      { error := "", pools := [], tags := tags, createdAt := ⟨false, ""⟩, sources := [],
        imageUrl := imageUrl } }

/-- The characters after the last dot of a URL, none when it has no dot. -/
def sampleExtensionOf (url : String) : String :=
  String.mk ((url.data.foldl
    (fun acc c => if c = '.' then some [] else acc.map fun cs => cs ++ [c]) none).getD [])

/-- A site with the given parser, without the endpoint `ugoira_details`. -/
def sampleDetailsEnv (api : Option DetailsApi) : DetailsEnv :=
  { fixUrl := fun u => u, fixUrlFrom := fun u _ => u, detailsApi := api, ugoiraDetails := none,
    convertUgoira := false, getExtension := sampleExtensionOf }

/-- The same site with the endpoint `ugoira_details` and ugoira conversion enabled. -/
def sampleUgoiraEnv (api : Option DetailsApi) : DetailsEnv :=
  { sampleDetailsEnv api with
    ugoiraDetails := some
      { url := fun _ => "https://test.com/ugoira/1", parseAny := fun body _ => Variant.json (Json.str body) }
    convertUgoira := true }

/-- A finished reply without redirect or error. -/
def sampleReply (statusCode : Int) : FinishedReply :=
  { redirectionTarget := "", statusCode := statusCode, server := "", error := ReplyError.NoError,
    body := "<html/>" }

/-! ## Construction from a metadata record (`Image::Image`, image.cpp:92-273)

The constructor is modelled for a non-null site (with a null site it returns
before anything below). The entries `medias` and `tags` of the data map, which
the constructor takes out of it, are passed on their own; `data` is the map
without them. The variants are shared objects in the code: the model identifies
an object with its position in `m_allSizes`, taking the entries of the candidate
list to be distinct objects. -/

/-- The parent page as read by the constructor (`Page::url()`, `Page::search()`). -/
structure Page where
  url : String
  search : List String

/-- Helpers of the site and of functions.h read by the constructor; they are
declared in headers that are not part of the sources at hand and are taken as
parameters. -/
structure ConstructEnv where
  /-- `getExtension` and the codecs. -/
  helpers : Helpers
  /-- `setExtension(url, ext)`. -/
  setExtension : String → String → String
  /-- `removeCacheBuster(url)`. -/
  removeCacheBuster : String → String
  /-- `m_parentSite->fixLoginUrl(url)`. -/
  fixLoginUrl : String → String
  /-- `tag.type().isUnknown()` as a function of the type name. -/
  isUnknownType : String → Bool
  /-- `m_parentSite->tagDatabase()->getTagTypes(unknownTags)`: text to type name. -/
  getTagTypes : List String → StrMap String

/-- `details[key]` under a `contains` test, `details.value(key, dflt)`. -/
def detailsValue (details : StrMap String) (key dflt : String) : String :=
  (details.lookup key).getD dflt

/-- `QString::toInt()`: the value of an optionally signed decimal string that fits
32 bits, `0` for anything else. -/
def toInt (s : String) : Int :=
  let signed : Bool × List Char :=
    match s.data with
    | '-' :: rest => (true, rest)
    | '+' :: rest => (false, rest)
    | cs => (false, cs)
  if signed.2.isEmpty then 0
  else
    match decimalValue signed.2 with
    | some n =>
      let v : Int := if signed.1 then -(n : Int) else (n : Int)
      if -(2 ^ 31 : Int) ≤ v ∧ v < (2 ^ 31 : Int) then v else 0
    | none => 0

/-- `QString::contains(pattern)`. -/
def containsSubstr (s pattern : String) : Bool :=
  s.data.tails.any fun t => pattern.data.isPrefixOf t

/-- One iteration of the "Sizes" loop (image.cpp:123-147): the default variant
built for the role whose keys start with `pfx`. -/
def defaultVariant (env : ConstructEnv) (site : Site) (details : StrMap String) (pfx : String) :
    ImageSize :=
  let urlKey := (if pfx.isEmpty then "file_" else pfx) ++ "url"
  let url :=
    if StrMap.has details urlKey then
      env.removeCacheBuster (site.fixUrl (detailsValue details urlKey ""))
    else ""
  let width := toInt (detailsValue details (pfx ++ "width") "0")
  let height := toInt (detailsValue details (pfx ++ "height") "0")
  let size : QSize := if width > 0 && height > 0 then ⟨width, height⟩ else QSize.invalid
  let fileSize :=
    if StrMap.has details (pfx ++ "file_size") then
      toInt (detailsValue details (pfx ++ "file_size") "")
    else 0
  let rect : Option (Int × Int × Int × Int) :=
    if StrMap.has details (pfx ++ "rect") then
      match (detailsValue details (pfx ++ "rect") "").splitOn ";" with
      | [a, b, c, d] => some (toInt a, toInt b, toInt c, toInt d)
      | _ => none
    else none
  { type := Size.Unknown, url := url, size := size, fileSize := fileSize, rect := rect }

/-- The `prefixes` map of the "Sizes" loop (image.cpp:117-122), in key order. -/
def prefixes : List (Size × String) :=
  [(Size.Thumbnail, "preview_"), (Size.Sample, "sample_"), (Size.Full, "")]

/-- Positions in `m_allSizes` of the objects `m_sizes` points to after the "Sizes"
loop: every role has the object created for it, appended in key order. -/
def Resolver.initRefs : SizeMap Nat :=
  ((SizeMap.empty.insert Size.Thumbnail 0).insert Size.Sample 1).insert Size.Full 2

/-- Thumbnail rule (image.cpp:176-186) on the positions: when the rule assigns
`media`, the role points to the object at `idx`. -/
def Resolver.thumbnailRef (r : Resolver) (refs : SizeMap Nat) (media : ImageSize) (idx : Nat) :
    SizeMap Nat :=
  if (r.sizeOf Size.Thumbnail).isEmpty ||
      (isInRange media.size 150 300 &&
        (isBigger media.size (r.sizeOf Size.Thumbnail) ||
          !isInRange (r.sizeOf Size.Thumbnail) 150 300)) then
    refs.insert Size.Thumbnail idx
  else refs

/-- Sample rule (image.cpp:188-192) on the positions. -/
def Resolver.sampleRef (r : Resolver) (refs : SizeMap Nat) (media : ImageSize) (idx : Nat) :
    SizeMap Nat :=
  if isInRange media.size 500 1500 && isBigger media.size (r.sizeOf Size.Sample) then
    refs.insert Size.Sample idx
  else refs

/-- Full rule (image.cpp:194-198) on the positions. -/
def Resolver.fullRef (r : Resolver) (refs : SizeMap Nat) (media : ImageSize) (idx : Nat) :
    SizeMap Nat :=
  if isBigger media.size (r.sizeOf Size.Full) then
    refs.insert Size.Full idx
  else refs

/-- One iteration of `for (const auto &media : medias)` (image.cpp:163-199) on the
positions: `media` is appended to `m_allSizes` at position `r.m_allSizes.length`,
and every `m_sizes.insert(role, media)` of the iteration points the role to that
object. `r` is the state before the iteration. -/
def Resolver.stepRefs (r : Resolver) (refs : SizeMap Nat) (media : ImageSize) : SizeMap Nat :=
  let idx := r.m_allSizes.length
  let r0 := r.push media
  -- If type is provided, trust it
  if media.type ≠ Size.Unknown then
    refs.insert media.type idx
  else
    let refs1 := r0.thumbnailRef refs media idx
    let r1 := r0.thumbnailRule media
    let refs2 := r1.sampleRef refs1 media idx
    let r2 := r1.sampleRule media
    r2.fullRef refs2 media idx

/-- The whole resolution loop on the positions, next to `Resolver.run`. -/
def Resolver.runRefs (r : Resolver) (refs : SizeMap Nat) : List ImageSize → SizeMap Nat
  | [] => refs
  | media :: rest => Resolver.runRefs (r.step media) (r.stepRefs refs media) rest

/-- Invariant of the "Medias" loop on the positions: every role points to a
position of `m_allSizes` that holds the variant `m_sizes` has for the role, and
that position is the one of the object created for the role or the one of a
candidate. -/
def Resolver.RefsInv (r : Resolver) (refs : SizeMap Nat) : Prop :=
  3 ≤ r.m_allSizes.length ∧
    ∀ k, k ≠ Size.Unknown →
      ∃ i v, refs k = some i ∧ r.m_allSizes[i]? = some v ∧ r.m_sizes k = some v ∧
        (Resolver.initRefs k = some i ∨ 3 ≤ i)

/-- The members the extension block of the constructor works on: `m_url`, the
variants and `m_extension`. The variants are shared objects: `objects` holds them
in the order of `m_allSizes`, and `refs k` is the position in `objects` of the object
`m_sizes[k]` points to, so a candidate assigned to several roles is one object. The
entries of the candidate list are taken to be distinct objects. -/
structure UrlState where
  url : String
  objects : List ImageSize
  refs : SizeMap Nat
  extension : String

/-- `m_sizes[size]`: the object the role points to. -/
def UrlState.sizes (c : UrlState) (size : Size) : Option ImageSize :=
  (c.refs size).bind fun i => c.objects[i]?

/-- `Image::url(size)` during construction. -/
def UrlState.urlOf (c : UrlState) (size : Size) : String :=
  if size = Size.Full then c.url else ((c.sizes size).map ImageSize.url).getD ""

/-- `Image::setFileExtension(ext)` (image.cpp:1176-1181): the URL is rewritten in
the object `m_sizes[Full]` points to, so every role and every entry of `m_allSizes`
that is this object sees the new URL. The Full variant is always there when the
constructor calls it. -/
def UrlState.setFileExtension (env : ConstructEnv) (c : UrlState) (ext : String) : UrlState :=
  { c with
    url := env.setExtension c.url ext
    objects :=
      match c.refs Size.Full with
      | some i =>
        match c.objects[i]? with
        | some full => c.objects.set i { full with url := env.setExtension full.url ext }
        | none => c.objects
      | none => c.objects }

/-- The block "Guess the extension from the tags" (image.cpp:250-262). -/
def UrlState.guessFromTags (env : ConstructEnv) (tags : List Tag) (ext : String) (c : UrlState) :
    UrlState :=
  if (hasTag tags "swf" || hasTag tags "flash") && ext != "swf" then
    c.setFileExtension env "swf"
  else if (hasTag tags "gif" || hasTag tags "animated_gif") && ext != "webm" && ext != "mp4" then
    c.setFileExtension env "gif"
  else if hasTag tags "mp4" && ext != "gif" && ext != "webm" then
    c.setFileExtension env "mp4"
  else if hasTag tags "animated_png" && ext != "webm" && ext != "mp4" then
    c.setFileExtension env "png"
  else if (hasTag tags "webm" || hasTag tags "animated") && ext != "gif" && ext != "mp4" then
    c.setFileExtension env "webm"
  else c

/-- The block "Guess extension from sample url" (image.cpp:240-247): the state
with the fixed URL, `none` when nothing was fixed. -/
def UrlState.guessFromSample (env : ConstructEnv) (ext : String) (c : UrlState) :
    Option UrlState :=
  let previewExt := env.helpers.getExtension (c.urlOf Size.Thumbnail)
  if !(c.urlOf Size.Sample).isEmpty then
    let sampleExt := env.helpers.getExtension (c.urlOf Size.Sample)
    if sampleExt != "jpg" && sampleExt != "png" && sampleExt != ext && previewExt == ext then
      some { c with url := env.setExtension c.url sampleExt }
    else none
  else none

/-- The block "Get file url and try to improve it" (image.cpp:228-267), after
`m_url = m_sizes[Full]->url`. -/
def UrlState.fixExtension (env : ConstructEnv) (details : StrMap String) (tags : List Tag)
    (c : UrlState) : UrlState :=
  let ext := env.helpers.getExtension c.url
  if StrMap.has details "ext" && !(detailsValue details "ext" "").isEmpty then
    let realExt := detailsValue details "ext" ""
    if ext != realExt then
      let c1 := c.setFileExtension env realExt
      { c1 with extension := realExt }
    else c
  else if ext == "jpg" && !(c.urlOf Size.Thumbnail).isEmpty then
    match c.guessFromSample env ext with
    | some fixed => fixed
    | none => c.guessFromTags env tags ext
  else if StrMap.has details "image" &&
      containsSubstr (detailsValue details "image" "") "MB // gif\" height=\"" &&
      ext != "gif" then
    { c with url := env.setExtension c.url "gif" }
  else if ext == "webm" && hasTag tags "mp4" then
    { c with url := env.setExtension c.url "mp4" }
  else c

/-- The block "Complete missing tag type information" (image.cpp:213-226). -/
def completeTagTypes (env : ConstructEnv) (tags : List Tag) : List Tag :=
  let unknownTags := (tags.filter fun tag => env.isUnknownType tag.type).map Tag.text
  let dbTypes := env.getTagTypes unknownTags
  tags.map fun tag =>
    match dbTypes.lookup tag.text with
    | some type => { tag with type := type }
    | none => tag

/-- The item as the constructor leaves it: the fields shared with `read` and
`write`, and the others the constructor sets. -/
structure Constructed where
  d : ImageData
  m_isGallery : Bool
  m_sources : List String
  m_galleryCount : Int
  m_position : Int
  m_parentUrl : String
  m_extension : String
  m_allSizes : List ImageSize
  /-- `m_sizes` as positions in `m_allSizes`: which object every role points to. -/
  m_sizeRefs : SizeMap Nat

/-- `Image::Image(site, details, identity, data, profile, parent)` for a non-null
site (image.cpp:92-273). -/
def Image.construct (env : ConstructEnv) (site : Site) (details : StrMap String)
    (identity data : StrMap Variant) (medias : Option (List ImageSize))
    (tags : Option (List Tag)) (parent : Option Page) : Constructed :=
  -- Parents
  let parentUrl := match parent with
    | some page => page.url
    | none => ""
  -- Other details
  let isGallery := StrMap.has details "type" && detailsValue details "type" "" == "gallery"
  let md5 := if StrMap.has details "md5" then detailsValue details "md5" "" else ""
  let name := if StrMap.has details "name" then detailsValue details "name" "" else ""
  let search := match parent with
    | some page => page.search
    | none =>
      if StrMap.has details "search" then (detailsValue details "search" "").splitOn " " else []
  let id := if StrMap.has details "id" then toULongLong (detailsValue details "id" "") else 0
  let sources :=
    if StrMap.has details "sources" then (detailsValue details "sources" "").splitOn "\n"
    else if StrMap.has details "source" then [detailsValue details "source" ""]
    else []
  let galleryCount :=
    if StrMap.has details "gallery_count" then toInt (detailsValue details "gallery_count" "")
    else -1
  let position :=
    if StrMap.has details "position" then toInt (detailsValue details "position" "") else 0
  -- Sizes, then Medias
  let resolver :=
    match medias with
    | some candidates =>
      resolveMedias (defaultVariant env site details "preview_")
        (defaultVariant env site details "sample_") (defaultVariant env site details "")
        candidates
    | none =>
      Resolver.init (defaultVariant env site details "preview_")
        (defaultVariant env site details "sample_") (defaultVariant env site details "")
  let refs :=
    match medias with
    | some candidates =>
      Resolver.runRefs
        (Resolver.init (defaultVariant env site details "preview_")
          (defaultVariant env site details "sample_") (defaultVariant env site details ""))
        Resolver.initRefs candidates
    | none => Resolver.initRefs
  -- Page url
  let pageUrl :=
    if StrMap.has details "page_url" then
      site.fixUrl (env.fixLoginUrl (detailsValue details "page_url" ""))
    else ""
  -- Tags
  let itemTags := completeTagTypes env (tags.getD [])
  -- Get file url and try to improve it to save bandwidth
  let fullUrl := ((resolver.m_sizes Size.Full).map ImageSize.url).getD ""
  let fixed := UrlState.fixExtension env details itemTags
    { url := fullUrl, objects := resolver.m_allSizes, refs := refs, extension := "" }
  -- Remove ? in urls
  let url := env.removeCacheBuster fixed.url
  let d : ImageData :=
    { parentSite := some site, sizes := fixed.sizes, tags := itemTags, search := search,
      name := name, id := id, md5 := md5, url := url, data := data, identity := identity,
      pageUrl := pageUrl, extensionRotator := none }
  { d := d.init env.helpers site, m_isGallery := isGallery, m_sources := sources,
    m_galleryCount := galleryCount, m_position := position, m_parentUrl := parentUrl,
    m_extension := fixed.extension, m_allSizes := fixed.objects, m_sizeRefs := fixed.refs }

/-- `Image::isGallery()`. -/
def Constructed.isGallery (c : Constructed) : Bool := c.m_isGallery

/-- `Image::id()`. -/
def Constructed.id (c : Constructed) : Nat := c.d.id

/-! ### Sample inputs -/

/-- Helpers that leave URLs without a dot untouched, as the tests of functions.h
require for the empty URL. -/
def sampleConstructEnv : ConstructEnv :=
  { helpers := { sampleHelpers with getExtension := sampleExtensionOf }
    setExtension := fun url ext =>
      if url.data.contains '.' then
        String.mk (url.data.reverse.dropWhile (fun c => c != '.')).reverse ++ ext
      else url
    removeCacheBuster := fun url => url
    fixLoginUrl := fun url => url
    isUnknownType := fun type => type == "unknown"
    getTagTypes := fun _ => [] }

/-- The record of the example: id 42, md5 abc, type gallery. -/
def sampleGalleryDetails : StrMap String :=
  [("id", "42"), ("md5", "abc"), ("type", "gallery")]

/-! ## Bounded-size lookup (`Image::mediaForSize`, image.cpp:1378-1399) -/

/-- A media qualifies for the bound `size`: its size is valid, it fits the bound
and, when a thumbnail is asked for, its URL extension is the thumbnail's. -/
def mediaQualifies (getExtension : String → String) (thumbnailExt : String) (size : QSize)
    (thumbnail : Bool) (media : ImageSize) : Bool :=
  media.size.isValid && decide (media.size.width ≤ size.width) &&
    decide (media.size.height ≤ size.height) &&
    (!thumbnail || getExtension media.url == thumbnailExt)

/-- One iteration of the loop of `mediaForSize` (image.cpp:1385-1391). -/
def mediaForSizeStep (getExtension : String → String) (thumbnailExt : String) (size : QSize)
    (thumbnail : Bool) (ret : Option ImageSize) (media : ImageSize) : Option ImageSize :=
  if media.size.isValid && decide (media.size.width ≤ size.width) &&
      decide (media.size.height ≤ size.height) &&
      (match ret with
       | none => true
       | some best => isBigger media.size best.size) then
    if !thumbnail || getExtension media.url == thumbnailExt then some media else ret
  else ret

/-- `Image::mediaForSize(size, thumbnail)`. The result is `none` when the Thumbnail
variant is missing from `m_sizes` (the code dereferences it). -/
def mediaForSize (getExtension : String → String) (m_sizes : SizeMap ImageSize)
    (m_allSizes : List ImageSize) (size : QSize) (thumbnail : Bool) : Option ImageSize :=
  match m_sizes Size.Thumbnail with
  | none => none
  | some thumb =>
    let thumbnailExt := getExtension thumb.url
    -- Find the biggest media smaller than the given size
    let ret := m_allSizes.foldl (mediaForSizeStep getExtension thumbnailExt size thumbnail) none
    -- Default to the thumbnail if no media was found
    some (ret.getD thumb)

/-- State of the loop of `mediaForSize` after the medias `seen`: nothing chosen and
none of them qualifies, or a qualifying one of them is chosen and none of the
qualifying ones is bigger. -/
def LookupInv (q : ImageSize → Bool) (seen : List ImageSize) : Option ImageSize → Prop
  | none => ∀ m ∈ seen, q m = false
  | some best => best ∈ seen ∧ q best = true ∧
      ∀ m ∈ seen, q m = true → isBigger m.size best.size = false

/-! ## Role selection: invariants of the resolution loop -/

/-- The entry of role `k` in `m_sizes` and in the bookkeeping map agree. -/
def Resolver.Sync (r : Resolver) (k : Size) (v : ImageSize) : Prop :=
  r.m_sizes k = some v ∧ r.sizeOf k = v.size

/-- State of the Sample role after the unlabeled candidates `seen`: the variant is
the default one or one of them lying in [500,1500], and none of them lying in
[500,1500] is bigger. -/
def SampleInv (dflt : ImageSize) (seen : List ImageSize) (r : Resolver) : Prop :=
  ∃ s, r.Sync Size.Sample s ∧
    (s = dflt ∨ (s ∈ seen ∧ isInRange s.size 500 1500 = true)) ∧
    ∀ m ∈ seen, isInRange m.size 500 1500 = true → isBigger m.size s.size = false

/-- State of the Thumbnail role after the unlabeled candidates `seen`: either none
of them lies in [150,300], or the variant lies in [150,300], has a non-empty size
and none of them lying in [150,300] is bigger. -/
def ThumbnailInv (seen : List ImageSize) (r : Resolver) : Prop :=
  ∃ t, r.Sync Size.Thumbnail t ∧
    ((∀ m ∈ seen, isInRange m.size 150 300 = false) ∨
      (isInRange t.size 150 300 = true ∧ t.size.isEmpty = false ∧
        ∀ m ∈ seen, isInRange m.size 150 300 = true → isBigger m.size t.size = false))

/-- The variant read from the record for the role stored under `key`
(image.cpp:385-392). -/
def recordVariant (h : Helpers) (json : JsonObject) (key : String) : ImageSize :=
  if StrMap.has json "sizes" then
    if StrMap.has (JsonObject.get json "sizes").toObject key then
      h.sizeRead (JsonObject.get (JsonObject.get json "sizes").toObject key).toObject
    else ImageSize.default
  else ImageSize.default

/-- The variant `a` is the variant `b` up to its URL: the same object after
`setFileExtension` or `read` rewrote the URL it holds. -/
def ImageSize.sameButUrl (a b : ImageSize) : Prop :=
  a.type = b.type ∧ a.size = b.size ∧ a.fileSize = b.fileSize ∧ a.rect = b.rect

/-! ## Copyright shortening (`Image::generateTokens`, image.cpp:1293-1311) -/

/-- `QString::left(n)` for `n ≥ 0`: the first `n` characters, the whole string when
it is shorter. -/
def qLeft (s : String) (n : Nat) : String := ⟨s.data.take n⟩

/-- The test of the inner loop, `copyright.left(cop.size()) == cop.left(copyright.size())`. -/
def prefixComparable (copyright cop : String) : Bool :=
  qLeft copyright cop.length == qLeft cop copyright.length

/-- One iteration of `for (const QString &cop : details["copyright"])`: the inner
loop visits every entry of `copyrights` once, replaces it by `cop` when the two are
comparable and `cop` is shorter, and sets `found` when one entry was comparable;
`cop` is appended when none was. -/
def shortenStep (copyrights : List String) (cop : String) : List String :=
  let found := copyrights.any fun copyright => prefixComparable copyright cop
  let updated := copyrights.map fun copyright =>
    if prefixComparable copyright cop && decide (cop.length < copyright.length) then cop
    else copyright
  if !found then updated ++ [cop] else updated

/-- The block "Shorten copyrights" for `Save/copyright_useshorter` enabled: the
list stored back in `details["copyright"]`. -/
def shortenCopyrights (cops : List String) : List String :=
  cops.foldl shortenStep []

/-- The value of `details["copyright"]` the tokens are built from, for the setting
`Save/copyright_useshorter`. -/
def tokenCopyrights (useShorter : Bool) (cops : List String) : List String :=
  if useShorter then shortenCopyrights cops else cops

/-- The text `y` is a prefix of the text `x`. -/
def isPrefixOf (y x : String) : Prop := y.data <+: x.data

/-- The text `y` is a proper prefix of the text `x`. -/
def isProperPrefixOf (y x : String) : Prop := y.data <+: x.data ∧ y ≠ x

/-- Invariant of the outer loop after the inputs `seen`: every entry is an input
with no other input as a proper prefix, and every input has an entry as a prefix. -/
def ShortenInv (seen copyrights : List String) : Prop :=
  (∀ x ∈ copyrights, x ∈ seen ∧ ∀ y ∈ seen, isPrefixOf y x → y = x) ∧
    ∀ y ∈ seen, ∃ m ∈ copyrights, isPrefixOf m y

/-! ## Tag-based extension guessing (image.cpp:228-267) -/

/-- The members `m_url`, `m_sizes` and `m_extension` when the constructor reaches
"Get file url and try to improve it" (image.cpp:229): the objects of `m_allSizes`
and the positions `m_sizes` points to after the "Sizes" and "Medias" blocks, and
`m_url = m_sizes[Full]->url`. -/
def Image.urlStateAtFix (env : ConstructEnv) (site : Site) (details : StrMap String)
    (medias : Option (List ImageSize)) : UrlState :=
  let resolver :=
    match medias with
    | some candidates =>
      resolveMedias (defaultVariant env site details "preview_")
        (defaultVariant env site details "sample_") (defaultVariant env site details "")
        candidates
    | none =>
      Resolver.init (defaultVariant env site details "preview_")
        (defaultVariant env site details "sample_") (defaultVariant env site details "")
  let refs :=
    match medias with
    | some candidates =>
      Resolver.runRefs
        (Resolver.init (defaultVariant env site details "preview_")
          (defaultVariant env site details "sample_") (defaultVariant env site details ""))
        Resolver.initRefs candidates
    | none => Resolver.initRefs
  { url := ((resolver.m_sizes Size.Full).map ImageSize.url).getD ""
    objects := resolver.m_allSizes
    refs := refs
    extension := "" }

/-- The extension named by the specification for an item with the given tags:
swf if it has tag swf or flash; else gif if it has gif or animated_gif; else mp4 if
it has mp4; else png if it has animated_png; else webm if it has webm or animated;
else jpg. -/
def specGuessedExtension (tags : List Tag) : String :=
  if hasTag tags "swf" || hasTag tags "flash" then "swf"
  else if hasTag tags "gif" || hasTag tags "animated_gif" then "gif"
  else if hasTag tags "mp4" then "mp4"
  else if hasTag tags "animated_png" then "png"
  else if hasTag tags "webm" || hasTag tags "animated" then "webm"
  else "jpg"

/-- The texts of the tags without their case. -/
def loweredTexts (tags : List Tag) : List String := tags.map fun t => qLower t.text

/-! ### Sample inputs -/

/-- A record with a jpg file URL and a preview URL, without an `ext` field. -/
def sampleJpgDetails : StrMap String :=
  [("file_url", "https://test.com/file.jpg"), ("preview_url", "https://test.com/thumb.jpg")]

/-! ## Reverse-search engines
(`ReverseSearchLoader::getAllReverseSearchEngines`, reverse-search-loader.cpp:11-38) -/

/-- The arguments `ReverseSearchEngine(id, icon, name, tpl, order)` is built from. -/
structure ReverseSearchEngine where
  id : Int
  icon : String
  name : String
  tpl : String
  order : Int
  deriving DecidableEq, Repr

/-- One child group of `WebServices` as the loop reads it: the group name,
`value("order").toInt()`, `value("name").toString()` and `value("url").toString()`. -/
structure WebGroup where
  group : String
  order : Int
  name : String
  url : String
  deriving DecidableEq, Repr

/-- The part of the settings store the loader reads: `webServices` is `none` when
`childGroups()` does not contain `WebServices`, otherwise the child groups of
`WebServices` in the order `childGroups()` lists them. -/
structure Settings where
  webServices : Option (List WebGroup)

/-- `QMap<int, V>::insert(key, value)` on the entries in ascending key order: the
value of an existing key is replaced. -/
def QMap.insert {V : Type} (m : List (Int × V)) (k : Int) (v : V) : List (Int × V) :=
  match m with
  | [] => [(k, v)]
  | (k', v') :: rest =>
    if k < k' then (k, v) :: (k', v') :: rest
    else if k = k' then (k, v) :: rest
    else (k', v') :: QMap.insert rest k v

/-- `QMap<int, V>::values()`: the values in ascending key order. -/
def QMap.values {V : Type} (m : List (Int × V)) : List V := m.map Prod.snd

/-- The engine built in the loop for one child group (reverse-search-loader.cpp:31-32). -/
def engineOfGroup (savePath : String → String) (g : WebGroup) : ReverseSearchEngine :=
  { id := toInt g.group
    icon := savePath ("webservices/" ++ g.group ++ ".ico")
    name := g.name
    tpl := g.url
    order := g.order }

/-- The block "Default groups" (reverse-search-loader.cpp:16-23): the entries
inserted when there is no `WebServices` group. -/
def defaultEngines (savePath : String → String) : List (Int × ReverseSearchEngine) :=
  [(1, ⟨1, savePath "webservices/1.ico", "IQDB", "https://iqdb.org/?url=\x7burl\x7d", 1⟩),
   (2, ⟨2, savePath "webservices/2.ico", "SauceNAO",
      "https://saucenao.com/search.php?db=999&url=\x7burl\x7d", 2⟩),
   (3, ⟨3, savePath "webservices/3.ico", "Google",
      "https://lens.google.com/uploadbyurl?url=\x7burl\x7d", 3⟩),
   (4, ⟨4, savePath "webservices/4.ico", "TinEye",
      "https://www.tineye.com/search/?url=\x7burl\x7d", 4⟩),
   (5, ⟨5, savePath "webservices/5.ico", "Yandex",
      "https://yandex.ru/images/search?rpt=imageview&img_url=\x7burl\x7d", 5⟩),
   (6, ⟨6, savePath "webservices/6.ico", "waifu2x",
      "https://waifu2x.udp.jp/index.html?url=\x7burl\x7d", 6⟩)]

/-- The block "Load groups" (reverse-search-loader.cpp:25-35) on the map `ret`. -/
def loadGroups (savePath : String → String) (groups : List WebGroup)
    (ret : List (Int × ReverseSearchEngine)) : List (Int × ReverseSearchEngine) :=
  groups.foldl (fun acc g => QMap.insert acc g.order (engineOfGroup savePath g)) ret

/-- `ReverseSearchLoader::getAllReverseSearchEngines()`; `savePath` is the helper of
functions.h, which is not part of the sources at hand. -/
def getAllReverseSearchEngines (savePath : String → String) (settings : Settings) :
    List ReverseSearchEngine :=
  let ret : List (Int × ReverseSearchEngine) := []
  -- Default groups
  let ret :=
    match settings.webServices with
    | none => (defaultEngines savePath).foldl (fun acc e => QMap.insert acc e.1 e.2) ret
    | some _ => ret
  -- Load groups
  let ret := loadGroups savePath (settings.webServices.getD []) ret
  QMap.values ret

/-- The group `g` is the last child group of `groups` with its order value. -/
def IsLastOfOrder (groups : List WebGroup) (g : WebGroup) : Prop :=
  ∃ pre post, groups = pre ++ g :: post ∧ ∀ h ∈ post, h.order ≠ g.order

/-- Invariant of the loop "Load groups" after the child groups `seen`: the keys are
strictly ascending, they are the order values seen, and the entries are the engines
of the groups that are the last with their order value. -/
def LoadInv (savePath : String → String) (seen : List WebGroup)
    (ret : List (Int × ReverseSearchEngine)) : Prop :=
  (ret.map Prod.fst).Pairwise (fun a b => a < b) ∧
    (∀ k, k ∈ ret.map Prod.fst ↔ k ∈ seen.map WebGroup.order) ∧
    ∀ k e, (k, e) ∈ ret ↔
      ∃ g, IsLastOfOrder seen g ∧ k = g.order ∧ e = engineOfGroup savePath g

/-! ### Sample inputs -/

/-- Two engines configured with the same order value. -/
def sampleClashingGroups : List WebGroup :=
  [⟨"1", 1, "IQDB", "https://iqdb.org/?url=\x7burl\x7d"⟩,
   ⟨"2", 1, "SauceNAO", "https://saucenao.com/search.php?db=999&url=\x7burl\x7d"⟩]

/-! ## Theorems: media resolution -/

theorem Resolver.run_append (r : Resolver) (xs ys : List ImageSize) :
    r.run (xs ++ ys) = (r.run xs).run ys := by
  simp [Resolver.run, List.foldl_append]

theorem Resolver.run_cons (r : Resolver) (x : ImageSize) (xs : List ImageSize) :
    r.run (x :: xs) = (r.step x).run xs := rfl

theorem Resolver.run_nil (r : Resolver) : r.run [] = r := rfl

@[simp] theorem Resolver.assign_m_sizes (r : Resolver) (k k' : Size) (v : ImageSize) :
    (r.assign k v).m_sizes k' = if k' = k then some v else r.m_sizes k' := rfl

@[simp] theorem Resolver.assign_sizeOf (r : Resolver) (k k' : Size) (v : ImageSize) :
    (r.assign k v).sizeOf k' = if k' = k then v.size else r.sizeOf k' := by
  unfold Resolver.assign Resolver.sizeOf SizeMap.insert
  by_cases h : k' = k <;> simp [h]

@[simp] theorem Resolver.push_m_sizes (r : Resolver) (m : ImageSize) :
    (r.push m).m_sizes = r.m_sizes := rfl

@[simp] theorem Resolver.push_sizeOf (r : Resolver) (m : ImageSize) (k : Size) :
    (r.push m).sizeOf k = r.sizeOf k := rfl

theorem Resolver.thumbnailRule_other (r : Resolver) (m : ImageSize) (k : Size)
    (hk : k ≠ Size.Thumbnail) :
    (r.thumbnailRule m).m_sizes k = r.m_sizes k ∧ (r.thumbnailRule m).sizeOf k = r.sizeOf k := by
  unfold Resolver.thumbnailRule
  split <;> simp [hk]

theorem Resolver.sampleRule_other (r : Resolver) (m : ImageSize) (k : Size)
    (hk : k ≠ Size.Sample) :
    (r.sampleRule m).m_sizes k = r.m_sizes k ∧ (r.sampleRule m).sizeOf k = r.sizeOf k := by
  unfold Resolver.sampleRule
  split <;> simp [hk]

theorem Resolver.fullRule_other (r : Resolver) (m : ImageSize) (k : Size)
    (hk : k ≠ Size.Full) :
    (r.fullRule m).m_sizes k = r.m_sizes k ∧ (r.fullRule m).sizeOf k = r.sizeOf k := by
  unfold Resolver.fullRule
  split <;> simp [hk]

theorem isBigger_false_area {a b : QSize} (h : isBigger a b = false) : a.area ≤ b.area := by
  simp [isBigger] at h
  omega

theorem isBigger_true_area {a b : QSize} (h : isBigger a b = true) : b.area ≤ a.area := by
  simp [isBigger] at h
  omega

theorem Resolver.init_fullSync (t s f : ImageSize) : (Resolver.init t s f).FullSync := by
  refine ⟨f, ?_, ?_⟩ <;> simp [Resolver.init, SizeMap.insert, Resolver.sizeOf]

theorem Resolver.fullRule_spec (r : Resolver) (m : ImageSize) (hs : r.FullSync) :
    (r.fullRule m).FullSync ∧
      (r.sizeOf Size.Full).area ≤ ((r.fullRule m).sizeOf Size.Full).area ∧
      m.size.area ≤ ((r.fullRule m).sizeOf Size.Full).area := by
  obtain ⟨f, hf, hfs⟩ := hs
  unfold Resolver.fullRule
  split
  · next hb =>
    exact ⟨⟨m, by simp, by simp⟩, by simpa using isBigger_true_area hb, by simp⟩
  · next hb =>
    simp only [Bool.not_eq_true] at hb
    exact ⟨⟨f, hf, hfs⟩, le_refl _, isBigger_false_area hb⟩

theorem Resolver.step_full (r : Resolver) (media : ImageSize) (hs : r.FullSync)
    (hm : media.type ≠ Size.Full) :
    (r.step media).FullSync ∧
      (r.sizeOf Size.Full).area ≤ ((r.step media).sizeOf Size.Full).area ∧
      (media.type = Size.Unknown → media.size.area ≤ ((r.step media).sizeOf Size.Full).area) := by
  by_cases hu : media.type = Size.Unknown
  · have h1 := Resolver.thumbnailRule_other (r.push media) media Size.Full (by decide)
    have h2 := Resolver.sampleRule_other ((r.push media).thumbnailRule media) media Size.Full
      (by decide)
    have hs2 : (((r.push media).thumbnailRule media).sampleRule media).FullSync := by
      obtain ⟨f, hf, hfs⟩ := hs
      exact ⟨f, by rw [h2.1, h1.1]; exact hf, by rw [h2.2, h1.2]; exact hfs⟩
    have h3 := Resolver.fullRule_spec _ media hs2
    rw [h2.2, h1.2] at h3
    simp only [Resolver.step, hu, ne_eq, not_true_eq_false, if_false]
    exact ⟨h3.1, h3.2.1, fun _ => h3.2.2⟩
  · obtain ⟨f, hf, hfs⟩ := hs
    simp only [Resolver.step, ne_eq, hu, not_false_eq_true, if_true]
    refine ⟨⟨f, ?_, ?_⟩, ?_, ?_⟩
    · simp [Ne.symm hm, hf]
    · simp [Ne.symm hm, hfs]
    · simp [Ne.symm hm]
    · intro h; exact h.elim

theorem Resolver.run_full (post : List ImageSize) :
    ∀ (r : Resolver), r.FullSync → (∀ m ∈ post, m.type ≠ Size.Full) →
      (r.run post).FullSync ∧
        (r.sizeOf Size.Full).area ≤ ((r.run post).sizeOf Size.Full).area ∧
        ∀ m ∈ post, m.type = Size.Unknown → m.size.area ≤ ((r.run post).sizeOf Size.Full).area := by
  induction post with
  | nil => intro r hs _; exact ⟨hs, le_refl _, by simp⟩
  | cons x xs ih =>
    intro r hs hp
    have hx := Resolver.step_full r x hs (hp x (by simp))
    have hr := ih (r.step x) hx.1 (fun m hm => hp m (by simp [hm]))
    rw [Resolver.run_cons]
    refine ⟨hr.1, le_trans hx.2.1 hr.2.1, ?_⟩
    intro m hm hu
    rcases List.mem_cons.1 hm with rfl | hm
    · exact le_trans (hx.2.2 hu) hr.2.1
    · exact hr.2.2 m hm hu

theorem Resolver.step_fullSync (r : Resolver) (media : ImageSize) (hs : r.FullSync) :
    (r.step media).FullSync := by
  by_cases hm : media.type = Size.Full
  · refine ⟨media, ?_, ?_⟩ <;> simp [Resolver.step, hm]
  · exact (Resolver.step_full r media hs hm).1

theorem Resolver.run_fullSync (xs : List ImageSize) :
    ∀ (r : Resolver), r.FullSync → (r.run xs).FullSync := by
  induction xs with
  | nil => intro r hs; exact hs
  | cons x xs ih => intro r hs; exact ih _ (Resolver.step_fullSync r x hs)

/-- C1 (as stated, refuted): a big unlabeled candidate followed by a small
candidate hinted Full leaves the small one as Full. -/
theorem full_area_hint_counterexample :
    (resolveMedias ImageSize.default ImageSize.default (mkMedia Size.Unknown "f.jpg" 100 100)
        [mkMedia Size.Unknown "big.jpg" 2000 2000, mkMedia Size.Full "small.jpg" 10 10]).variant
          Size.Full = some (mkMedia Size.Full "small.jpg" 10 10) ∧
      mkMedia Size.Unknown "big.jpg" 2000 2000 ∈
        [mkMedia Size.Unknown "big.jpg" 2000 2000, mkMedia Size.Full "small.jpg" 10 10] ∧
      (mkMedia Size.Full "small.jpg" 10 10).size.area <
        (mkMedia Size.Unknown "big.jpg" 2000 2000).size.area := by
  decide

/-- C1 (amended): after the resolution loop over `pre ++ post`, where no candidate
of `post` is hinted Full, Full is assigned, its area is at least the area Full had
after `pre`, and at least the area of every unlabeled candidate of `post`. -/
theorem full_area_ge_unlabeled (thumbnail sample full : ImageSize) (pre post : List ImageSize)
    (hpost : ∀ m ∈ post, m.type ≠ Size.Full) :
    ∃ f f0, (resolveMedias thumbnail sample full (pre ++ post)).variant Size.Full = some f ∧
      (resolveMedias thumbnail sample full pre).variant Size.Full = some f0 ∧
      f0.size.area ≤ f.size.area ∧
      ∀ m ∈ post, m.type = Size.Unknown → m.size.area ≤ f.size.area := by
  have h0 := Resolver.run_fullSync pre _ (Resolver.init_fullSync thumbnail sample full)
  have h1 := Resolver.run_full post _ h0 hpost
  obtain ⟨f0, hf0, hs0⟩ := h0
  obtain ⟨⟨f, hf, hs⟩, hmono, hall⟩ := h1
  refine ⟨f, f0, ?_, ?_, ?_, ?_⟩
  · simpa [resolveMedias, Resolver.variant, Resolver.run_append] using hf
  · simpa [resolveMedias, Resolver.variant] using hf0
  · rw [hs0, hs] at hmono; exact hmono
  · intro m hm hu
    have := hall m hm hu
    rw [hs] at this; exact this

theorem full_area_ge_unlabeled_witness :
    ∃ f f0, (resolveMedias ImageSize.default ImageSize.default ImageSize.default
        ([] ++ [mkMedia Size.Unknown "a.jpg" 200 200, mkMedia Size.Sample "b.jpg" 900 900])).variant
          Size.Full = some f ∧
      (resolveMedias ImageSize.default ImageSize.default ImageSize.default []).variant
          Size.Full = some f0 ∧
      f0.size.area ≤ f.size.area ∧
      ∀ m ∈ [mkMedia Size.Unknown "a.jpg" 200 200, mkMedia Size.Sample "b.jpg" 900 900],
        m.type = Size.Unknown → m.size.area ≤ f.size.area :=
  full_area_ge_unlabeled ImageSize.default ImageSize.default ImageSize.default []
    [mkMedia Size.Unknown "a.jpg" 200 200, mkMedia Size.Sample "b.jpg" 900 900] (by decide)

/-- C3: when the destination already exists on disk, `preSave` returns
`AlreadyExistsDisk` for every size role, hash and registry state, leaves the
profile (registry) as it was and makes no call at all: the registry is not
consulted, no directory is created and no file is written. -/
theorem preSave_destination_exists (disk : Disk) (profile : Profile) (item : SaveItem)
    (path : String) (size : Size) (h : disk.fileExists path = true) :
    (preSave disk profile item path size).result = SaveResult.AlreadyExistsDisk ∧
      (preSave disk profile item path size).profile = profile ∧
      (preSave disk profile item path size).effects = [] := by
  simp [preSave, h]

theorem preSave_destination_exists_witness :
    (preSave (sampleDisk ["/out/a.jpg"]) (sampleProfile "move" [("abc", "/old/a.jpg")])
        sampleItem "/out/a.jpg" Size.Full).result = SaveResult.AlreadyExistsDisk ∧
      (preSave (sampleDisk ["/out/a.jpg"]) (sampleProfile "move" [("abc", "/old/a.jpg")])
        sampleItem "/out/a.jpg" Size.Full).profile = sampleProfile "move" [("abc", "/old/a.jpg")] ∧
      (preSave (sampleDisk ["/out/a.jpg"]) (sampleProfile "move" [("abc", "/old/a.jpg")])
        sampleItem "/out/a.jpg" Size.Full).effects = [] :=
  preSave_destination_exists (sampleDisk ["/out/a.jpg"])
    (sampleProfile "move" [("abc", "/old/a.jpg")]) sampleItem "/out/a.jpg" Size.Full (by decide)

/-- C4: for a non-thumbnail save whose destination does not exist and whose
registry action token is `ignore`, `preSave` returns `AlreadyExistsDeletedMd5` when
the recorded duplicate path is missing on disk and `AlreadyExistsMd5` when it is
there; the only call made is the registry lookup (no directory is created, no
file is written) and the profile (registry) is unchanged. -/
theorem preSave_ignore (disk : Disk) (profile : Profile) (item : SaveItem)
    (path : String) (size : Size) (hsize : size ≠ Size.Thumbnail)
    (hdest : disk.fileExists path = false)
    (hact : (profile.md5Action item.md5 path).1 = "ignore") :
    (preSave disk profile item path size).result =
        (if disk.fileExists (profile.md5Action item.md5 path).2 then SaveResult.AlreadyExistsMd5
         else SaveResult.AlreadyExistsDeletedMd5) ∧
      (preSave disk profile item path size).profile = profile ∧
      (preSave disk profile item path size).effects = [Effect.md5Action item.md5 path] := by
  by_cases hd : disk.fileExists (profile.md5Action item.md5 path).2 = true <;>
    simp [preSave, md5actionFor, hsize, hdest, hact, hd]

theorem preSave_ignore_witness :
    (preSave (sampleDisk []) (sampleProfile "ignore" [("abc", "/old/a.jpg")])
        sampleItem "/out/a.jpg" Size.Full).result =
        (if (sampleDisk []).fileExists
            ((sampleProfile "ignore" [("abc", "/old/a.jpg")]).md5Action sampleItem.md5
              "/out/a.jpg").2 then SaveResult.AlreadyExistsMd5
         else SaveResult.AlreadyExistsDeletedMd5) ∧
      (preSave (sampleDisk []) (sampleProfile "ignore" [("abc", "/old/a.jpg")])
        sampleItem "/out/a.jpg" Size.Full).profile =
          sampleProfile "ignore" [("abc", "/old/a.jpg")] ∧
      (preSave (sampleDisk []) (sampleProfile "ignore" [("abc", "/old/a.jpg")])
        sampleItem "/out/a.jpg" Size.Full).effects =
          [Effect.md5Action sampleItem.md5 "/out/a.jpg"] :=
  preSave_ignore (sampleDisk []) (sampleProfile "ignore" [("abc", "/old/a.jpg")])
    sampleItem "/out/a.jpg" Size.Full (by decide) (by decide) (by decide)

/-- C5: for a Thumbnail target the result of `preSave` and the calls it makes are
the same for any two profiles (registry contents and lookup answers), the
registry is never consulted, and the result is none of `AlreadyExistsMd5`,
`AlreadyExistsDeletedMd5`, `Copied`, `Moved`, `Linked`, `Shortcut`. -/
theorem preSave_thumbnail_independent (disk : Disk) (p1 p2 : Profile) (item : SaveItem)
    (path : String) :
    (preSave disk p1 item path Size.Thumbnail).result =
        (preSave disk p2 item path Size.Thumbnail).result ∧
      (preSave disk p1 item path Size.Thumbnail).effects =
        (preSave disk p2 item path Size.Thumbnail).effects ∧
      (∀ h p, Effect.md5Action h p ∉ (preSave disk p1 item path Size.Thumbnail).effects) ∧
      (preSave disk p1 item path Size.Thumbnail).result ≠ SaveResult.AlreadyExistsMd5 ∧
      (preSave disk p1 item path Size.Thumbnail).result ≠ SaveResult.AlreadyExistsDeletedMd5 ∧
      (preSave disk p1 item path Size.Thumbnail).result ≠ SaveResult.Copied ∧
      (preSave disk p1 item path Size.Thumbnail).result ≠ SaveResult.Moved ∧
      (preSave disk p1 item path Size.Thumbnail).result ≠ SaveResult.Linked ∧
      (preSave disk p1 item path Size.Thumbnail).result ≠ SaveResult.Shortcut := by
  simp only [preSave, md5actionFor]
  by_cases h1 : disk.fileExists path = true <;>
    by_cases h2 : disk.dirExists (sectionAllButLast path disk.separator) = true <;>
    by_cases h3 : disk.mkpath (sectionAllButLast path disk.separator) = true <;>
    by_cases h4 : (disk.save Size.Thumbnail path).isEmpty = true <;>
    simp [h1, h2, h3, h4]

/-- C6 (as stated, refuted): destination absent, action `save`, directory present,
but the variant holds no payload: the result is `NotLoaded`, not `Saved`. -/
theorem preSave_not_loaded_counterexample :
    (sampleDiskNoPayload []).fileExists "/out/a.jpg" = false ∧
      (md5actionFor (sampleProfile "save" []) sampleItem "/out/a.jpg" Size.Full).1 = "save" ∧
      (sampleDiskNoPayload []).dirExists
        (sectionAllButLast "/out/a.jpg" (sampleDiskNoPayload []).separator) = true ∧
      (preSave (sampleDiskNoPayload []) (sampleProfile "save" []) sampleItem
        "/out/a.jpg" Size.Full).result = SaveResult.NotLoaded ∧
      (preSave (sampleDiskNoPayload []) (sampleProfile "save" []) sampleItem
        "/out/a.jpg" Size.Full).result ≠ SaveResult.Saved := by
  decide

/-- C6 (amended): for a save whose destination does not exist and whose action is
`save` (registry token `save`, or any Thumbnail target): if the destination
directory is missing and cannot be created the result is `Error`; otherwise the
result is `Saved` when the variant's `save` yields a path and `NotLoaded` when it
yields none. The variant's `save` is called on the destination exactly when the
directory is there or could be created. -/
theorem preSave_save (disk : Disk) (profile : Profile) (item : SaveItem)
    (path : String) (size : Size) (hdest : disk.fileExists path = false)
    (hact : (md5actionFor profile item path size).1 = "save") :
    (preSave disk profile item path size).result =
        (if disk.dirExists (sectionAllButLast path disk.separator) = false ∧
            disk.mkpath (sectionAllButLast path disk.separator) = false then SaveResult.Error
         else if (disk.save size path).isEmpty then SaveResult.NotLoaded
         else SaveResult.Saved) ∧
      (Effect.saveFile size path ∈ (preSave disk profile item path size).effects ↔
        (disk.dirExists (sectionAllButLast path disk.separator) = true ∨
          disk.mkpath (sectionAllButLast path disk.separator) = true)) := by
  have hne : ((md5actionFor profile item path size).1 == "ignore") = false := by
    rw [hact]; decide
  by_cases h1 : disk.dirExists (sectionAllButLast path disk.separator) = true <;>
    by_cases h2 : disk.mkpath (sectionAllButLast path disk.separator) = true <;>
    by_cases he : (disk.save size path).isEmpty = true <;>
    simp [preSave, hdest, hact, hne, h1, h2, he]

theorem preSave_save_witness :
    (preSave (sampleDisk []) (sampleProfile "save" []) sampleItem "/out/a.jpg" Size.Full).result =
        (if (sampleDisk []).dirExists (sectionAllButLast "/out/a.jpg" (sampleDisk []).separator)
              = false ∧
            (sampleDisk []).mkpath (sectionAllButLast "/out/a.jpg" (sampleDisk []).separator)
              = false then SaveResult.Error
         else if ((sampleDisk []).save Size.Full "/out/a.jpg").isEmpty then SaveResult.NotLoaded
         else SaveResult.Saved) ∧
      (Effect.saveFile Size.Full "/out/a.jpg" ∈
          (preSave (sampleDisk []) (sampleProfile "save" []) sampleItem "/out/a.jpg"
            Size.Full).effects ↔
        ((sampleDisk []).dirExists (sectionAllButLast "/out/a.jpg" (sampleDisk []).separator)
            = true ∨
          (sampleDisk []).mkpath (sectionAllButLast "/out/a.jpg" (sampleDisk []).separator)
            = true)) :=
  preSave_save (sampleDisk []) (sampleProfile "save" []) sampleItem "/out/a.jpg" Size.Full
    (by decide) (by decide)

/-- C7: `preSave` changes the registry only in the move branch. The result is
`Moved` exactly when the destination is absent, the action token is `move` and the
destination directory is there or can be created; then the registry loses exactly
the entries (hash, old duplicate path). For every other result the registry after
`preSave` is the registry before. `preSave` never adds an entry, and the lookup
policy of the profile is untouched. -/
theorem preSave_registry_frame (disk : Disk) (profile : Profile) (item : SaveItem)
    (path : String) (size : Size) :
    ((preSave disk profile item path size).result = SaveResult.Moved ↔
        (disk.fileExists path = false ∧
          (md5actionFor profile item path size).1 = "move" ∧
          (disk.dirExists (sectionAllButLast path disk.separator) = true ∨
            disk.mkpath (sectionAllButLast path disk.separator) = true))) ∧
      (preSave disk profile item path size).profile.md5s =
        (if (preSave disk profile item path size).result = SaveResult.Moved then
          profile.md5s.filter
            (fun e => decide (e ≠ (item.md5, (md5actionFor profile item path size).2)))
         else profile.md5s) ∧
      (∀ e ∈ (preSave disk profile item path size).profile.md5s, e ∈ profile.md5s) ∧
      (preSave disk profile item path size).profile.md5Policy = profile.md5Policy := by
  generalize hw : md5actionFor profile item path size = act
  have key : ∀ (b1 b2 b3 : Bool), disk.fileExists path = b1 →
      disk.dirExists (sectionAllButLast path disk.separator) = b2 →
      disk.mkpath (sectionAllButLast path disk.separator) = b3 →
      ((preSave disk profile item path size).result = SaveResult.Moved ↔
        (b1 = false ∧ act.1 = "move" ∧ (b2 = true ∨ b3 = true))) ∧
      (preSave disk profile item path size).profile.md5s =
        (if (preSave disk profile item path size).result = SaveResult.Moved then
          profile.md5s.filter (fun e => decide (e ≠ (item.md5, act.2)))
         else profile.md5s) ∧
      (∀ e ∈ (preSave disk profile item path size).profile.md5s, e ∈ profile.md5s) ∧
      (preSave disk profile item path size).profile.md5Policy = profile.md5Policy := by
    intro b1 b2 b3 h1 h2 h3
    simp only [preSave, hw, h1, h2, h3]
    by_cases a1 : act.1 = "ignore"
    · cases b1 <;> cases b2 <;> cases b3 <;> simp [a1] <;> split <;> simp
    by_cases a2 : act.1 = "save"
    · cases b1 <;> cases b2 <;> cases b3 <;> simp [a2] <;> split <;> simp
    by_cases a3 : act.1 = "copy"
    · cases b1 <;> cases b2 <;> cases b3 <;> simp [a3]
    by_cases a4 : act.1 = "move"
    · cases b1 <;> cases b2 <;> cases b3 <;>
        simp [a4, Profile.removeMd5, List.mem_filter] <;> intros <;> assumption
    by_cases a5 : act.1 = "link" ∨ act.1 = "hardlink"
    · cases b1 <;> cases b2 <;> cases b3 <;> simp [a1, a2, a3, a4, a5] <;> split <;> simp
    · cases b1 <;> cases b2 <;> cases b3 <;> simp [a1, a2, a3, a4, a5]
  exact key _ _ _ rfl rfl rfl

theorem StrMap.lookup_set_self {V : Type} (o : StrMap V) (k : String) (v : V) :
    (StrMap.set o k v).lookup k = some v := by
  induction o with
  | nil => simp [StrMap.set, List.lookup]
  | cons e rest ih =>
    obtain ⟨k', v'⟩ := e
    by_cases hk : k' = k
    · simp [StrMap.set, hk, List.lookup]
    · have hk' : (k == k') = false := by simpa using Ne.symm hk
      simp [StrMap.set, hk, List.lookup, hk', ih]

theorem StrMap.lookup_set_ne {V : Type} (o : StrMap V) (k k' : String) (v : V) (hne : k ≠ k') :
    (StrMap.set o k v).lookup k' = o.lookup k' := by
  induction o with
  | nil =>
    have : (k' == k) = false := by simpa using Ne.symm hne
    simp [StrMap.set, List.lookup, this]
  | cons e rest ih =>
    obtain ⟨k0, v0⟩ := e
    by_cases hk : k0 = k
    · subst hk
      have : (k' == k0) = false := by simpa using Ne.symm hne
      simp [StrMap.set, List.lookup, this]
    · by_cases hk2 : k' = k0
      · subst hk2
        simp [StrMap.set, hk, List.lookup]
      · have : (k' == k0) = false := by simpa using hk2
        simp [StrMap.set, hk, List.lookup, this, ih]

theorem writeSizes_lookup (h : Helpers) (sizes : SizeMap ImageSize) (json : JsonObject)
    (k : String) (hk : "sizes" ≠ k) :
    (writeSizes h sizes json).lookup k = json.lookup k := by
  unfold writeSizes
  simp only []
  split
  · exact StrMap.lookup_set_ne _ _ _ _ hk
  · rfl

theorem ImageData.writeFields_lookup (h : Helpers) (d : ImageData) (json : JsonObject) :
    (d.writeFields h json).lookup "name" = some (Json.str d.name) ∧
    (d.writeFields h json).lookup "id" = some (Json.str (qstringNumber d.id)) ∧
    (d.writeFields h json).lookup "md5" = some (Json.str d.md5) ∧
    (d.writeFields h json).lookup "tags" =
      some (Json.arr (d.tags.map fun tag => Json.obj (h.tagWrite tag))) ∧
    (d.writeFields h json).lookup "url" = some (Json.str d.url) ∧
    (d.writeFields h json).lookup "search" = some (Json.arr (d.search.map Json.str)) ∧
    (d.writeFields h json).lookup "website" = json.lookup "website" ∧
    (d.writeFields h json).lookup "gallery" = json.lookup "gallery" ∧
    (d.writeFields h json).lookup "file_url" = json.lookup "file_url" := by
  simp only [ImageData.writeFields]
  refine ⟨?_, ?_, ?_, ?_, ?_, ?_, ?_, ?_, ?_⟩ <;>
    split_ifs <;>
    simp [StrMap.lookup_set_self, StrMap.lookup_set_ne, writeSizes_lookup]

theorem ImageData.init_fields (h : Helpers) (site : Site) (d : ImageData) :
    (d.init h site).tags = d.tags ∧ (d.init h site).search = d.search ∧
    (d.init h site).name = d.name ∧ (d.init h site).id = d.id ∧
    (d.init h site).md5 = d.md5 ∧ (d.init h site).url = d.url ∧
    (d.init h site).sizes = d.sizes ∧ (d.init h site).parentSite = d.parentSite :=
  ⟨rfl, rfl, rfl, rfl, rfl, rfl, rfl, rfl⟩

theorem ImageData.readFields_fields (h : Helpers) (site : Site) (json : JsonObject)
    (d : ImageData) :
    (d.readFields h site json).tags = d.tags ++ readTags h (json.get "tags").toArray ∧
    (d.readFields h site json).search = d.search ++ (json.get "search").toArray.map Json.toStr ∧
    (d.readFields h site json).name = (json.get "name").toStr ∧
    (d.readFields h site json).id = toULongLong (json.get "id").toStr ∧
    (d.readFields h site json).md5 = (json.get "md5").toStr ∧
    (d.readFields h site json).parentSite = some site := by
  simp only [ImageData.readFields]
  refine ⟨?_, ?_, ?_, ?_, ?_, ?_⟩ <;>
    simp only [ImageData.init_fields] <;> split_ifs <;> rfl

theorem ImageData.readFields_url (h : Helpers) (site : Site) (json : JsonObject)
    (d : ImageData) (hf : json.lookup "file_url" = none) (u : Json)
    (hu : json.lookup "url" = some u) :
    (d.readFields h site json).url = u.toStr := by
  have h1 : StrMap.has json "file_url" = false := by simp [StrMap.has, hf]
  have h2 : StrMap.has json "url" = true := by simp [StrMap.has, hu]
  have h3 : JsonObject.get json "url" = u := by simp [JsonObject.get, hu]
  simp only [ImageData.readFields, ImageData.init_fields, h1, h2, h3, Bool.false_eq_true,
    if_false, if_true]

theorem readTags_written (h : Helpers) (hTag : ∀ t, h.tagRead (h.tagWrite t) = some t)
    (tags : List Tag) :
    readTags h (tags.map fun tag => Json.obj (h.tagWrite tag)) = tags := by
  induction tags with
  | nil => rfl
  | cons t ts ih =>
    have hstep : readTags h ((t :: ts).map fun tag => Json.obj (h.tagWrite tag)) =
        t :: readTags h (ts.map fun tag => Json.obj (h.tagWrite tag)) := by
      simp only [readTags, List.map_cons, List.filterMap_cons, Json.isString, Json.toObject,
        hTag, Bool.false_eq_true, if_false]
    rw [hstep, ih]

theorem search_written (search : List String) :
    (search.map Json.str).map Json.toStr = search := by
  induction search with
  | nil => rfl
  | cons s ss ih =>
    rw [List.map_cons, List.map_cons, ih]
    rfl

theorem digitChar_spec (d : Nat) (hd : d < 10) :
    (digitChar d).isDigit = true ∧ (digitChar d).toNat - 48 = d := by
  interval_cases d <;> decide

theorem decimalValue_snoc (cs : List Char) (c : Char) :
    decimalValue (cs ++ [c]) =
      (match decimalValue cs with
       | some a => if c.isDigit then some (a * 10 + (c.toNat - 48)) else none
       | none => none) := by
  simp [decimalValue, List.foldl_append]

theorem decimalValue_digits (ds : List Nat) (hds : ∀ d ∈ ds, d < 10) :
    decimalValue (ds.reverse.map digitChar) = some (Nat.ofDigits 10 ds) := by
  induction ds with
  | nil => rfl
  | cons d ds ih =>
    have hd := digitChar_spec d (hds d (by simp))
    have ih' := ih (fun x hx => hds x (by simp [hx]))
    rw [List.reverse_cons, List.map_append, List.map_singleton, decimalValue_snoc, ih']
    simp only [hd.1, hd.2, if_true, Nat.ofDigits_cons]
    congr 1
    omega

theorem toULongLong_number (n : Nat) (hn : n < 2 ^ 64) : toULongLong (qstringNumber n) = n := by
  by_cases h0 : n = 0
  · subst h0; decide
  · have hv := decimalValue_digits (Nat.digits 10 n) (fun d hd => Nat.digits_lt_base (by norm_num) hd)
    rw [Nat.ofDigits_digits] at hv
    have hne : Nat.digits 10 n ≠ [] := Nat.digits_ne_nil_iff_ne_zero.2 h0
    have hv' : decimalValue (String.mk ((Nat.digits 10 n).reverse.map digitChar)).data =
        some n := hv
    have hne' : (String.mk ((Nat.digits 10 n).reverse.map digitChar)).data.isEmpty = false := by
      simp [hne]
    simp only [toULongLong, qstringNumber, h0, if_false, hv', hne', Bool.false_eq_true]
    exact if_pos hn

theorem Image.read_unknown_site (h : Helpers) (sites : StrMap Site) (json : JsonObject)
    (self : Image) (hs : sites.lookup (json.get "website").toStr = none) :
    Image.read h sites json self = (false, self) := by
  rw [Image.read]
  simp only [hs]

theorem Image.read_no_gallery (h : Helpers) (sites : StrMap Site) (json : JsonObject)
    (self : Image) (site : Site) (hs : sites.lookup (json.get "website").toStr = some site)
    (hg : json.lookup "gallery" = none) :
    Image.read h sites json self =
      (true, Image.mk (self.d.readFields h site json) self.parentGallery) := by
  rw [Image.read]
  simp only [hs]
  split
  · rfl
  · next g hg' => rw [hg] at hg'; cases hg'

theorem Image.read_gallery (h : Helpers) (sites : StrMap Site) (json : JsonObject)
    (self : Image) (site : Site) (hs : sites.lookup (json.get "website").toStr = some site)
    (g : Json) (hg : json.lookup "gallery" = some g) :
    Image.read h sites json self =
      (if (Image.read h sites g.toObject Image.fresh).1 = true then
        (true, Image.mk (self.d.readFields h site json)
          (some (Image.read h sites g.toObject Image.fresh).2))
       else (false, self)) := by
  rw [Image.read]
  simp only [hs]
  split
  · next hg' => rw [hg] at hg'; cases hg'
  · next g' hg' =>
    rw [hg] at hg'
    cases hg'
    rfl

theorem Image.d_mk (d : ImageData) (g : Option Image) : (Image.mk d g).d = d := rfl

theorem StrMap.has_iff_lookup {V : Type} (m : StrMap V) (k : String) :
    StrMap.has m k = true ↔ ∃ v, m.lookup k = some v := by
  simp [StrMap.has, Option.isSome_iff_exists]

theorem website_of_written (h : Helpers) (d : ImageData) (json0 : JsonObject) (url : String)
    (h0 : json0.lookup "website" = some (Json.str url)) :
    (JsonObject.get (d.writeFields h json0) "website").toStr = url := by
  have := (ImageData.writeFields_lookup h d json0).2.2.2.2.2.2.1
  simp [JsonObject.get, this, h0, Json.toStr]

/-- Outcome of reading back what `write` produced, for an item whose sites are all
known: `write` succeeds, and `read` on any target succeeds with the fields of
`readFields` applied to the written object. -/
theorem Image.write_read_core (h : Helpers) (sites : StrMap Site) :
    ∀ (img : Image), img.sitesKnown sites = true →
      ∃ json json0 site, img.write h [] = some json ∧ json = img.d.writeFields h json0 ∧
        json0.lookup "file_url" = none ∧
        ∀ target : Image, ∃ g,
          Image.read h sites json target = (true, Image.mk (target.d.readFields h site json) g)
  | Image.mk d none, hk => by
    simp only [Image.sitesKnown] at hk
    cases hp : d.parentSite with
    | none => rw [hp] at hk; cases hk
    | some s =>
      rw [hp] at hk
      obtain ⟨site, hsite⟩ := (StrMap.has_iff_lookup sites s.url).1 hk
      have hw0 : (StrMap.set ([] : JsonObject) "website" (Json.str s.url)).lookup "website" =
          some (Json.str s.url) := StrMap.lookup_set_self _ _ _
      refine ⟨d.writeFields h (StrMap.set [] "website" (Json.str s.url)),
        StrMap.set [] "website" (Json.str s.url), site, ?_, rfl, ?_, ?_⟩
      · simp [Image.write, hp]
      · rw [StrMap.lookup_set_ne _ _ _ _ (by decide)]; rfl
      · intro target
        refine ⟨target.parentGallery, ?_⟩
        apply Image.read_no_gallery
        · rw [website_of_written h d _ s.url hw0]; exact hsite
        · rw [(ImageData.writeFields_lookup h d _).2.2.2.2.2.2.2.1,
            StrMap.lookup_set_ne _ _ _ _ (by decide)]
          rfl
  | Image.mk d (some gallery), hk => by
    simp only [Image.sitesKnown, Bool.and_eq_true] at hk
    obtain ⟨hk1, hk2⟩ := hk
    obtain ⟨jg, jg0, sg, hwg, _, _, hrg⟩ := Image.write_read_core h sites gallery hk2
    cases hp : d.parentSite with
    | none => rw [hp] at hk1; cases hk1
    | some s =>
      rw [hp] at hk1
      obtain ⟨site, hsite⟩ := (StrMap.has_iff_lookup sites s.url).1 hk1
      have hw0 : (StrMap.set (StrMap.set ([] : JsonObject) "website" (Json.str s.url))
          "gallery" (Json.obj jg)).lookup "website" = some (Json.str s.url) := by
        rw [StrMap.lookup_set_ne _ _ _ _ (by decide)]
        exact StrMap.lookup_set_self _ _ _
      refine ⟨d.writeFields h
          (StrMap.set (StrMap.set [] "website" (Json.str s.url)) "gallery" (Json.obj jg)),
        StrMap.set (StrMap.set [] "website" (Json.str s.url)) "gallery" (Json.obj jg), site,
        ?_, rfl, ?_, ?_⟩
      · simp [Image.write, hp, hwg]
      · rw [StrMap.lookup_set_ne _ _ _ _ (by decide), StrMap.lookup_set_ne _ _ _ _ (by decide)]
        rfl
      · intro target
        obtain ⟨gg, hgg⟩ := hrg Image.fresh
        refine ⟨some (Image.read h sites jg Image.fresh).2, ?_⟩
        rw [Image.read_gallery h sites _ target site
          (by rw [website_of_written h d _ s.url hw0]; exact hsite) (Json.obj jg)
          (by rw [(ImageData.writeFields_lookup h d _).2.2.2.2.2.2.2.1]
              exact StrMap.lookup_set_self _ _ _)]
        simp [Json.toObject, hgg]

/-- C9 (as stated, refuted): the item's own site is in the known-sites map, but the
site of its parent gallery is not; `write` succeeds and `read` of the written object
returns false. -/
theorem roundtrip_gallery_site_counterexample :
    StrMap.has [("a.com", sampleSite "a.com")] "a.com" = true ∧
      ∃ json,
        (Image.mk (sampleImageData "a.com" 42 [])
          (some (Image.mk (sampleImageData "b.com" 7 []) none))).write sampleHelpers [] =
            some json ∧
        (Image.read sampleHelpers [("a.com", sampleSite "a.com")] json Image.fresh).1 = false := by
  refine ⟨by decide,
    (sampleImageData "a.com" 42 []).writeFields sampleHelpers
      (StrMap.set (StrMap.set [] "website" (Json.str "a.com")) "gallery"
        (Json.obj ((sampleImageData "b.com" 7 []).writeFields sampleHelpers
          (StrMap.set [] "website" (Json.str "b.com"))))), rfl, ?_⟩
  have hinner : Image.read sampleHelpers [("a.com", sampleSite "a.com")]
      ((sampleImageData "b.com" 7 []).writeFields sampleHelpers
        (StrMap.set [] "website" (Json.str "b.com"))) Image.fresh = (false, Image.fresh) :=
    Image.read_unknown_site sampleHelpers [("a.com", sampleSite "a.com")] _ Image.fresh rfl
  have houter := Image.read_gallery sampleHelpers [("a.com", sampleSite "a.com")]
    ((sampleImageData "a.com" 42 []).writeFields sampleHelpers
      (StrMap.set (StrMap.set [] "website" (Json.str "a.com")) "gallery"
        (Json.obj ((sampleImageData "b.com" 7 []).writeFields sampleHelpers
          (StrMap.set [] "website" (Json.str "b.com"))))))
    Image.fresh (sampleSite "a.com") rfl
    (Json.obj ((sampleImageData "b.com" 7 []).writeFields sampleHelpers
      (StrMap.set [] "website" (Json.str "b.com")))) rfl
  rw [houter]
  simp only [Json.toObject]
  rw [hinner]
  simp

/-- C9 (amended): when `Tag::read` inverts `Tag::write`, for every item whose id fits
64 bits and whose site, and the site of every gallery up its parent chain, is in
the known-sites map, `write` into an empty object followed by `read` into a fresh
item succeeds and yields the same id, md5, name, tag list, search list and
Full-size URL (`url(Full)`) as the original item. -/
theorem write_read_roundtrip (h : Helpers) (hTag : ∀ t, h.tagRead (h.tagWrite t) = some t)
    (sites : StrMap Site) (img : Image) (hk : img.sitesKnown sites = true)
    (hid : img.d.id < 2 ^ 64) :
    ∃ json, img.write h [] = some json ∧
      (Image.read h sites json Image.fresh).1 = true ∧
      (Image.read h sites json Image.fresh).2.d.id = img.d.id ∧
      (Image.read h sites json Image.fresh).2.d.md5 = img.d.md5 ∧
      (Image.read h sites json Image.fresh).2.d.name = img.d.name ∧
      (Image.read h sites json Image.fresh).2.d.tags = img.d.tags ∧
      (Image.read h sites json Image.fresh).2.d.search = img.d.search ∧
      (Image.read h sites json Image.fresh).2.d.urlOf Size.Full = img.d.urlOf Size.Full := by
  obtain ⟨json, json0, site, hw, hj, hf, hr⟩ := Image.write_read_core h sites img hk
  obtain ⟨g, hg⟩ := hr Image.fresh
  have hl := ImageData.writeFields_lookup h img.d json0
  rw [← hj] at hl
  obtain ⟨lname, lid, lmd5, ltags, lurl, lsearch, _, _, lfile⟩ := hl
  have hfields := ImageData.readFields_fields h site json Image.fresh.d
  have hurl := ImageData.readFields_url h site json Image.fresh.d (by rw [lfile, hf]) _ lurl
  refine ⟨json, hw, ?_, ?_, ?_, ?_, ?_, ?_, ?_⟩ <;> rw [hg] <;> simp only [Image.d_mk]
  · rw [hfields.2.2.2.1]
    simp only [JsonObject.get, lid, Option.getD_some, Json.toStr]
    exact toULongLong_number _ hid
  · rw [hfields.2.2.2.2.1]
    simp [JsonObject.get, lmd5, Json.toStr]
  · rw [hfields.2.2.1]
    simp [JsonObject.get, lname, Json.toStr]
  · rw [hfields.1]
    simp only [JsonObject.get, ltags, Option.getD_some, Json.toArray]
    rw [readTags_written h hTag]
    rfl
  · rw [hfields.2.1]
    simp only [JsonObject.get, lsearch, Option.getD_some, Json.toArray]
    rw [search_written]
    rfl
  · simp only [ImageData.urlOf, if_true]
    rw [hurl]
    rfl

theorem write_read_roundtrip_witness :
    ∃ json,
      (Image.mk (sampleImageData "a.com" 42 [⟨"solo", "general"⟩])
          (some (Image.mk (sampleImageData "a.com" 7 []) none))).write sampleHelpers [] =
        some json ∧
      (Image.read sampleHelpers [("a.com", sampleSite "a.com")] json Image.fresh).1 = true ∧
      (Image.read sampleHelpers [("a.com", sampleSite "a.com")] json Image.fresh).2.d.id =
        (Image.mk (sampleImageData "a.com" 42 [⟨"solo", "general"⟩])
          (some (Image.mk (sampleImageData "a.com" 7 []) none))).d.id ∧
      (Image.read sampleHelpers [("a.com", sampleSite "a.com")] json Image.fresh).2.d.md5 =
        (Image.mk (sampleImageData "a.com" 42 [⟨"solo", "general"⟩])
          (some (Image.mk (sampleImageData "a.com" 7 []) none))).d.md5 ∧
      (Image.read sampleHelpers [("a.com", sampleSite "a.com")] json Image.fresh).2.d.name =
        (Image.mk (sampleImageData "a.com" 42 [⟨"solo", "general"⟩])
          (some (Image.mk (sampleImageData "a.com" 7 []) none))).d.name ∧
      (Image.read sampleHelpers [("a.com", sampleSite "a.com")] json Image.fresh).2.d.tags =
        (Image.mk (sampleImageData "a.com" 42 [⟨"solo", "general"⟩])
          (some (Image.mk (sampleImageData "a.com" 7 []) none))).d.tags ∧
      (Image.read sampleHelpers [("a.com", sampleSite "a.com")] json Image.fresh).2.d.search =
        (Image.mk (sampleImageData "a.com" 42 [⟨"solo", "general"⟩])
          (some (Image.mk (sampleImageData "a.com" 7 []) none))).d.search ∧
      (Image.read sampleHelpers [("a.com", sampleSite "a.com")] json Image.fresh).2.d.urlOf
          Size.Full =
        (Image.mk (sampleImageData "a.com" 42 [⟨"solo", "general"⟩])
          (some (Image.mk (sampleImageData "a.com" 7 []) none))).d.urlOf Size.Full :=
  write_read_roundtrip sampleHelpers (fun t => by cases t; rfl)
    [("a.com", sampleSite "a.com")]
    (Image.mk (sampleImageData "a.com" 42 [⟨"solo", "general"⟩])
      (some (Image.mk (sampleImageData "a.com" 7 []) none)))
    (by decide) (by decide)

/-- C10: when the record's website is not a key of the known-sites map, or the
record has a nested gallery record whose own deserialization (recursively) fails,
`read` returns false and the item afterwards is the item before, in every field
and in its parent gallery. -/
theorem read_fails_atomically (h : Helpers) (sites : StrMap Site) (json : JsonObject)
    (self : Image)
    (hfail : StrMap.has sites (JsonObject.get json "website").toStr = false ∨
      ∃ g, json.lookup "gallery" = some g ∧
        (Image.read h sites g.toObject Image.fresh).1 = false) :
    Image.read h sites json self = (false, self) := by
  cases hs : sites.lookup (JsonObject.get json "website").toStr with
  | none => exact Image.read_unknown_site h sites json self hs
  | some site =>
    rcases hfail with hno | ⟨g, hg, hr⟩
    · simp [StrMap.has, hs] at hno
    · rw [Image.read_gallery h sites json self site hs g hg, hr]
      simp

theorem read_fails_atomically_witness :
    Image.read sampleHelpers [("a.com", sampleSite "a.com")]
        [("website", Json.str "a.com"), ("gallery", Json.obj [("website", Json.str "b.com")])]
        (Image.mk (sampleImageData "a.com" 42 []) none) =
      (false, Image.mk (sampleImageData "a.com" 42 []) none) :=
  read_fails_atomically sampleHelpers [("a.com", sampleSite "a.com")]
    [("website", Json.str "a.com"), ("gallery", Json.obj [("website", Json.str "b.com")])]
    (Image.mk (sampleImageData "a.com" 42 []) none)
    (Or.inr ⟨Json.obj [("website", Json.str "b.com")], rfl,
      by rw [Json.toObject, Image.read_unknown_site sampleHelpers
          [("a.com", sampleSite "a.com")] [("website", Json.str "b.com")] Image.fresh rfl]⟩)

/-! ## Theorems: URL of a record read back -/

theorem Image.read_success_fields (h : Helpers) (sites : StrMap Site) (json : JsonObject)
    (self : Image) (hok : (Image.read h sites json self).1 = true) :
    ∃ site, sites.lookup (JsonObject.get json "website").toStr = some site ∧
      (Image.read h sites json self).2.d = self.d.readFields h site json := by
  cases hs : sites.lookup (JsonObject.get json "website").toStr with
  | none =>
    rw [Image.read_unknown_site h sites json self hs] at hok
    cases hok
  | some site =>
    refine ⟨site, rfl, ?_⟩
    cases hg : json.lookup "gallery" with
    | none => rw [Image.read_no_gallery h sites json self site hs hg]; rfl
    | some g =>
      rw [Image.read_gallery h sites json self site hs g hg] at hok ⊢
      split at hok
      · next hr => rw [if_pos hr]; rfl
      · cases hok

theorem ImageData.readFields_url_cases (h : Helpers) (site : Site) (json : JsonObject)
    (d : ImageData) :
    (d.readFields h site json).url =
      (if StrMap.has json "file_url" = true then (JsonObject.get json "file_url").toStr
       else if StrMap.has json "url" = true then (JsonObject.get json "url").toStr
       else ((readSizes h json d.sizes Size.Full).map ImageSize.url).getD "") := by
  simp only [ImageData.readFields, ImageData.init_fields]
  split_ifs <;> rfl

/-- C11 (as stated, refuted): a record holding both `url` and `file_url` is read
with the value of `file_url` as the item's URL, not the value of `url`. -/
theorem read_url_priority_counterexample :
    StrMap.has ([("website", Json.str "a.com"), ("url", Json.str "https://test.com/new.jpg"),
        ("file_url", Json.str "https://test.com/old.jpg")] : JsonObject) "url" = true ∧
      (Image.read sampleHelpers [("a.com", sampleSite "a.com")]
        [("website", Json.str "a.com"), ("url", Json.str "https://test.com/new.jpg"),
          ("file_url", Json.str "https://test.com/old.jpg")] Image.fresh).1 = true ∧
      (Image.read sampleHelpers [("a.com", sampleSite "a.com")]
        [("website", Json.str "a.com"), ("url", Json.str "https://test.com/new.jpg"),
          ("file_url", Json.str "https://test.com/old.jpg")] Image.fresh).2.d.url =
        "https://test.com/old.jpg" ∧
      (JsonObject.get [("website", Json.str "a.com"), ("url", Json.str "https://test.com/new.jpg"),
          ("file_url", Json.str "https://test.com/old.jpg")] "url").toStr ≠
        "https://test.com/old.jpg" := by
  have hr := Image.read_no_gallery sampleHelpers [("a.com", sampleSite "a.com")]
    [("website", Json.str "a.com"), ("url", Json.str "https://test.com/new.jpg"),
      ("file_url", Json.str "https://test.com/old.jpg")] Image.fresh (sampleSite "a.com") rfl rfl
  refine ⟨by decide, ?_, ?_, by decide⟩
  · rw [hr]
  · rw [hr]
    simp only [Image.d_mk]
    rw [ImageData.readFields_url_cases]
    decide

/-- C11 (amended): after a successful `read`, the item's URL is the value of
`file_url` whenever the record contains `file_url` (whether or not `url` is also
present); it is the value of `url` only when `file_url` is absent and `url` is
present; when both are absent it is the URL of the Full variant just read. -/
theorem read_url_file_url_first (h : Helpers) (sites : StrMap Site) (json : JsonObject)
    (self : Image) (hok : (Image.read h sites json self).1 = true) :
    (Image.read h sites json self).2.d.url =
      (if StrMap.has json "file_url" = true then (JsonObject.get json "file_url").toStr
       else if StrMap.has json "url" = true then (JsonObject.get json "url").toStr
       else ((readSizes h json self.d.sizes Size.Full).map ImageSize.url).getD "") := by
  obtain ⟨site, _, hd⟩ := Image.read_success_fields h sites json self hok
  rw [hd]
  exact ImageData.readFields_url_cases h site json self.d

theorem read_url_file_url_first_witness :
    (Image.read sampleHelpers [("a.com", sampleSite "a.com")]
        [("website", Json.str "a.com"), ("url", Json.str "https://test.com/new.jpg")]
        Image.fresh).2.d.url =
      (if StrMap.has ([("website", Json.str "a.com"),
            ("url", Json.str "https://test.com/new.jpg")] : JsonObject) "file_url" = true then
        (JsonObject.get [("website", Json.str "a.com"),
          ("url", Json.str "https://test.com/new.jpg")] "file_url").toStr
       else if StrMap.has ([("website", Json.str "a.com"),
            ("url", Json.str "https://test.com/new.jpg")] : JsonObject) "url" = true then
        (JsonObject.get [("website", Json.str "a.com"),
          ("url", Json.str "https://test.com/new.jpg")] "url").toStr
       else ((readSizes sampleHelpers [("website", Json.str "a.com"),
          ("url", Json.str "https://test.com/new.jpg")] Image.fresh.d.sizes Size.Full).map
            ImageSize.url).getD "") :=
  read_url_file_url_first sampleHelpers [("a.com", sampleSite "a.com")]
    [("website", Json.str "a.com"), ("url", Json.str "https://test.com/new.jpg")] Image.fresh
    (by rw [Image.read_no_gallery sampleHelpers [("a.com", sampleSite "a.com")]
          [("website", Json.str "a.com"), ("url", Json.str "https://test.com/new.jpg")]
          Image.fresh (sampleSite "a.com") rfl rfl])

/-! ## Theorems: details loading -/

theorem loadDetails_issue (s : DetailsItem) (rateLimit : Bool)
    (hl : s.m_loadingDetails = false) (hd : s.m_loadedDetails = false)
    (hu : s.m_pageUrl.isEmpty = false) :
    (loadDetails s rateLimit).1 =
        { s with m_loadDetails := some ⟨true⟩, m_loadingDetails := true } ∧
      detailsRequests (loadDetails s rateLimit).2 =
        [(s.m_pageUrl, if rateLimit then QueryType.Retry else QueryType.Details)] ∧
      resultSignals (loadDetails s rateLimit).2 = [] ∧
      followUpRequests (loadDetails s rateLimit).2 = [] := by
  simp only [loadDetails, hl, hd, hu]
  rcases hr : s.m_loadDetails with _ | ⟨_ | _⟩ <;>
    simp [detailsRequests, resultSignals, followUpRequests]

theorem parseDetails_retry (env : DetailsEnv) (reply : FinishedReply) (s : DetailsItem)
    (hd : s.m_loadedDetails = false) (hu : s.m_pageUrl.isEmpty = false)
    (hr : reply.redirectionTarget.isEmpty = true)
    (hs : reply.statusCode = 429 ∨ reply.statusCode = 503 ∨ reply.statusCode = 509) :
    (parseDetails env reply s).1 =
        { s with m_loadDetails := some ⟨true⟩, m_loadingDetails := true } ∧
      detailsRequests (parseDetails env reply s).2 = [(s.m_pageUrl, QueryType.Retry)] ∧
      resultSignals (parseDetails env reply s).2 = [] ∧
      followUpRequests (parseDetails env reply s).2 = [] := by
  have hrl : isRateLimited reply.statusCode = true := by
    rcases hs with h | h | h <;> simp [isRateLimited, h]
  simp only [parseDetails, hr, hrl]
  have := loadDetails_issue
    { s with m_loadDetails := s.m_loadDetails.map fun _ => ⟨false⟩, m_loadingDetails := false }
    true rfl hd hu
  refine ⟨?_, ?_, ?_, ?_⟩
  · simpa using this.1
  · simpa [detailsRequests] using this.2.1
  · simpa [resultSignals] using this.2.2.1
  · simpa [followUpRequests] using this.2.2.2

theorem completeAll_append (env : DetailsEnv) (xs ys : List FinishedReply) :
    ∀ acc : DetailsItem × List DetailsEvent,
      completeAll env (xs ++ ys) acc = completeAll env ys (completeAll env xs acc) := by
  induction xs with
  | nil => intro acc; rfl
  | cons x xs ih => intro acc; exact ih _

theorem detailsRequests_append (a b : List DetailsEvent) :
    detailsRequests (a ++ b) = detailsRequests a ++ detailsRequests b := by
  simp [detailsRequests, List.filterMap_append]

theorem resultSignals_append (a b : List DetailsEvent) :
    resultSignals (a ++ b) = resultSignals a ++ resultSignals b := by
  simp [resultSignals, List.filterMap_append]

theorem followUpRequests_append (a b : List DetailsEvent) :
    followUpRequests (a ++ b) = followUpRequests a ++ followUpRequests b := by
  simp [followUpRequests, List.filterMap_append]

theorem urlChanges_append (a b : List DetailsEvent) :
    urlChanges (a ++ b) = urlChanges a ++ urlChanges b := by
  simp [urlChanges, List.filterMap_append]

theorem completeAll_retries (env : DetailsEnv) (retries : List FinishedReply)
    (hretries : ∀ r ∈ retries, r.redirectionTarget.isEmpty = true ∧
      (r.statusCode = 429 ∨ r.statusCode = 503 ∨ r.statusCode = 509)) :
    ∀ acc : DetailsItem × List DetailsEvent,
      acc.1.m_loadedDetails = false → acc.1.m_pageUrl.isEmpty = false →
      (completeAll env retries acc).1.m_loadedDetails = false ∧
      (completeAll env retries acc).1.m_pageUrl = acc.1.m_pageUrl ∧
      detailsRequests (completeAll env retries acc).2 =
        detailsRequests acc.2 ++ List.replicate retries.length (acc.1.m_pageUrl, QueryType.Retry) ∧
      resultSignals (completeAll env retries acc).2 = resultSignals acc.2 ∧
      followUpRequests (completeAll env retries acc).2 = followUpRequests acc.2 := by
  induction retries with
  | nil => intro acc hd hu; simp [completeAll, hd]
  | cons r rs ih =>
    intro acc hd hu
    obtain ⟨hr1, hr2⟩ := hretries r (by simp)
    have hstep := parseDetails_retry env r acc.1 hd hu hr1 hr2
    have hnext := ih (fun x hx => hretries x (by simp [hx]))
      ((parseDetails env r acc.1).1, acc.2 ++ (parseDetails env r acc.1).2)
      (by simp only [hstep.1]; exact hd) (by simp only [hstep.1]; exact hu)
    have hpage : (parseDetails env r acc.1).1.m_pageUrl = acc.1.m_pageUrl := by
      simp only [hstep.1]
    simp only [completeAll]
    simp only [hpage, detailsRequests_append, resultSignals_append, followUpRequests_append,
      hstep.2.1, hstep.2.2.1, hstep.2.2.2, List.append_nil] at hnext
    refine ⟨hnext.1, hnext.2.1, ?_, hnext.2.2.2.1, hnext.2.2.2.2⟩
    rw [hnext.2.2.1, List.append_assoc]
    rfl

theorem finishParse_spec (env : DetailsEnv) (s : DetailsItem) :
    (DetailsItem.finishParse env s).1 = { s with m_loadDetails := none, m_loadedDetails := true } ∧
      detailsRequests (DetailsItem.finishParse env s).2 = [] ∧
      urlChanges (DetailsItem.finishParse env s).2 = [] ∧
      ((resultSignals (DetailsItem.finishParse env s).2 = [LoadTagsResult.Ok] ∧
          followUpRequests (DetailsItem.finishParse env s).2 = []) ∨
        (resultSignals (DetailsItem.finishParse env s).2 = [] ∧
          (followUpRequests (DetailsItem.finishParse env s).2).length = 1)) := by
  simp only [DetailsItem.finishParse]
  split
  · split <;> simp [detailsRequests, resultSignals, followUpRequests, urlChanges]
  · simp [detailsRequests, resultSignals, followUpRequests, urlChanges]

theorem updateUrl_events (env : DetailsEnv) (s : DetailsItem) (ret : ParsedDetails) :
    detailsRequests (DetailsItem.updateUrl env s ret).2 = [] ∧
      resultSignals (DetailsItem.updateUrl env s ret).2 = [] ∧
      followUpRequests (DetailsItem.updateUrl env s ret).2 = [] ∧
      (DetailsItem.updateUrl env s ret).1.m_loadingDetails = s.m_loadingDetails ∧
      (DetailsItem.updateUrl env s ret).1.m_tags = s.m_tags ∧
      (DetailsItem.updateUrl env s ret).1.m_pools = s.m_pools ∧
      (DetailsItem.updateUrl env s ret).1.m_sources = s.m_sources ∧
      (DetailsItem.updateUrl env s ret).1.m_data = s.m_data := by
  simp only [DetailsItem.updateUrl]
  split_ifs <;> simp [detailsRequests, resultSignals, followUpRequests]

theorem parseDetails_success (env : DetailsEnv) (reply : FinishedReply) (api : DetailsApi)
    (s : DetailsItem) (h : ParseSucceeds env reply api) :
    parseDetails env reply s =
      ((DetailsItem.finishParse env (DetailsItem.updateUrl env
          (DetailsItem.merge
            { s with m_loadDetails := s.m_loadDetails.map fun _ => ⟨false⟩,
                     m_loadingDetails := false }
            (api.parseDetails reply.body reply.statusCode))
          (api.parseDetails reply.body reply.statusCode)).1).1,
        (DetailsItem.updateUrl env
          (DetailsItem.merge
            { s with m_loadDetails := s.m_loadDetails.map fun _ => ⟨false⟩,
                     m_loadingDetails := false }
            (api.parseDetails reply.body reply.statusCode))
          (api.parseDetails reply.body reply.statusCode)).2 ++
        (DetailsItem.finishParse env (DetailsItem.updateUrl env
          (DetailsItem.merge
            { s with m_loadDetails := s.m_loadDetails.map fun _ => ⟨false⟩,
                     m_loadingDetails := false }
            (api.parseDetails reply.body reply.statusCode))
          (api.parseDetails reply.body reply.statusCode)).1).2) := by
  obtain ⟨h1, h2, h3, h4, h5, h6⟩ := h
  simp [parseDetails, h1, h2, h3, h4, h5, h6]

theorem parseDetails_success_spec (env : DetailsEnv) (reply : FinishedReply) (api : DetailsApi)
    (s : DetailsItem) (h : ParseSucceeds env reply api) :
    (parseDetails env reply s).1.m_loadedDetails = true ∧
      (parseDetails env reply s).1.m_loadingDetails = false ∧
      detailsRequests (parseDetails env reply s).2 = [] ∧
      ((resultSignals (parseDetails env reply s).2 = [LoadTagsResult.Ok] ∧
          followUpRequests (parseDetails env reply s).2 = []) ∨
        (resultSignals (parseDetails env reply s).2 = [] ∧
          (followUpRequests (parseDetails env reply s).2).length = 1)) := by
  rw [parseDetails_success env reply api s h]
  generalize hm : DetailsItem.merge
    { s with m_loadDetails := s.m_loadDetails.map fun _ => ⟨false⟩, m_loadingDetails := false }
    (api.parseDetails reply.body reply.statusCode) = m
  have hml : m.m_loadingDetails = false := by
    rw [← hm]
    simp only [DetailsItem.merge]
    split_ifs <;> rfl
  have hu := updateUrl_events env m (api.parseDetails reply.body reply.statusCode)
  have hf := finishParse_spec env
    (DetailsItem.updateUrl env m (api.parseDetails reply.body reply.statusCode)).1
  simp only [detailsRequests_append, resultSignals_append, followUpRequests_append,
    hu.1, hu.2.1, hu.2.2.1, List.nil_append]
  refine ⟨?_, ?_, hf.2.1, hf.2.2.2⟩
  · rw [hf.1]
  · rw [hf.1]
    simp only [hu.2.2.2.1, hml]

theorem finishParse_cases (env : DetailsEnv) (s : DetailsItem) :
    if ((DetailsItem.finishParse env s).1.extension env == "zip" && env.convertUgoira &&
        env.ugoiraDetails.isSome) = true then
      resultSignals (DetailsItem.finishParse env s).2 = [] ∧
        (followUpRequests (DetailsItem.finishParse env s).2).length = 1
    else
      resultSignals (DetailsItem.finishParse env s).2 = [LoadTagsResult.Ok] ∧
        followUpRequests (DetailsItem.finishParse env s).2 = [] := by
  have hst : (DetailsItem.finishParse env s).1.extension env =
      DetailsItem.extension env { s with m_loadDetails := none, m_loadedDetails := true } := by
    rw [(finishParse_spec env s).1]
  rw [hst]
  simp only [DetailsItem.finishParse]
  cases hend : env.ugoiraDetails with
  | none => simp [resultSignals, followUpRequests]
  | some endpoint =>
    by_cases hc : (DetailsItem.extension env
        { s with m_loadDetails := none, m_loadedDetails := true } == "zip" &&
        env.convertUgoira) = true
    · simp [hc, resultSignals, followUpRequests]
    · simp [hc, resultSignals, followUpRequests]

theorem parseDetails_success_cases (env : DetailsEnv) (reply : FinishedReply)
    (api : DetailsApi) (s : DetailsItem) (h : ParseSucceeds env reply api) :
    if ((parseDetails env reply s).1.extension env == "zip" && env.convertUgoira &&
        env.ugoiraDetails.isSome) = true then
      resultSignals (parseDetails env reply s).2 = [] ∧
        (followUpRequests (parseDetails env reply s).2).length = 1
    else
      resultSignals (parseDetails env reply s).2 = [LoadTagsResult.Ok] ∧
        followUpRequests (parseDetails env reply s).2 = [] := by
  rw [parseDetails_success env reply api s h]
  have hu := updateUrl_events env (DetailsItem.merge
    { s with m_loadDetails := s.m_loadDetails.map fun _ => ⟨false⟩, m_loadingDetails := false }
    (api.parseDetails reply.body reply.statusCode))
    (api.parseDetails reply.body reply.statusCode)
  simp only [resultSignals_append, followUpRequests_append, hu.2.1, hu.2.2.1, List.nil_append]
  exact finishParse_cases env _

/-- C12 (as stated, refuted): for an item whose URL ends in zip on a site with the
endpoint `ugoira_details` and ugoira conversion enabled, the completions 429, 503
and an accepted 200 lead to four requests, the three for the details page and the
follow-up, and to no success signal; when the follow-up then fails with a transport
error the result signalled is `NetworkError`. -/
theorem rate_limit_follow_up_counterexample :
    detailsRequests (detailsRun (sampleUgoiraEnv (some (sampleApi [] "")))
        { sampleDetailsItem with m_url := "https://test.com/file.zip" }
        [sampleReply 429, sampleReply 503, sampleReply 200]).2 =
        [("https://test.com/post/1", QueryType.Details),
          ("https://test.com/post/1", QueryType.Retry),
          ("https://test.com/post/1", QueryType.Retry)] ∧
      followUpRequests (detailsRun (sampleUgoiraEnv (some (sampleApi [] "")))
        { sampleDetailsItem with m_url := "https://test.com/file.zip" }
        [sampleReply 429, sampleReply 503, sampleReply 200]).2 =
        ["https://test.com/ugoira/1"] ∧
      resultSignals (detailsRun (sampleUgoiraEnv (some (sampleApi [] "")))
        { sampleDetailsItem with m_url := "https://test.com/file.zip" }
        [sampleReply 429, sampleReply 503, sampleReply 200]).2 = [] ∧
      (parseUgoiraDetails (sampleUgoiraEnv (some (sampleApi [] "")))
        { sampleReply 0 with error := ReplyError.Other 1 }
        (detailsRun (sampleUgoiraEnv (some (sampleApi [] "")))
          { sampleDetailsItem with m_url := "https://test.com/file.zip" }
          [sampleReply 429, sampleReply 503, sampleReply 200]).1).map
          (fun out => resultSignals out.2) = some [LoadTagsResult.NetworkError] := by
  decide

/-- C12 (amended): rate-limit retry loop. From an idle item with a details page, when
the details request and its re-issues complete without redirect with `n` statuses
out of 429, 503, 509 and then with a 200 without transport error that the parser
accepts, the details page is requested exactly `n + 1` times, first in the normal
class and then `n` times as rate-limited retry; the details end up marked loaded and
the item not loading. When the parse triggers the ugoira follow-up (extension zip,
conversion enabled, endpoint available) one further request, the follow-up, is
issued and no result is signalled yet; otherwise the single result `Ok` is signalled
and no further request is issued. -/
theorem rate_limit_retry_loop (env : DetailsEnv) (api : DetailsApi) (s : DetailsItem)
    (retries : List FinishedReply) (final : FinishedReply)
    (hidle : s.m_loadingDetails = false) (hnew : s.m_loadedDetails = false)
    (hpage : s.m_pageUrl.isEmpty = false) (hapi : env.detailsApi = some api)
    (hretries : ∀ r ∈ retries, r.redirectionTarget.isEmpty = true ∧
      (r.statusCode = 429 ∨ r.statusCode = 503 ∨ r.statusCode = 509))
    (hfinal : final.redirectionTarget.isEmpty = true ∧ final.statusCode = 200 ∧
      final.error = ReplyError.NoError)
    (hparse : (api.parseDetails final.body 200).error.isEmpty = true) :
    detailsRequests (detailsRun env s (retries ++ [final])).2 =
        (s.m_pageUrl, QueryType.Details) ::
          List.replicate retries.length (s.m_pageUrl, QueryType.Retry) ∧
      (detailsRun env s (retries ++ [final])).1.m_loadedDetails = true ∧
      (detailsRun env s (retries ++ [final])).1.m_loadingDetails = false ∧
      (if ((detailsRun env s (retries ++ [final])).1.extension env == "zip" &&
          env.convertUgoira && env.ugoiraDetails.isSome) = true then
        resultSignals (detailsRun env s (retries ++ [final])).2 = [] ∧
          (followUpRequests (detailsRun env s (retries ++ [final])).2).length = 1
       else
        resultSignals (detailsRun env s (retries ++ [final])).2 = [LoadTagsResult.Ok] ∧
          followUpRequests (detailsRun env s (retries ++ [final])).2 = []) := by
  have h0 := loadDetails_issue s false hidle hnew hpage
  have hpage0 : (loadDetails s false).1.m_pageUrl = s.m_pageUrl := by rw [h0.1]
  have h1 := completeAll_retries env retries hretries (loadDetails s false)
    (by rw [h0.1]; exact hnew) (by rw [hpage0]; exact hpage)
  have hsucc : ParseSucceeds env final api := by
    obtain ⟨f1, f2, f3⟩ := hfinal
    refine ⟨f1, ?_, ?_, f3, hapi, ?_⟩
    · simp [isRateLimited, f2]
    · simp [isCloudflareWall, f2]
    · rw [f2]; exact hparse
  have h2 := parseDetails_success_spec env final api
    (completeAll env retries (loadDetails s false)).1 hsucc
  have h3 := parseDetails_success_cases env final api
    (completeAll env retries (loadDetails s false)).1 hsucc
  simp only [detailsRun, completeAll_append, completeAll, detailsRequests_append,
    resultSignals_append, followUpRequests_append]
  rw [h1.2.2.1, h1.2.2.2.1, h1.2.2.2.2, h0.2.1, h0.2.2.1, h0.2.2.2, h2.2.2.1, hpage0]
  refine ⟨by simp, h2.1, h2.2.1, ?_⟩
  simpa using h3

theorem rate_limit_retry_loop_witness :
    detailsRequests (detailsRun (sampleDetailsEnv (some (sampleApi [] ""))) sampleDetailsItem
        ([sampleReply 429, sampleReply 503] ++ [sampleReply 200])).2 =
        (sampleDetailsItem.m_pageUrl, QueryType.Details) ::
          List.replicate [sampleReply 429, sampleReply 503].length
            (sampleDetailsItem.m_pageUrl, QueryType.Retry) ∧
      (detailsRun (sampleDetailsEnv (some (sampleApi [] ""))) sampleDetailsItem
        ([sampleReply 429, sampleReply 503] ++ [sampleReply 200])).1.m_loadedDetails = true ∧
      (detailsRun (sampleDetailsEnv (some (sampleApi [] ""))) sampleDetailsItem
        ([sampleReply 429, sampleReply 503] ++ [sampleReply 200])).1.m_loadingDetails = false ∧
      (if ((detailsRun (sampleDetailsEnv (some (sampleApi [] ""))) sampleDetailsItem
          ([sampleReply 429, sampleReply 503] ++ [sampleReply 200])).1.extension
            (sampleDetailsEnv (some (sampleApi [] ""))) == "zip" &&
          (sampleDetailsEnv (some (sampleApi [] ""))).convertUgoira &&
          (sampleDetailsEnv (some (sampleApi [] ""))).ugoiraDetails.isSome) = true then
        resultSignals (detailsRun (sampleDetailsEnv (some (sampleApi [] ""))) sampleDetailsItem
          ([sampleReply 429, sampleReply 503] ++ [sampleReply 200])).2 = [] ∧
          (followUpRequests (detailsRun (sampleDetailsEnv (some (sampleApi [] "")))
            sampleDetailsItem
            ([sampleReply 429, sampleReply 503] ++ [sampleReply 200])).2).length = 1
       else
        resultSignals (detailsRun (sampleDetailsEnv (some (sampleApi [] ""))) sampleDetailsItem
          ([sampleReply 429, sampleReply 503] ++ [sampleReply 200])).2 = [LoadTagsResult.Ok] ∧
          followUpRequests (detailsRun (sampleDetailsEnv (some (sampleApi [] "")))
            sampleDetailsItem ([sampleReply 429, sampleReply 503] ++ [sampleReply 200])).2 = []) :=
  rate_limit_retry_loop (sampleDetailsEnv (some (sampleApi [] ""))) (sampleApi [] "")
    sampleDetailsItem [sampleReply 429, sampleReply 503] (sampleReply 200)
    rfl rfl (by decide) rfl (by decide) (by decide) (by decide)

/-- C13 (as stated, refuted): a finished reply with status 403 and header
`server: cloudflare` that also carries a redirection target is followed, not
reported: the load is re-issued and no result is signalled. -/
theorem cloudflare_redirect_counterexample :
    resultSignals (parseDetails (sampleDetailsEnv none)
        { redirectionTarget := "https://test.com/challenge", statusCode := 403,
          server := "cloudflare", error := ReplyError.NoError, body := "" }
        sampleLoadingItem).2
        = [] ∧
      detailsRequests (parseDetails (sampleDetailsEnv none)
        { redirectionTarget := "https://test.com/challenge", statusCode := 403,
          server := "cloudflare", error := ReplyError.NoError, body := "" }
        sampleLoadingItem).2
        = [("https://test.com/challenge", QueryType.Details)] := by
  decide

/-- C13 (amended): a finished details reply without redirection target, with status
403 and header `server: cloudflare`, ends the load with the single result
`CloudflareError`, whatever error the transport reports: no `NetworkError` is
signalled and no request is issued; the item is left not loading, its reply
released. -/
theorem cloudflare_403_blocked (env : DetailsEnv) (reply : FinishedReply) (s : DetailsItem)
    (hr : reply.redirectionTarget.isEmpty = true) (hs : reply.statusCode = 403)
    (hc : reply.server = "cloudflare") :
    resultSignals (parseDetails env reply s).2 = [LoadTagsResult.CloudflareError] ∧
      LoadTagsResult.NetworkError ∉ resultSignals (parseDetails env reply s).2 ∧
      detailsRequests (parseDetails env reply s).2 = [] ∧
      followUpRequests (parseDetails env reply s).2 = [] ∧
      (parseDetails env reply s).1.m_loadingDetails = false ∧
      (parseDetails env reply s).1.m_loadDetails = none := by
  simp [parseDetails, hr, hs, hc, isRateLimited, isCloudflareWall, resultSignals,
    detailsRequests, followUpRequests]

theorem cloudflare_403_blocked_witness :
    resultSignals (parseDetails (sampleDetailsEnv none)
        { redirectionTarget := "", statusCode := 403, server := "cloudflare",
          error := ReplyError.Other 99, body := "" } sampleDetailsItem).2
        = [LoadTagsResult.CloudflareError] ∧
      LoadTagsResult.NetworkError ∉ resultSignals (parseDetails (sampleDetailsEnv none)
        { redirectionTarget := "", statusCode := 403, server := "cloudflare",
          error := ReplyError.Other 99, body := "" } sampleDetailsItem).2 ∧
      detailsRequests (parseDetails (sampleDetailsEnv none)
        { redirectionTarget := "", statusCode := 403, server := "cloudflare",
          error := ReplyError.Other 99, body := "" } sampleDetailsItem).2 = [] ∧
      followUpRequests (parseDetails (sampleDetailsEnv none)
        { redirectionTarget := "", statusCode := 403, server := "cloudflare",
          error := ReplyError.Other 99, body := "" } sampleDetailsItem).2 = [] ∧
      (parseDetails (sampleDetailsEnv none)
        { redirectionTarget := "", statusCode := 403, server := "cloudflare",
          error := ReplyError.Other 99, body := "" } sampleDetailsItem).1.m_loadingDetails
        = false ∧
      (parseDetails (sampleDetailsEnv none)
        { redirectionTarget := "", statusCode := 403, server := "cloudflare",
          error := ReplyError.Other 99, body := "" } sampleDetailsItem).1.m_loadDetails = none :=
  cloudflare_403_blocked (sampleDetailsEnv none)
    { redirectionTarget := "", statusCode := 403, server := "cloudflare",
      error := ReplyError.Other 99, body := "" } sampleDetailsItem rfl rfl rfl

/-- C14 (as stated, refuted): a cancelled details reply (no redirect, status 0, no
server header) ends the load with `NetworkError`, not with a success result. -/
theorem cancelled_counterexample :
    resultSignals (parseDetails (sampleDetailsEnv (some (sampleApi [] "")))
        { redirectionTarget := "", statusCode := 0, server := "",
          error := ReplyError.OperationCanceledError, body := "" }
        sampleLoadingItem).2
      = [LoadTagsResult.NetworkError] := by
  decide

/-- C14 (amended): when the finished details reply carries the operation-cancelled
error (no redirect, status not rate-limited, no Cloudflare wall), the machine
signals `NetworkError` and nothing else: no error is logged, no request is issued,
and the item's tags, pools, sources, URL and data are unchanged, its loaded flag
too; the item is left not loading, its reply released. -/
theorem cancelled_reports_network_error (env : DetailsEnv) (reply : FinishedReply)
    (s : DetailsItem) (hr : reply.redirectionTarget.isEmpty = true)
    (hs : isRateLimited reply.statusCode = false) (hc : isCloudflareWall reply = false)
    (he : reply.error = ReplyError.OperationCanceledError) :
    (parseDetails env reply s).2 =
        [DetailsEvent.finishedLoadingTags LoadTagsResult.NetworkError] ∧
      (parseDetails env reply s).1.m_tags = s.m_tags ∧
      (parseDetails env reply s).1.m_pools = s.m_pools ∧
      (parseDetails env reply s).1.m_sources = s.m_sources ∧
      (parseDetails env reply s).1.m_url = s.m_url ∧
      (parseDetails env reply s).1.fullUrl = s.fullUrl ∧
      (parseDetails env reply s).1.m_data = s.m_data ∧
      (parseDetails env reply s).1.m_loadedDetails = s.m_loadedDetails ∧
      (parseDetails env reply s).1.m_loadingDetails = false ∧
      (parseDetails env reply s).1.m_loadDetails = none := by
  simp [parseDetails, hr, hs, hc, he]

theorem cancelled_reports_network_error_witness :
    (parseDetails (sampleDetailsEnv none) { sampleReply 0 with
        error := ReplyError.OperationCanceledError } sampleDetailsItem).2 =
        [DetailsEvent.finishedLoadingTags LoadTagsResult.NetworkError] ∧
      (parseDetails (sampleDetailsEnv none) { sampleReply 0 with
        error := ReplyError.OperationCanceledError } sampleDetailsItem).1.m_tags =
        sampleDetailsItem.m_tags ∧
      (parseDetails (sampleDetailsEnv none) { sampleReply 0 with
        error := ReplyError.OperationCanceledError } sampleDetailsItem).1.m_pools =
        sampleDetailsItem.m_pools ∧
      (parseDetails (sampleDetailsEnv none) { sampleReply 0 with
        error := ReplyError.OperationCanceledError } sampleDetailsItem).1.m_sources =
        sampleDetailsItem.m_sources ∧
      (parseDetails (sampleDetailsEnv none) { sampleReply 0 with
        error := ReplyError.OperationCanceledError } sampleDetailsItem).1.m_url =
        sampleDetailsItem.m_url ∧
      (parseDetails (sampleDetailsEnv none) { sampleReply 0 with
        error := ReplyError.OperationCanceledError } sampleDetailsItem).1.fullUrl =
        sampleDetailsItem.fullUrl ∧
      (parseDetails (sampleDetailsEnv none) { sampleReply 0 with
        error := ReplyError.OperationCanceledError } sampleDetailsItem).1.m_data =
        sampleDetailsItem.m_data ∧
      (parseDetails (sampleDetailsEnv none) { sampleReply 0 with
        error := ReplyError.OperationCanceledError } sampleDetailsItem).1.m_loadedDetails =
        sampleDetailsItem.m_loadedDetails ∧
      (parseDetails (sampleDetailsEnv none) { sampleReply 0 with
        error := ReplyError.OperationCanceledError } sampleDetailsItem).1.m_loadingDetails
        = false ∧
      (parseDetails (sampleDetailsEnv none) { sampleReply 0 with
        error := ReplyError.OperationCanceledError } sampleDetailsItem).1.m_loadDetails = none :=
  cancelled_reports_network_error (sampleDetailsEnv none)
    { sampleReply 0 with error := ReplyError.OperationCanceledError } sampleDetailsItem
    rfl (by decide) (by decide) rfl

/-- C15: entry guard of `loadDetails`. When the item is loading, or its details
are loaded, or its details URL is empty, a load request leaves the whole state
unchanged (so a not-loading item stays not loading) and issues no request; while
the item is loading it makes no call at all, and otherwise its only call is the
signal `finishedLoadingTags(Ok)`. -/
theorem loadDetails_entry_guard (s : DetailsItem) (rateLimit : Bool)
    (h : s.m_loadingDetails = true ∨ s.m_loadedDetails = true ∨ s.m_pageUrl.isEmpty = true) :
    (loadDetails s rateLimit).1 = s ∧
      (loadDetails s rateLimit).2 =
        (if s.m_loadingDetails = true then []
         else [DetailsEvent.finishedLoadingTags LoadTagsResult.Ok]) ∧
      detailsRequests (loadDetails s rateLimit).2 = [] ∧
      followUpRequests (loadDetails s rateLimit).2 = [] := by
  by_cases hl : s.m_loadingDetails = true
  · simp [loadDetails, hl, detailsRequests, followUpRequests]
  · have hc : (s.m_loadedDetails || s.m_pageUrl.isEmpty) = true := by
      rcases h with h1 | h1 | h1
      · exact absurd h1 hl
      · simp [h1]
      · simp [h1]
    simp only [Bool.not_eq_true] at hl
    simp [loadDetails, hl, hc, detailsRequests, followUpRequests]

theorem loadDetails_entry_guard_witness :
    (loadDetails { sampleDetailsItem with m_loadedDetails := true } true).1 =
        { sampleDetailsItem with m_loadedDetails := true } ∧
      (loadDetails { sampleDetailsItem with m_loadedDetails := true } true).2 =
        (if { sampleDetailsItem with m_loadedDetails := true }.m_loadingDetails = true then []
         else [DetailsEvent.finishedLoadingTags LoadTagsResult.Ok]) ∧
      detailsRequests (loadDetails { sampleDetailsItem with m_loadedDetails := true } true).2
        = [] ∧
      followUpRequests (loadDetails { sampleDetailsItem with m_loadedDetails := true } true).2
        = [] :=
  loadDetails_entry_guard { sampleDetailsItem with m_loadedDetails := true } true
    (Or.inr (Or.inl rfl))

theorem merge_fields (s : DetailsItem) (ret : ParsedDetails) :
    (s.merge ret).m_pools = (if ret.pools.isEmpty = true then s.m_pools else ret.pools) ∧
      (s.merge ret).m_tags = (if ret.tags.isEmpty = true then s.m_tags else ret.tags) ∧
      (s.merge ret).m_sources =
        (if ret.sources.isEmpty = true then s.m_sources else ret.sources) ∧
      (s.merge ret).m_data =
        (if ret.createdAt.isValid = true then
          s.m_data.set "date" (Variant.dateTime ret.createdAt.iso)
         else s.m_data) ∧
      (s.merge ret).m_url = s.m_url ∧ (s.merge ret).fullFileSize = s.fullFileSize ∧
      (s.merge ret).fullUrl = s.fullUrl ∧ (s.merge ret).m_extension = s.m_extension := by
  simp only [DetailsItem.merge]
  refine ⟨?_, ?_, ?_, ?_, ?_, ?_, ?_, ?_⟩ <;> split_ifs <;> simp_all

/-- C16: on parse success the merge never overwrites with empty. After
`parseDetails`, each of pools, tags and sources is the parsed value when that is
non-empty and the item's previous value otherwise; the entry `date` of the data map
is set to the parsed creation date when that is valid, and the data map is the
previous one otherwise. -/
theorem parse_merge_keeps_nonempty (env : DetailsEnv) (reply : FinishedReply)
    (api : DetailsApi) (s : DetailsItem) (h : ParseSucceeds env reply api) :
    (parseDetails env reply s).1.m_pools =
        (if (api.parseDetails reply.body reply.statusCode).pools.isEmpty = true then s.m_pools
         else (api.parseDetails reply.body reply.statusCode).pools) ∧
      (parseDetails env reply s).1.m_tags =
        (if (api.parseDetails reply.body reply.statusCode).tags.isEmpty = true then s.m_tags
         else (api.parseDetails reply.body reply.statusCode).tags) ∧
      (parseDetails env reply s).1.m_sources =
        (if (api.parseDetails reply.body reply.statusCode).sources.isEmpty = true then
          s.m_sources
         else (api.parseDetails reply.body reply.statusCode).sources) ∧
      (parseDetails env reply s).1.m_data =
        (if (api.parseDetails reply.body reply.statusCode).createdAt.isValid = true then
          s.m_data.set "date"
            (Variant.dateTime (api.parseDetails reply.body reply.statusCode).createdAt.iso)
         else s.m_data) := by
  rw [parseDetails_success env reply api s h]
  generalize api.parseDetails reply.body reply.statusCode = ret
  have hm := merge_fields
    { s with m_loadDetails := s.m_loadDetails.map fun _ => ⟨false⟩, m_loadingDetails := false }
    ret
  have hu := updateUrl_events env (DetailsItem.merge
    { s with m_loadDetails := s.m_loadDetails.map fun _ => ⟨false⟩, m_loadingDetails := false }
    ret) ret
  have hf := finishParse_spec env (DetailsItem.updateUrl env (DetailsItem.merge
    { s with m_loadDetails := s.m_loadDetails.map fun _ => ⟨false⟩, m_loadingDetails := false }
    ret) ret).1
  simp only [hf.1]
  refine ⟨?_, ?_, ?_, ?_⟩
  · rw [hu.2.2.2.2.2.1]; exact hm.1
  · rw [hu.2.2.2.2.1]; exact hm.2.1
  · rw [hu.2.2.2.2.2.2.1]; exact hm.2.2.1
  · rw [hu.2.2.2.2.2.2.2]; exact hm.2.2.2.1

theorem parse_merge_keeps_nonempty_witness :
    (parseDetails (sampleDetailsEnv (some (sampleApi [⟨"new", "artist"⟩] "")))
        (sampleReply 200) sampleDetailsItem).1.m_pools =
        (if ((sampleApi [⟨"new", "artist"⟩] "").parseDetails (sampleReply 200).body
            (sampleReply 200).statusCode).pools.isEmpty = true then sampleDetailsItem.m_pools
         else ((sampleApi [⟨"new", "artist"⟩] "").parseDetails (sampleReply 200).body
            (sampleReply 200).statusCode).pools) ∧
      (parseDetails (sampleDetailsEnv (some (sampleApi [⟨"new", "artist"⟩] "")))
        (sampleReply 200) sampleDetailsItem).1.m_tags =
        (if ((sampleApi [⟨"new", "artist"⟩] "").parseDetails (sampleReply 200).body
            (sampleReply 200).statusCode).tags.isEmpty = true then sampleDetailsItem.m_tags
         else ((sampleApi [⟨"new", "artist"⟩] "").parseDetails (sampleReply 200).body
            (sampleReply 200).statusCode).tags) ∧
      (parseDetails (sampleDetailsEnv (some (sampleApi [⟨"new", "artist"⟩] "")))
        (sampleReply 200) sampleDetailsItem).1.m_sources =
        (if ((sampleApi [⟨"new", "artist"⟩] "").parseDetails (sampleReply 200).body
            (sampleReply 200).statusCode).sources.isEmpty = true then
          sampleDetailsItem.m_sources
         else ((sampleApi [⟨"new", "artist"⟩] "").parseDetails (sampleReply 200).body
            (sampleReply 200).statusCode).sources) ∧
      (parseDetails (sampleDetailsEnv (some (sampleApi [⟨"new", "artist"⟩] "")))
        (sampleReply 200) sampleDetailsItem).1.m_data =
        (if ((sampleApi [⟨"new", "artist"⟩] "").parseDetails (sampleReply 200).body
            (sampleReply 200).statusCode).createdAt.isValid = true then
          sampleDetailsItem.m_data.set "date"
            (Variant.dateTime ((sampleApi [⟨"new", "artist"⟩] "").parseDetails
              (sampleReply 200).body (sampleReply 200).statusCode).createdAt.iso)
         else sampleDetailsItem.m_data) :=
  parse_merge_keeps_nonempty (sampleDetailsEnv (some (sampleApi [⟨"new", "artist"⟩] "")))
    (sampleReply 200) (sampleApi [⟨"new", "artist"⟩] "") sampleDetailsItem
    ⟨rfl, by decide, by decide, rfl, rfl, by decide⟩

theorem updateUrl_spec (env : DetailsEnv) (s : DetailsItem) (ret : ParsedDetails)
    (hurl : ret.imageUrl.isEmpty = false) :
    (DetailsItem.updateUrl env s ret).1.m_url = env.fixUrlFrom ret.imageUrl s.m_url ∧
      (DetailsItem.updateUrl env s ret).1.fullUrl = env.fixUrlFrom ret.imageUrl s.m_url ∧
      (DetailsItem.updateUrl env s ret).1.fullFileSize =
        (if s.m_url ≠ env.fixUrlFrom ret.imageUrl s.m_url ∧
            env.getExtension s.m_url ≠ env.getExtension (env.fixUrlFrom ret.imageUrl s.m_url)
         then 0 else s.fullFileSize) ∧
      urlChanges (DetailsItem.updateUrl env s ret).2 =
        (if s.m_url ≠ env.fixUrlFrom ret.imageUrl s.m_url then
          [(s.m_url, env.fixUrlFrom ret.imageUrl s.m_url)]
         else []) := by
  simp only [DetailsItem.updateUrl, hurl]
  by_cases h1 : s.m_url = env.fixUrlFrom ret.imageUrl s.m_url
  · simp [← h1, urlChanges]
  · by_cases h2 : env.getExtension s.m_url =
        env.getExtension (env.fixUrlFrom ret.imageUrl s.m_url)
    · simp [h1, h2, urlChanges]
    · simp [h1, h2, urlChanges]

/-- C17: on parse success with a non-empty resolved image URL, the item's URL and
the Full variant's URL become the fixed-up new URL; the Full variant's cached byte
size is 0 afterwards when the new URL differs from the old one and their file
extensions differ, and is the previous size in every other case; the notification
`urlChanged(old, new)` is emitted once when the new URL differs from the old one
and not at all otherwise. -/
theorem parse_url_change (env : DetailsEnv) (reply : FinishedReply) (api : DetailsApi)
    (s : DetailsItem) (h : ParseSucceeds env reply api)
    (hurl : (api.parseDetails reply.body reply.statusCode).imageUrl.isEmpty = false) :
    (parseDetails env reply s).1.m_url =
        env.fixUrlFrom (api.parseDetails reply.body reply.statusCode).imageUrl s.m_url ∧
      (parseDetails env reply s).1.fullUrl =
        env.fixUrlFrom (api.parseDetails reply.body reply.statusCode).imageUrl s.m_url ∧
      (parseDetails env reply s).1.fullFileSize =
        (if s.m_url ≠
              env.fixUrlFrom (api.parseDetails reply.body reply.statusCode).imageUrl s.m_url ∧
            env.getExtension s.m_url ≠ env.getExtension
              (env.fixUrlFrom (api.parseDetails reply.body reply.statusCode).imageUrl s.m_url)
         then 0 else s.fullFileSize) ∧
      urlChanges (parseDetails env reply s).2 =
        (if s.m_url ≠
            env.fixUrlFrom (api.parseDetails reply.body reply.statusCode).imageUrl s.m_url then
          [(s.m_url,
            env.fixUrlFrom (api.parseDetails reply.body reply.statusCode).imageUrl s.m_url)]
         else []) := by
  rw [parseDetails_success env reply api s h]
  generalize api.parseDetails reply.body reply.statusCode = ret at hurl ⊢
  have hm := merge_fields
    { s with m_loadDetails := s.m_loadDetails.map fun _ => ⟨false⟩, m_loadingDetails := false }
    ret
  have hu := updateUrl_spec env (DetailsItem.merge
    { s with m_loadDetails := s.m_loadDetails.map fun _ => ⟨false⟩, m_loadingDetails := false }
    ret) ret hurl
  have hf := finishParse_spec env (DetailsItem.updateUrl env (DetailsItem.merge
    { s with m_loadDetails := s.m_loadDetails.map fun _ => ⟨false⟩, m_loadingDetails := false }
    ret) ret).1
  rw [hm.2.2.2.2.1, hm.2.2.2.2.2.1] at hu
  simp only [hf.1, urlChanges_append, hf.2.2.1, List.append_nil]
  exact hu

theorem parse_url_change_witness :
    (parseDetails (sampleDetailsEnv (some (sampleApi [] "https://test.com/file.png")))
        (sampleReply 200) sampleDetailsItem).1.m_url =
        (sampleDetailsEnv (some (sampleApi [] "https://test.com/file.png"))).fixUrlFrom
          ((sampleApi [] "https://test.com/file.png").parseDetails (sampleReply 200).body
            (sampleReply 200).statusCode).imageUrl sampleDetailsItem.m_url ∧
      (parseDetails (sampleDetailsEnv (some (sampleApi [] "https://test.com/file.png")))
        (sampleReply 200) sampleDetailsItem).1.fullUrl =
        (sampleDetailsEnv (some (sampleApi [] "https://test.com/file.png"))).fixUrlFrom
          ((sampleApi [] "https://test.com/file.png").parseDetails (sampleReply 200).body
            (sampleReply 200).statusCode).imageUrl sampleDetailsItem.m_url ∧
      (parseDetails (sampleDetailsEnv (some (sampleApi [] "https://test.com/file.png")))
        (sampleReply 200) sampleDetailsItem).1.fullFileSize =
        (if sampleDetailsItem.m_url ≠
              (sampleDetailsEnv (some (sampleApi [] "https://test.com/file.png"))).fixUrlFrom
                ((sampleApi [] "https://test.com/file.png").parseDetails (sampleReply 200).body
                  (sampleReply 200).statusCode).imageUrl sampleDetailsItem.m_url ∧
            (sampleDetailsEnv (some (sampleApi [] "https://test.com/file.png"))).getExtension
                sampleDetailsItem.m_url ≠
              (sampleDetailsEnv (some (sampleApi [] "https://test.com/file.png"))).getExtension
                ((sampleDetailsEnv (some (sampleApi [] "https://test.com/file.png"))).fixUrlFrom
                  ((sampleApi [] "https://test.com/file.png").parseDetails
                    (sampleReply 200).body (sampleReply 200).statusCode).imageUrl
                  sampleDetailsItem.m_url)
         then 0 else sampleDetailsItem.fullFileSize) ∧
      urlChanges (parseDetails (sampleDetailsEnv (some (sampleApi [] "https://test.com/file.png")))
        (sampleReply 200) sampleDetailsItem).2 =
        (if sampleDetailsItem.m_url ≠
            (sampleDetailsEnv (some (sampleApi [] "https://test.com/file.png"))).fixUrlFrom
              ((sampleApi [] "https://test.com/file.png").parseDetails (sampleReply 200).body
                (sampleReply 200).statusCode).imageUrl sampleDetailsItem.m_url then
          [(sampleDetailsItem.m_url,
            (sampleDetailsEnv (some (sampleApi [] "https://test.com/file.png"))).fixUrlFrom
              ((sampleApi [] "https://test.com/file.png").parseDetails (sampleReply 200).body
                (sampleReply 200).statusCode).imageUrl sampleDetailsItem.m_url)]
         else []) :=
  parse_url_change (sampleDetailsEnv (some (sampleApi [] "https://test.com/file.png")))
    (sampleReply 200) (sampleApi [] "https://test.com/file.png") sampleDetailsItem
    ⟨rfl, by decide, by decide, rfl, rfl, by decide⟩ (by decide)

theorem finishParse_followUp (env : DetailsEnv) (s : DetailsItem) (endpoint : UgoiraEndpoint)
    (hext : (DetailsItem.finishParse env s).1.extension env = "zip")
    (hconv : env.convertUgoira = true) (hend : env.ugoiraDetails = some endpoint) :
    resultSignals (DetailsItem.finishParse env s).2 = [] ∧
      followUpRequests (DetailsItem.finishParse env s).2 = [endpoint.url s.m_identity] := by
  rw [(finishParse_spec env s).1] at hext
  simp [DetailsItem.finishParse, hext, hconv, hend, resultSignals, followUpRequests]

/-- C18 (as stated, refuted): the details parse succeeds and triggers the follow-up
request (URL ending in zip, conversion enabled, endpoint there); the follow-up fails
with a transport error and the result signalled for the load is `NetworkError`. -/
theorem follow_up_failure_counterexample :
    (parseThenFollowUp (sampleUgoiraEnv (some (sampleApi [] ""))) (sampleReply 200)
        { sampleReply 0 with error := ReplyError.Other 1 }
        { sampleDetailsItem with m_url := "https://test.com/file.zip" }).map
          (fun out => (resultSignals out.2, followUpRequests out.2, out.1.m_loadedDetails)) =
      some ([LoadTagsResult.NetworkError], ["https://test.com/ugoira/1"], true) := by
  decide

/-- C18 (amended): whenever a successful details parse triggers the follow-up request
(extension zip after the parse, conversion enabled, endpoint available),
`parseDetails` itself signals no result and issues that one request; when the
follow-up completes, the single result signalled for the load is `Ok` if the
follow-up reply carries no transport error and `NetworkError` if it carries one
(cancellation included); the details stay marked loaded in both cases. -/
theorem follow_up_result (env : DetailsEnv) (reply followUp : FinishedReply) (api : DetailsApi)
    (endpoint : UgoiraEndpoint) (s : DetailsItem) (h : ParseSucceeds env reply api)
    (hext : (parseDetails env reply s).1.extension env = "zip")
    (hconv : env.convertUgoira = true) (hend : env.ugoiraDetails = some endpoint) :
    resultSignals (parseDetails env reply s).2 = [] ∧
      (followUpRequests (parseDetails env reply s).2).length = 1 ∧
      ∃ out, parseThenFollowUp env reply followUp s = some out ∧
        resultSignals out.2 =
          [if followUp.error = ReplyError.NoError then LoadTagsResult.Ok
           else LoadTagsResult.NetworkError] ∧
        out.1.m_loadedDetails = true := by
  have hs := parseDetails_success_spec env reply api s h
  have hsig : resultSignals (parseDetails env reply s).2 = [] ∧
      (followUpRequests (parseDetails env reply s).2).length = 1 := by
    rw [parseDetails_success env reply api s h] at hext ⊢
    have hf := finishParse_followUp env _ endpoint hext hconv hend
    have hu := updateUrl_events env (DetailsItem.merge
      { s with m_loadDetails := s.m_loadDetails.map fun _ => ⟨false⟩,
               m_loadingDetails := false }
      (api.parseDetails reply.body reply.statusCode))
      (api.parseDetails reply.body reply.statusCode)
    simp only [resultSignals_append, followUpRequests_append, hu.2.1, hu.2.2.1, hf.1, hf.2,
      List.nil_append, List.length_singleton, and_self]
  refine ⟨hsig.1, hsig.2, ?_⟩
  by_cases he : followUp.error = ReplyError.NoError
  · have hp : parseThenFollowUp env reply followUp s =
        some ({ (parseDetails env reply s).1 with
                m_data := (parseDetails env reply s).1.m_data.set "ugoira_metadata"
                  (endpoint.parseAny followUp.body followUp.statusCode) },
          (parseDetails env reply s).2 ++
            [DetailsEvent.finishedLoadingTags LoadTagsResult.Ok]) := by
      simp [parseThenFollowUp, parseUgoiraDetails, he, hend]
    refine ⟨_, hp, ?_, ?_⟩
    · simp only [resultSignals_append, hsig.1, List.nil_append]
      simp [resultSignals, he]
    · exact hs.1
  · have hp : parseThenFollowUp env reply followUp s =
        some ((parseDetails env reply s).1,
          (parseDetails env reply s).2 ++
            ((if followUp.error ≠ ReplyError.OperationCanceledError then
              [DetailsEvent.log LogLevel.Error] else []) ++
            [DetailsEvent.finishedLoadingTags LoadTagsResult.NetworkError])) := by
      simp [parseThenFollowUp, parseUgoiraDetails, he]
    refine ⟨_, hp, ?_, ?_⟩
    · simp only [resultSignals_append, hsig.1, List.nil_append]
      by_cases hc : followUp.error = ReplyError.OperationCanceledError <;>
        simp [resultSignals, he, hc]
    · exact hs.1

theorem follow_up_result_witness :
    resultSignals (parseDetails (sampleUgoiraEnv (some (sampleApi [] ""))) (sampleReply 200)
        { sampleDetailsItem with m_url := "https://test.com/file.zip" }).2 = [] ∧
      (followUpRequests (parseDetails (sampleUgoiraEnv (some (sampleApi [] "")))
        (sampleReply 200)
        { sampleDetailsItem with m_url := "https://test.com/file.zip" }).2).length = 1 ∧
      ∃ out, parseThenFollowUp (sampleUgoiraEnv (some (sampleApi [] ""))) (sampleReply 200)
          (sampleReply 200) { sampleDetailsItem with m_url := "https://test.com/file.zip" } =
            some out ∧
        resultSignals out.2 =
          [if (sampleReply 200).error = ReplyError.NoError then LoadTagsResult.Ok
           else LoadTagsResult.NetworkError] ∧
        out.1.m_loadedDetails = true :=
  follow_up_result (sampleUgoiraEnv (some (sampleApi [] ""))) (sampleReply 200)
    (sampleReply 200) (sampleApi [] "")
    { url := fun _ => "https://test.com/ugoira/1",
      parseAny := fun body _ => Variant.json (Json.str body) }
    { sampleDetailsItem with m_url := "https://test.com/file.zip" }
    ⟨rfl, by decide, by decide, rfl, rfl, by decide⟩ (by decide) rfl rfl

/-- C19: abort is idempotent. When `abortTags` returns, it has cancelled the request
and cleared the loading flag if the item was loading with its request running, and
has changed nothing and made no call otherwise (in particular on an item that is
not loading); a second `abortTags` on the resulting state returns that same state
and makes no call. -/
theorem abortTags_idempotent (s : DetailsItem) (out : DetailsItem × List DetailsEvent)
    (h : abortTags s = some out) :
    out =
        (if s.m_loadingDetails = true ∧ s.m_loadDetails = some ⟨true⟩ then
          ({ s with m_loadingDetails := false }, [DetailsEvent.abort])
         else (s, [])) ∧
      abortTags out.1 = some (out.1, []) := by
  unfold abortTags at h
  by_cases hl : s.m_loadingDetails = true
  · rw [if_pos hl] at h
    rcases hr : s.m_loadDetails with _ | ⟨_ | _⟩
    · rw [hr] at h; cases h
    · rw [hr] at h
      simp only [Bool.false_eq_true, if_false, Option.some.injEq] at h
      subst h
      refine ⟨by simp [hl, hr], ?_⟩
      simp [abortTags, hl, hr]
    · rw [hr] at h
      simp only [if_true, Option.some.injEq] at h
      subst h
      refine ⟨by simp [hl, hr], ?_⟩
      simp [abortTags]
  · rw [if_neg hl] at h
    simp only [Option.some.injEq] at h
    subst h
    refine ⟨by simp [hl], ?_⟩
    simp [abortTags, hl]

theorem abortTags_idempotent_witness :
    (({ sampleLoadingItem with m_loadingDetails := false }, [DetailsEvent.abort]) :
        DetailsItem × List DetailsEvent) =
        (if sampleLoadingItem.m_loadingDetails = true ∧
            sampleLoadingItem.m_loadDetails = some ⟨true⟩ then
          ({ sampleLoadingItem with m_loadingDetails := false }, [DetailsEvent.abort])
         else (sampleLoadingItem, [])) ∧
      abortTags (({ sampleLoadingItem with m_loadingDetails := false }, [DetailsEvent.abort]) :
          DetailsItem × List DetailsEvent).1 =
        some ((({ sampleLoadingItem with m_loadingDetails := false }, [DetailsEvent.abort]) :
          DetailsItem × List DetailsEvent).1, []) :=
  abortTags_idempotent sampleLoadingItem
    ({ sampleLoadingItem with m_loadingDetails := false }, [DetailsEvent.abort]) rfl

/-! ## Theorems: shared variant objects -/

theorem Resolver.assign_m_allSizes (r : Resolver) (k : Size) (v : ImageSize) :
    (r.assign k v).m_allSizes = r.m_allSizes := rfl

theorem Resolver.thumbnailRule_m_allSizes (r : Resolver) (m : ImageSize) :
    (r.thumbnailRule m).m_allSizes = r.m_allSizes := by
  simp only [Resolver.thumbnailRule]
  split_ifs <;> rfl

theorem Resolver.sampleRule_m_allSizes (r : Resolver) (m : ImageSize) :
    (r.sampleRule m).m_allSizes = r.m_allSizes := by
  simp only [Resolver.sampleRule]
  split_ifs <;> rfl

theorem Resolver.fullRule_m_allSizes (r : Resolver) (m : ImageSize) :
    (r.fullRule m).m_allSizes = r.m_allSizes := by
  simp only [Resolver.fullRule]
  split_ifs <;> rfl

theorem Resolver.step_m_allSizes (r : Resolver) (m : ImageSize) :
    (r.step m).m_allSizes = r.m_allSizes ++ [m] := by
  simp only [Resolver.step]
  split_ifs
  · rfl
  · rw [Resolver.fullRule_m_allSizes, Resolver.sampleRule_m_allSizes,
      Resolver.thumbnailRule_m_allSizes]
    rfl

theorem Resolver.run_m_allSizes (xs : List ImageSize) :
    ∀ r : Resolver, (r.run xs).m_allSizes = r.m_allSizes ++ xs := by
  induction xs with
  | nil => intro r; simp [Resolver.run]
  | cons x xs ih =>
    intro r
    rw [Resolver.run_cons, ih, Resolver.step_m_allSizes]
    simp

theorem Resolver.RefsInv.init (t s f : ImageSize) :
    (Resolver.init t s f).RefsInv Resolver.initRefs := by
  refine ⟨by simp [Resolver.init], ?_⟩
  intro k hk
  cases k with
  | Unknown => exact absurd rfl hk
  | Thumbnail => exact ⟨0, t, rfl, rfl, rfl, Or.inl rfl⟩
  | Sample => exact ⟨1, s, rfl, rfl, rfl, Or.inl rfl⟩
  | Full => exact ⟨2, f, rfl, rfl, rfl, Or.inl rfl⟩

theorem Resolver.RefsInv.assign {r : Resolver} {refs : SizeMap Nat} (h : r.RefsInv refs)
    (k0 : Size) (media : ImageSize) (idx : Nat) (hidx : r.m_allSizes[idx]? = some media)
    (h3 : 3 ≤ idx) : (r.assign k0 media).RefsInv (refs.insert k0 idx) := by
  refine ⟨h.1, ?_⟩
  intro k hk
  by_cases hkk : k = k0
  · subst hkk
    exact ⟨idx, media, by simp [SizeMap.insert], hidx, by simp, Or.inr h3⟩
  · obtain ⟨i, v, h1, h2, h4, h5⟩ := h.2 k hk
    exact ⟨i, v, by simp [SizeMap.insert, hkk, h1], h2, by simp [hkk, h4], h5⟩

theorem Resolver.RefsInv.push {r : Resolver} {refs : SizeMap Nat} (h : r.RefsInv refs)
    (m : ImageSize) :
    (r.push m).RefsInv refs ∧ (r.push m).m_allSizes[r.m_allSizes.length]? = some m := by
  refine ⟨⟨?_, ?_⟩, ?_⟩
  · have := h.1
    simp only [Resolver.push, List.length_append, List.length_singleton]
    omega
  · intro k hk
    obtain ⟨i, v, h1, h2, h4, h5⟩ := h.2 k hk
    refine ⟨i, v, h1, ?_, h4, h5⟩
    have hlt : i < r.m_allSizes.length := by
      by_contra hge
      rw [List.getElem?_eq_none (by omega)] at h2
      cases h2
    simp only [Resolver.push]
    rw [List.getElem?_append_left hlt]
    exact h2
  · simp [Resolver.push]

theorem Resolver.RefsInv.thumbnailRule {r : Resolver} {refs : SizeMap Nat} (h : r.RefsInv refs)
    (m : ImageSize) (idx : Nat) (hidx : r.m_allSizes[idx]? = some m) (h3 : 3 ≤ idx) :
    (r.thumbnailRule m).RefsInv (r.thumbnailRef refs m idx) := by
  simp only [Resolver.thumbnailRule, Resolver.thumbnailRef]
  split_ifs
  · exact h.assign Size.Thumbnail m idx hidx h3
  · exact h

theorem Resolver.RefsInv.sampleRule {r : Resolver} {refs : SizeMap Nat} (h : r.RefsInv refs)
    (m : ImageSize) (idx : Nat) (hidx : r.m_allSizes[idx]? = some m) (h3 : 3 ≤ idx) :
    (r.sampleRule m).RefsInv (r.sampleRef refs m idx) := by
  simp only [Resolver.sampleRule, Resolver.sampleRef]
  split_ifs
  · exact h.assign Size.Sample m idx hidx h3
  · exact h

theorem Resolver.RefsInv.fullRule {r : Resolver} {refs : SizeMap Nat} (h : r.RefsInv refs)
    (m : ImageSize) (idx : Nat) (hidx : r.m_allSizes[idx]? = some m) (h3 : 3 ≤ idx) :
    (r.fullRule m).RefsInv (r.fullRef refs m idx) := by
  simp only [Resolver.fullRule, Resolver.fullRef]
  split_ifs
  · exact h.assign Size.Full m idx hidx h3
  · exact h

theorem Resolver.RefsInv.step {r : Resolver} {refs : SizeMap Nat} (h : r.RefsInv refs)
    (m : ImageSize) : (r.step m).RefsInv (r.stepRefs refs m) := by
  obtain ⟨hp, hidx⟩ := h.push m
  have h3 := h.1
  by_cases hm : m.type = Size.Unknown
  · have hs : r.step m = (((r.push m).thumbnailRule m).sampleRule m).fullRule m := by
      simp [Resolver.step, hm]
    have hr : r.stepRefs refs m =
        (((r.push m).thumbnailRule m).sampleRule m).fullRef
          (((r.push m).thumbnailRule m).sampleRef
            ((r.push m).thumbnailRef refs m r.m_allSizes.length) m r.m_allSizes.length)
          m r.m_allSizes.length := by
      simp [Resolver.stepRefs, hm]
    rw [hs, hr]
    have h1 := hp.thumbnailRule m _ hidx h3
    have hidx1 : ((r.push m).thumbnailRule m).m_allSizes[r.m_allSizes.length]? = some m := by
      rw [Resolver.thumbnailRule_m_allSizes]; exact hidx
    have h2 := h1.sampleRule m _ hidx1 h3
    have hidx2 : (((r.push m).thumbnailRule m).sampleRule m).m_allSizes[r.m_allSizes.length]? =
        some m := by
      rw [Resolver.sampleRule_m_allSizes]; exact hidx1
    exact h2.fullRule m _ hidx2 h3
  · have hs : r.step m = (r.push m).assign m.type m := by
      simp [Resolver.step, hm]
    have hr : r.stepRefs refs m = refs.insert m.type r.m_allSizes.length := by
      simp [Resolver.stepRefs, hm]
    rw [hs, hr]
    exact hp.assign m.type m _ hidx h3

theorem Resolver.RefsInv.run (xs : List ImageSize) :
    ∀ (r : Resolver) (refs : SizeMap Nat), r.RefsInv refs →
      (r.run xs).RefsInv (r.runRefs refs xs) := by
  induction xs with
  | nil => intro r refs h; exact h
  | cons x xs ih =>
    intro r refs h
    rw [Resolver.run_cons]
    exact ih (r.step x) (r.stepRefs refs x) (h.step x)

theorem UrlState.setFileExtension_refs (env : ConstructEnv) (c : UrlState) (ext : String) :
    (c.setFileExtension env ext).refs = c.refs := rfl

theorem UrlState.setFileExtension_sizes (env : ConstructEnv) (c : UrlState) (ext : String)
    (k : Size) :
    (c.setFileExtension env ext).sizes k =
      if c.refs k = c.refs Size.Full then
        (c.sizes k).map fun v => { v with url := env.setExtension v.url ext }
      else c.sizes k := by
  simp only [UrlState.sizes, UrlState.setFileExtension]
  cases hf : c.refs Size.Full with
  | none =>
    by_cases hk : c.refs k = none
    · simp [hk]
    · simp [hk]
  | some i =>
    cases ho : c.objects[i]? with
    | none =>
      simp only [ho]
      by_cases hk : c.refs k = some i
      · simp [hk, ho]
      · simp [hk]
    | some full =>
      simp only [ho]
      have hlt : i < c.objects.length := by
        by_contra hge
        rw [List.getElem?_eq_none (by omega)] at ho
        cases ho
      cases hk : c.refs k with
      | none => simp
      | some j =>
        by_cases hij : j = i
        · subst hij
          simp [List.getElem?_set, hlt, ho]
        · have hne : ¬ i = j := fun h => hij h.symm
          simp [List.getElem?_set, hij, hne]

theorem UrlState.setFileExtension_full_entry (env : ConstructEnv) (c : UrlState) (ext : String)
    (v : ImageSize) (hv : c.sizes Size.Full = some v) :
    (c.setFileExtension env ext).sizes Size.Full =
      some { v with url := env.setExtension v.url ext } := by
  rw [UrlState.setFileExtension_sizes, if_pos rfl, hv]
  rfl

theorem UrlState.guessFromSample_store (env : ConstructEnv) (ext : String) (c fixed : UrlState)
    (h : c.guessFromSample env ext = some fixed) :
    fixed.refs = c.refs ∧ fixed.objects = c.objects := by
  simp only [UrlState.guessFromSample] at h
  split_ifs at h
  cases h
  exact ⟨rfl, rfl⟩

theorem UrlState.guessFromTags_store (env : ConstructEnv) (tags : List Tag) (ext : String)
    (c : UrlState) :
    (c.guessFromTags env tags ext).refs = c.refs ∧
      ((c.guessFromTags env tags ext).objects = c.objects ∨
        ∃ e, (c.guessFromTags env tags ext).objects = (c.setFileExtension env e).objects) := by
  simp only [UrlState.guessFromTags]
  split_ifs <;>
    first
    | exact ⟨rfl, Or.inl rfl⟩
    | exact ⟨rfl, Or.inr ⟨_, rfl⟩⟩

theorem UrlState.fixExtension_store (env : ConstructEnv) (details : StrMap String)
    (tags : List Tag) (c : UrlState) :
    (c.fixExtension env details tags).refs = c.refs ∧
      ((c.fixExtension env details tags).objects = c.objects ∨
        ∃ e, (c.fixExtension env details tags).objects = (c.setFileExtension env e).objects) := by
  simp only [UrlState.fixExtension]
  split_ifs
  · exact ⟨rfl, Or.inr ⟨_, rfl⟩⟩
  · exact ⟨rfl, Or.inl rfl⟩
  · split
    · next fixed hfix =>
      obtain ⟨h1, h2⟩ := UrlState.guessFromSample_store env _ c fixed hfix
      exact ⟨h1, Or.inl h2⟩
    · exact UrlState.guessFromTags_store env tags _ c
  · exact ⟨rfl, Or.inl rfl⟩
  · exact ⟨rfl, Or.inl rfl⟩
  · exact ⟨rfl, Or.inl rfl⟩

theorem UrlState.sizes_of_refsInv {r : Resolver} {refs : SizeMap Nat} (h : r.RefsInv refs)
    (url ext : String) (k : Size) (hk : k ≠ Size.Unknown) :
    UrlState.sizes { url := url, objects := r.m_allSizes, refs := refs, extension := ext } k =
      r.m_sizes k := by
  obtain ⟨i, v, h1, h2, h3, _⟩ := h.2 k hk
  simp [UrlState.sizes, h1, h2, h3]

theorem Image.construct_refsInv (t0 s0 f0 : ImageSize) (medias : Option (List ImageSize)) :
    Resolver.RefsInv
      (match medias with
        | some candidates => resolveMedias t0 s0 f0 candidates
        | none => Resolver.init t0 s0 f0)
      (match medias with
        | some candidates => Resolver.runRefs (Resolver.init t0 s0 f0) Resolver.initRefs candidates
        | none => Resolver.initRefs) := by
  cases medias with
  | none => exact Resolver.RefsInv.init t0 s0 f0
  | some cands => exact Resolver.RefsInv.run cands _ _ (Resolver.RefsInv.init t0 s0 f0)

theorem UrlState.setFileExtension_objects (env : ConstructEnv) (c : UrlState) (ext : String)
    (iF : Nat) (vF : ImageSize) (hF : c.refs Size.Full = some iF)
    (hvF : c.objects[iF]? = some vF) :
    (c.setFileExtension env ext).objects =
      c.objects.set iF { vF with url := env.setExtension vF.url ext } := by
  simp only [UrlState.setFileExtension, hF, hvF]

theorem UrlState.fixExtension_entry (env : ConstructEnv) (details : StrMap String)
    (tags : List Tag) (c : UrlState) (k : Size) (i iF : Nat) (v vF : ImageSize)
    (hk : c.refs k = some i) (hv : c.objects[i]? = some v)
    (hF : c.refs Size.Full = some iF) (hvF : c.objects[iF]? = some vF) :
    ∃ entry, (c.fixExtension env details tags).refs k = some i ∧
      (c.fixExtension env details tags).objects[i]? = some entry ∧
      (c.fixExtension env details tags).sizes k = some entry ∧
      entry.sameButUrl v ∧
      (entry = v ∨ (c.fixExtension env details tags).refs Size.Full = some i) := by
  obtain ⟨hr, ho | ⟨e, ho⟩⟩ := UrlState.fixExtension_store env details tags c
  · refine ⟨v, by rw [hr, hk], by rw [ho, hv], ?_, ⟨rfl, rfl, rfl, rfl⟩, Or.inl rfl⟩
    simp [UrlState.sizes, hr, ho, hk, hv]
  · rw [UrlState.setFileExtension_objects env c e iF vF hF hvF] at ho
    have hlt : iF < c.objects.length := by
      by_contra hge
      rw [List.getElem?_eq_none (by omega)] at hvF
      cases hvF
    by_cases hi : iF = i
    · subst hi
      have hvv : v = vF := by
        rw [hv] at hvF
        exact Option.some.inj hvF
      subst hvv
      have hget : (c.fixExtension env details tags).objects[iF]? =
          some { v with url := env.setExtension v.url e } := by
        rw [ho]
        simp [List.getElem?_set, hlt]
      refine ⟨_, by rw [hr, hk], hget, ?_, ⟨rfl, rfl, rfl, rfl⟩, Or.inr (by rw [hr, hF])⟩
      simp [UrlState.sizes, hr, hk, hget]
    · have hget : (c.fixExtension env details tags).objects[i]? = some v := by
        rw [ho]
        simp [List.getElem?_set, hi, hv]
      refine ⟨v, by rw [hr, hk], hget, ?_, ⟨rfl, rfl, rfl, rfl⟩, Or.inl rfl⟩
      simp [UrlState.sizes, hr, hk, hget]

theorem Image.construct_allSizes (t0 s0 f0 : ImageSize) (medias : Option (List ImageSize)) :
    (match medias with
      | some candidates => resolveMedias t0 s0 f0 candidates
      | none => Resolver.init t0 s0 f0).m_allSizes = [t0, s0, f0] ++ medias.getD [] := by
  cases medias with
  | none => rfl
  | some cands =>
    simp only [resolveMedias, Resolver.run_m_allSizes]
    rfl

/-! ## Theorems: construction from a metadata record -/

/-- The example of C20 evaluated: the record with id 42, md5 abc and type gallery is a
gallery with id 42, md5 abc, and its Full variant has an empty URL. -/
theorem construct_example_record :
    (Image.construct sampleConstructEnv (sampleSite "a.com") sampleGalleryDetails [] [] none
        none none).isGallery = true ∧
      (Image.construct sampleConstructEnv (sampleSite "a.com") sampleGalleryDetails [] [] none
        none none).id = 42 ∧
      (Image.construct sampleConstructEnv (sampleSite "a.com") sampleGalleryDetails [] [] none
        none none).d.md5 = "abc" ∧
      ((Image.construct sampleConstructEnv (sampleSite "a.com") sampleGalleryDetails [] [] none
        none none).d.sizes Size.Full).map ImageSize.url = some "" := by
  decide

/-! ## Theorems: bounded-size lookup -/

theorem isBigger_irrefl (a : QSize) : isBigger a a = false := by
  simp [isBigger]

theorem isBigger_trans_left {m r c : QSize} (h1 : isBigger c r = true)
    (h2 : isBigger m r = false) : isBigger m c = false := by
  simp only [isBigger, Bool.or_eq_true, Bool.and_eq_true, decide_eq_true_eq, Bool.or_eq_false_iff,
    Bool.and_eq_false_iff, decide_eq_false_iff_not] at h1 h2 ⊢
  constructor
  · omega
  · by_cases h : m.area = c.area
    · right; omega
    · left; exact h

theorem mediaForSizeStep_inv (getExtension : String → String) (thumbnailExt : String)
    (size : QSize) (thumbnail : Bool) (seen : List ImageSize) (ret : Option ImageSize)
    (media : ImageSize)
    (h : LookupInv (mediaQualifies getExtension thumbnailExt size thumbnail) seen ret) :
    LookupInv (mediaQualifies getExtension thumbnailExt size thumbnail) (seen ++ [media])
      (mediaForSizeStep getExtension thumbnailExt size thumbnail ret media) := by
  cases ret with
  | none =>
    simp only [LookupInv] at h
    by_cases hq : mediaQualifies getExtension thumbnailExt size thumbnail media = true
    · have hstep : mediaForSizeStep getExtension thumbnailExt size thumbnail none media =
          some media := by
        simp only [mediaQualifies, Bool.and_eq_true] at hq
        simp [mediaForSizeStep, hq.1.1.1, hq.1.1.2, hq.1.2, hq.2]
      rw [hstep]
      refine ⟨by simp, hq, ?_⟩
      intro m hm hqm
      rcases List.mem_append.1 hm with hm | hm
      · rw [h m hm] at hqm; cases hqm
      · rw [List.mem_singleton.1 hm]; exact isBigger_irrefl _
    · simp only [Bool.not_eq_true] at hq
      have hstep : mediaForSizeStep getExtension thumbnailExt size thumbnail none media =
          none := by
        simp only [mediaQualifies, Bool.and_eq_false_iff] at hq
        simp only [mediaForSizeStep]
        split_ifs with h1 h2
        · simp only [Bool.and_eq_true] at h1
          rcases hq with ((hq | hq) | hq) | hq
          · rw [h1.1.1.1] at hq; cases hq
          · rw [h1.1.1.2] at hq; cases hq
          · rw [h1.1.2] at hq; cases hq
          · rw [h2] at hq; cases hq
        · rfl
        · rfl
      rw [hstep]
      intro m hm
      rcases List.mem_append.1 hm with hm | hm
      · exact h m hm
      · rw [List.mem_singleton.1 hm]; exact hq
  | some best =>
    obtain ⟨hb1, hb2, hb3⟩ := h
    by_cases hq : mediaQualifies getExtension thumbnailExt size thumbnail media = true
    · by_cases hbig : isBigger media.size best.size = true
      · have hstep : mediaForSizeStep getExtension thumbnailExt size thumbnail (some best)
            media = some media := by
          simp only [mediaQualifies, Bool.and_eq_true] at hq
          simp [mediaForSizeStep, hq.1.1.1, hq.1.1.2, hq.1.2, hq.2, hbig]
        rw [hstep]
        refine ⟨by simp, hq, ?_⟩
        intro m hm hqm
        rcases List.mem_append.1 hm with hm | hm
        · exact isBigger_trans_left hbig (hb3 m hm hqm)
        · rw [List.mem_singleton.1 hm]; exact isBigger_irrefl _
      · simp only [Bool.not_eq_true] at hbig
        have hstep : mediaForSizeStep getExtension thumbnailExt size thumbnail (some best)
            media = some best := by
          simp [mediaForSizeStep, hbig]
        rw [hstep]
        refine ⟨by simp [hb1], hb2, ?_⟩
        intro m hm hqm
        rcases List.mem_append.1 hm with hm | hm
        · exact hb3 m hm hqm
        · rw [List.mem_singleton.1 hm]; exact hbig
    · simp only [Bool.not_eq_true] at hq
      have hstep : mediaForSizeStep getExtension thumbnailExt size thumbnail (some best)
          media = some best := by
        simp only [mediaQualifies, Bool.and_eq_false_iff] at hq
        simp only [mediaForSizeStep]
        split_ifs with h1 h2
        · simp only [Bool.and_eq_true] at h1
          rcases hq with ((hq | hq) | hq) | hq
          · rw [h1.1.1.1] at hq; cases hq
          · rw [h1.1.1.2] at hq; cases hq
          · rw [h1.1.2] at hq; cases hq
          · rw [h2] at hq; cases hq
        · rfl
        · rfl
      rw [hstep]
      refine ⟨by simp [hb1], hb2, ?_⟩
      intro m hm hqm
      rcases List.mem_append.1 hm with hm | hm
      · exact hb3 m hm hqm
      · rw [List.mem_singleton.1 hm] at hqm; rw [hq] at hqm; cases hqm

theorem mediaForSize_fold_inv (getExtension : String → String) (thumbnailExt : String)
    (size : QSize) (thumbnail : Bool) (medias : List ImageSize) :
    ∀ (seen : List ImageSize) (ret : Option ImageSize),
      LookupInv (mediaQualifies getExtension thumbnailExt size thumbnail) seen ret →
      LookupInv (mediaQualifies getExtension thumbnailExt size thumbnail) (seen ++ medias)
        (medias.foldl (mediaForSizeStep getExtension thumbnailExt size thumbnail) ret) := by
  induction medias with
  | nil => intro seen ret h; simpa using h
  | cons x xs ih =>
    intro seen ret h
    have := ih (seen ++ [x]) _ (mediaForSizeStep_inv getExtension thumbnailExt size thumbnail
      seen ret x h)
    simpa using this

/-- C21: `mediaForSize(B, thumbnail)` returns the biggest qualifying media. With the
Thumbnail variant present: if at least one media of `m_allSizes` qualifies (valid
size, width and height within `B`, and the thumbnail's URL extension when
`thumbnail` is set), the result is a qualifying media of `m_allSizes` and no
qualifying media is bigger than it (none has a larger area); if none qualifies, the
result is the Thumbnail variant. -/
theorem mediaForSize_biggest (getExtension : String → String) (m_sizes : SizeMap ImageSize)
    (m_allSizes : List ImageSize) (size : QSize) (thumbnail : Bool) (thumb : ImageSize)
    (hthumb : m_sizes Size.Thumbnail = some thumb) :
    ∃ r, mediaForSize getExtension m_sizes m_allSizes size thumbnail = some r ∧
      (if m_allSizes.any (mediaQualifies getExtension (getExtension thumb.url) size thumbnail)
          = true then
        r ∈ m_allSizes ∧
          mediaQualifies getExtension (getExtension thumb.url) size thumbnail r = true ∧
          ∀ m ∈ m_allSizes,
            mediaQualifies getExtension (getExtension thumb.url) size thumbnail m = true →
              isBigger m.size r.size = false ∧ m.size.area ≤ r.size.area
       else r = thumb) := by
  have hinv := mediaForSize_fold_inv getExtension (getExtension thumb.url) size thumbnail
    m_allSizes [] none (by simp [LookupInv])
  simp only [List.nil_append] at hinv
  simp only [mediaForSize, hthumb]
  cases hret : m_allSizes.foldl
      (mediaForSizeStep getExtension (getExtension thumb.url) size thumbnail) none with
  | none =>
    rw [hret] at hinv
    simp only [LookupInv] at hinv
    refine ⟨thumb, rfl, ?_⟩
    have : m_allSizes.any (mediaQualifies getExtension (getExtension thumb.url) size thumbnail)
        = false := by
      rw [List.any_eq_false]
      intro m hm
      simp [hinv m hm]
    simp [this]
  | some best =>
    rw [hret] at hinv
    obtain ⟨h1, h2, h3⟩ := hinv
    refine ⟨best, rfl, ?_⟩
    have : m_allSizes.any (mediaQualifies getExtension (getExtension thumb.url) size thumbnail)
        = true := List.any_eq_true.2 ⟨best, h1, h2⟩
    rw [if_pos this]
    exact ⟨h1, h2, fun m hm hq => ⟨h3 m hm hq, isBigger_false_area (h3 m hm hq)⟩⟩

theorem mediaForSize_biggest_witness :
    ∃ r, mediaForSize sampleExtensionOf
        (Resolver.init (mkMedia Size.Unknown "t.jpg" 150 150) ImageSize.default
          ImageSize.default).m_sizes
        [mkMedia Size.Unknown "t.jpg" 150 150, mkMedia Size.Unknown "a.jpg" 400 300,
          mkMedia Size.Unknown "b.png" 500 500, mkMedia Size.Unknown "c.jpg" 900 900]
        ⟨600, 600⟩ true = some r ∧
      (if [mkMedia Size.Unknown "t.jpg" 150 150, mkMedia Size.Unknown "a.jpg" 400 300,
            mkMedia Size.Unknown "b.png" 500 500, mkMedia Size.Unknown "c.jpg" 900 900].any
            (mediaQualifies sampleExtensionOf
              (sampleExtensionOf (mkMedia Size.Unknown "t.jpg" 150 150).url) ⟨600, 600⟩ true)
          = true then
        r ∈ [mkMedia Size.Unknown "t.jpg" 150 150, mkMedia Size.Unknown "a.jpg" 400 300,
            mkMedia Size.Unknown "b.png" 500 500, mkMedia Size.Unknown "c.jpg" 900 900] ∧
          mediaQualifies sampleExtensionOf
            (sampleExtensionOf (mkMedia Size.Unknown "t.jpg" 150 150).url) ⟨600, 600⟩ true r
            = true ∧
          ∀ m ∈ [mkMedia Size.Unknown "t.jpg" 150 150, mkMedia Size.Unknown "a.jpg" 400 300,
              mkMedia Size.Unknown "b.png" 500 500, mkMedia Size.Unknown "c.jpg" 900 900],
            mediaQualifies sampleExtensionOf
              (sampleExtensionOf (mkMedia Size.Unknown "t.jpg" 150 150).url) ⟨600, 600⟩ true m
              = true →
              isBigger m.size r.size = false ∧ m.size.area ≤ r.size.area
       else r = mkMedia Size.Unknown "t.jpg" 150 150) :=
  mediaForSize_biggest sampleExtensionOf
    (Resolver.init (mkMedia Size.Unknown "t.jpg" 150 150) ImageSize.default
      ImageSize.default).m_sizes
    [mkMedia Size.Unknown "t.jpg" 150 150, mkMedia Size.Unknown "a.jpg" 400 300,
      mkMedia Size.Unknown "b.png" 500 500, mkMedia Size.Unknown "c.jpg" 900 900]
    ⟨600, 600⟩ true (mkMedia Size.Unknown "t.jpg" 150 150) (by decide)

/-! ## Theorems: role selection -/

theorem Resolver.init_sync (t s f : ImageSize) :
    (Resolver.init t s f).Sync Size.Thumbnail t ∧ (Resolver.init t s f).Sync Size.Sample s ∧
      (Resolver.init t s f).Sync Size.Full f := by
  refine ⟨⟨?_, ?_⟩, ⟨?_, ?_⟩, ⟨?_, ?_⟩⟩ <;>
    simp [Resolver.init, SizeMap.insert, Resolver.sizeOf]

theorem Resolver.step_unlabeled (r : Resolver) (m : ImageSize) (hm : m.type = Size.Unknown) :
    r.step m = (((r.push m).thumbnailRule m).sampleRule m).fullRule m := by
  simp [Resolver.step, hm]

theorem Resolver.sampleRule_inv (dflt : ImageSize) (seen : List ImageSize) (r : Resolver)
    (m : ImageSize) (h : SampleInv dflt seen r) : SampleInv dflt (seen ++ [m]) (r.sampleRule m) := by
  obtain ⟨s, ⟨hs1, hs2⟩, hor, hmax⟩ := h
  by_cases hc : (isInRange m.size 500 1500 && isBigger m.size (r.sizeOf Size.Sample)) = true
  · have hstep : r.sampleRule m = r.assign Size.Sample m := by
      simp [Resolver.sampleRule, hc]
    simp only [Bool.and_eq_true] at hc
    rw [hstep]
    refine ⟨m, ⟨by simp, by simp⟩, Or.inr ⟨by simp, hc.1⟩, ?_⟩
    intro x hx hxr
    rcases List.mem_append.1 hx with hx | hx
    · exact isBigger_trans_left (by rw [← hs2]; exact hc.2) (hmax x hx hxr)
    · rw [List.mem_singleton.1 hx]; exact isBigger_irrefl _
  · have hstep : r.sampleRule m = r := by
      simp [Resolver.sampleRule, hc]
    rw [hstep]
    refine ⟨s, ⟨hs1, hs2⟩, ?_, ?_⟩
    · rcases hor with h1 | ⟨h1, h2⟩
      · exact Or.inl h1
      · exact Or.inr ⟨by simp [h1], h2⟩
    · intro x hx hxr
      rcases List.mem_append.1 hx with hx | hx
      · exact hmax x hx hxr
      · rw [List.mem_singleton.1 hx] at hxr ⊢
        rw [hxr, hs2] at hc
        simpa using hc

theorem SampleInv.transfer {dflt : ImageSize} {seen : List ImageSize} {r r2 : Resolver}
    (h : SampleInv dflt seen r) (h1 : r2.m_sizes Size.Sample = r.m_sizes Size.Sample)
    (h2 : r2.sizeOf Size.Sample = r.sizeOf Size.Sample) : SampleInv dflt seen r2 := by
  obtain ⟨s, ⟨hs1, hs2⟩, hor, hmax⟩ := h
  exact ⟨s, ⟨h1.trans hs1, h2.trans hs2⟩, hor, hmax⟩

theorem Resolver.step_sampleInv (dflt : ImageSize) (seen : List ImageSize) (r : Resolver)
    (m : ImageSize) (hm : m.type = Size.Unknown) (h : SampleInv dflt seen r) :
    SampleInv dflt (seen ++ [m]) (r.step m) := by
  rw [Resolver.step_unlabeled r m hm]
  have h1 := Resolver.thumbnailRule_other (r.push m) m Size.Sample (by decide)
  have h0 : SampleInv dflt seen ((r.push m).thumbnailRule m) :=
    h.transfer h1.1 h1.2
  have h2 := Resolver.sampleRule_inv dflt seen _ m h0
  have h3 := Resolver.fullRule_other (((r.push m).thumbnailRule m).sampleRule m) m Size.Sample
    (by decide)
  exact h2.transfer h3.1 h3.2

theorem Resolver.run_sampleInv (dflt : ImageSize) (cands : List ImageSize)
    (hc : ∀ m ∈ cands, m.type = Size.Unknown) :
    ∀ (seen : List ImageSize) (r : Resolver), SampleInv dflt seen r →
      SampleInv dflt (seen ++ cands) (r.run cands) := by
  induction cands with
  | nil => intro seen r h; simpa [Resolver.run] using h
  | cons x xs ih =>
    intro seen r h
    have hx := Resolver.step_sampleInv dflt seen r x (hc x (by simp)) h
    have := ih (fun m hm => hc m (by simp [hm])) (seen ++ [x]) (r.step x) hx
    simpa [Resolver.run_cons] using this

/-- C24: sample selection. For candidates without role hints, the variant finally
assigned to Sample is the default Sample variant or a candidate lying in
[500,1500], and no candidate lying in [500,1500] is bigger than it; the Sample rule
leaves the state alone for a candidate outside [500,1500]. -/
theorem sample_selection (thumbnail sample full : ImageSize) (cands : List ImageSize)
    (hc : ∀ m ∈ cands, m.type = Size.Unknown) :
    (∃ s, (resolveMedias thumbnail sample full cands).variant Size.Sample = some s ∧
      (s = sample ∨ (s ∈ cands ∧ isInRange s.size 500 1500 = true)) ∧
      ∀ m ∈ cands, isInRange m.size 500 1500 = true → isBigger m.size s.size = false) ∧
    ∀ (r : Resolver) (m : ImageSize), isInRange m.size 500 1500 = false →
      r.sampleRule m = r := by
  constructor
  · have h0 : SampleInv sample [] (Resolver.init thumbnail sample full) :=
      ⟨sample, (Resolver.init_sync thumbnail sample full).2.1, Or.inl rfl, by simp⟩
    obtain ⟨s, ⟨hs1, _⟩, hor, hmax⟩ := Resolver.run_sampleInv sample cands hc [] _ h0
    simp only [List.nil_append] at hor hmax
    exact ⟨s, hs1, hor, hmax⟩
  · intro r m hm
    simp [Resolver.sampleRule, hm]

theorem sample_selection_witness :
    (∃ s, (resolveMedias ImageSize.default ImageSize.default ImageSize.default
        [mkMedia Size.Unknown "a.jpg" 600 600, mkMedia Size.Unknown "b.jpg" 1200 900,
          mkMedia Size.Unknown "c.jpg" 3000 2000]).variant Size.Sample = some s ∧
      (s = ImageSize.default ∨
        (s ∈ [mkMedia Size.Unknown "a.jpg" 600 600, mkMedia Size.Unknown "b.jpg" 1200 900,
          mkMedia Size.Unknown "c.jpg" 3000 2000] ∧ isInRange s.size 500 1500 = true)) ∧
      ∀ m ∈ [mkMedia Size.Unknown "a.jpg" 600 600, mkMedia Size.Unknown "b.jpg" 1200 900,
          mkMedia Size.Unknown "c.jpg" 3000 2000],
        isInRange m.size 500 1500 = true → isBigger m.size s.size = false) ∧
    ∀ (r : Resolver) (m : ImageSize), isInRange m.size 500 1500 = false →
      r.sampleRule m = r :=
  sample_selection ImageSize.default ImageSize.default ImageSize.default
    [mkMedia Size.Unknown "a.jpg" 600 600, mkMedia Size.Unknown "b.jpg" 1200 900,
      mkMedia Size.Unknown "c.jpg" 3000 2000] (by decide)

theorem Resolver.thumbnailRule_inv (seen : List ImageSize) (r : Resolver) (m : ImageSize)
    (hpos : 0 < m.size.width ∧ 0 < m.size.height) (h : ThumbnailInv seen r) :
    ThumbnailInv (seen ++ [m]) (r.thumbnailRule m) := by
  obtain ⟨t, ⟨ht1, ht2⟩, hor⟩ := h
  have hne : m.size.isEmpty = false := by
    simp only [QSize.isEmpty, Bool.or_eq_false_iff, decide_eq_false_iff_not]
    omega
  by_cases hc : ((r.sizeOf Size.Thumbnail).isEmpty ||
      (isInRange m.size 150 300 &&
        (isBigger m.size (r.sizeOf Size.Thumbnail) ||
          !isInRange (r.sizeOf Size.Thumbnail) 150 300))) = true
  · have hstep : r.thumbnailRule m = r.assign Size.Thumbnail m := by
      simp only [Resolver.thumbnailRule, hc, if_true]
    rw [hstep]
    refine ⟨m, ⟨by simp, by simp⟩, ?_⟩
    by_cases hmr : isInRange m.size 150 300 = true
    · right
      refine ⟨hmr, hne, ?_⟩
      intro x hx hxr
      rcases List.mem_append.1 hx with hx | hx
      · rcases hor with hnone | ⟨hin, hte, hmax⟩
        · rw [hnone x hx] at hxr; cases hxr
        · rw [ht2, hte, hin, hmr] at hc
          simp only [Bool.false_or, Bool.true_and, Bool.not_true, Bool.or_false] at hc
          exact isBigger_trans_left hc (hmax x hx hxr)
      · rw [List.mem_singleton.1 hx]; exact isBigger_irrefl _
    · simp only [Bool.not_eq_true] at hmr
      rcases hor with hnone | ⟨hin, hte, hmax⟩
      · left
        intro x hx
        rcases List.mem_append.1 hx with hx | hx
        · exact hnone x hx
        · rw [List.mem_singleton.1 hx]; exact hmr
      · rw [ht2, hte, hmr] at hc
        simp at hc
  · have hstep : r.thumbnailRule m = r := by
      simp only [Resolver.thumbnailRule, hc]
      rfl
    simp only [Bool.not_eq_true, Bool.or_eq_false_iff] at hc
    obtain ⟨hce, hcond⟩ := hc
    rw [hstep]
    refine ⟨t, ⟨ht1, ht2⟩, ?_⟩
    by_cases hmr : isInRange m.size 150 300 = true
    · right
      rw [hmr, ht2] at hcond
      simp only [Bool.true_and, Bool.or_eq_false_iff, Bool.not_eq_false'] at hcond
      refine ⟨hcond.2, by rw [← ht2]; exact hce, ?_⟩
      intro x hx hxr
      rcases List.mem_append.1 hx with hx | hx
      · rcases hor with hnone | ⟨_, _, hmax⟩
        · rw [hnone x hx] at hxr; cases hxr
        · exact hmax x hx hxr
      · rw [List.mem_singleton.1 hx]; exact hcond.1
    · simp only [Bool.not_eq_true] at hmr
      rcases hor with hnone | ⟨hin, hte, hmax⟩
      · left
        intro x hx
        rcases List.mem_append.1 hx with hx | hx
        · exact hnone x hx
        · rw [List.mem_singleton.1 hx]; exact hmr
      · right
        refine ⟨hin, hte, ?_⟩
        intro x hx hxr
        rcases List.mem_append.1 hx with hx | hx
        · exact hmax x hx hxr
        · rw [List.mem_singleton.1 hx, hmr] at hxr; cases hxr

theorem ThumbnailInv.carry {seen : List ImageSize} {r r2 : Resolver}
    (h : ThumbnailInv seen r) (h1 : r2.m_sizes Size.Thumbnail = r.m_sizes Size.Thumbnail)
    (h2 : r2.sizeOf Size.Thumbnail = r.sizeOf Size.Thumbnail) : ThumbnailInv seen r2 := by
  obtain ⟨t, ⟨ht1, ht2⟩, hor⟩ := h
  exact ⟨t, ⟨h1.trans ht1, h2.trans ht2⟩, hor⟩

theorem Resolver.step_thumbnailInv (seen : List ImageSize) (r : Resolver) (m : ImageSize)
    (hm : m.type = Size.Unknown) (hpos : 0 < m.size.width ∧ 0 < m.size.height)
    (h : ThumbnailInv seen r) : ThumbnailInv (seen ++ [m]) (r.step m) := by
  rw [Resolver.step_unlabeled r m hm]
  have h0 : ThumbnailInv seen (r.push m) := h.carry rfl rfl
  have h1 := Resolver.thumbnailRule_inv seen (r.push m) m hpos h0
  have h2 := Resolver.sampleRule_other ((r.push m).thumbnailRule m) m Size.Thumbnail (by decide)
  have h3 := Resolver.fullRule_other (((r.push m).thumbnailRule m).sampleRule m) m
    Size.Thumbnail (by decide)
  exact (h1.carry h2.1 h2.2).carry h3.1 h3.2

theorem Resolver.run_thumbnailInv (cands : List ImageSize)
    (hc : ∀ m ∈ cands, m.type = Size.Unknown ∧ 0 < m.size.width ∧ 0 < m.size.height) :
    ∀ (seen : List ImageSize) (r : Resolver), ThumbnailInv seen r →
      ThumbnailInv (seen ++ cands) (r.run cands) := by
  induction cands with
  | nil => intro seen r h; simpa [Resolver.run] using h
  | cons x xs ih =>
    intro seen r h
    have hx := Resolver.step_thumbnailInv seen r x (hc x (by simp)).1 (hc x (by simp)).2 h
    have := ih (fun m hm => hc m (by simp [hm])) (seen ++ [x]) (r.step x) hx
    simpa [Resolver.run_cons] using this

/-- C23: thumbnail selection. For candidates without role hints and with positive
dimensions, if at least one candidate lies in [150,300], the variant finally
assigned to Thumbnail lies in [150,300] and no candidate lying in [150,300] is
bigger than it (larger area, ties broken by width). -/
theorem thumbnail_selection (thumbnail sample full : ImageSize) (cands : List ImageSize)
    (hc : ∀ m ∈ cands, m.type = Size.Unknown ∧ 0 < m.size.width ∧ 0 < m.size.height)
    (hex : ∃ m ∈ cands, isInRange m.size 150 300 = true) :
    ∃ t, (resolveMedias thumbnail sample full cands).variant Size.Thumbnail = some t ∧
      isInRange t.size 150 300 = true ∧
      ∀ m ∈ cands, isInRange m.size 150 300 = true → isBigger m.size t.size = false := by
  have h0 : ThumbnailInv [] (Resolver.init thumbnail sample full) :=
    ⟨thumbnail, (Resolver.init_sync thumbnail sample full).1, Or.inl (by simp)⟩
  obtain ⟨t, ⟨ht1, _⟩, hor⟩ := Resolver.run_thumbnailInv cands hc [] _ h0
  simp only [List.nil_append] at hor
  obtain ⟨m, hm, hmr⟩ := hex
  rcases hor with hnone | ⟨hin, _, hmax⟩
  · rw [hnone m hm] at hmr; cases hmr
  · exact ⟨t, ht1, hin, hmax⟩

theorem thumbnail_selection_witness :
    ∃ t, (resolveMedias ImageSize.default ImageSize.default ImageSize.default
        [mkMedia Size.Unknown "a.jpg" 1000 1000, mkMedia Size.Unknown "b.jpg" 200 150,
          mkMedia Size.Unknown "c.jpg" 300 300, mkMedia Size.Unknown "d.jpg" 250 250]).variant
          Size.Thumbnail = some t ∧
      isInRange t.size 150 300 = true ∧
      ∀ m ∈ [mkMedia Size.Unknown "a.jpg" 1000 1000, mkMedia Size.Unknown "b.jpg" 200 150,
          mkMedia Size.Unknown "c.jpg" 300 300, mkMedia Size.Unknown "d.jpg" 250 250],
        isInRange m.size 150 300 = true → isBigger m.size t.size = false :=
  thumbnail_selection ImageSize.default ImageSize.default ImageSize.default
    [mkMedia Size.Unknown "a.jpg" 1000 1000, mkMedia Size.Unknown "b.jpg" 200 150,
      mkMedia Size.Unknown "c.jpg" 300 300, mkMedia Size.Unknown "d.jpg" 250 250]
    (by decide) ⟨mkMedia Size.Unknown "b.jpg" 200 150, by decide, by decide⟩

/-! ## Theorems: the variant map -/

theorem ImageSize.sameButUrl_refl (a : ImageSize) : a.sameButUrl a := ⟨rfl, rfl, rfl, rfl⟩

theorem readSizes_roles (h : Helpers) (json : JsonObject) (sizes : SizeMap ImageSize) :
    readSizes h json sizes Size.Thumbnail = some (recordVariant h json "thumbnail") ∧
      readSizes h json sizes Size.Sample = some (recordVariant h json "sample") ∧
      readSizes h json sizes Size.Full = some (recordVariant h json "full") := by
  refine ⟨?_, ?_, ?_⟩ <;>
    simp [readSizes, recordVariant, SizeMap.insert]

theorem ImageData.readFields_sizes (h : Helpers) (site : Site) (json : JsonObject)
    (d : ImageData) :
    (d.readFields h site json).sizes =
      (if StrMap.has json "file_url" = true then
        if (((readSizes h json d.sizes Size.Full).map ImageSize.url).getD "").isEmpty = true then
          (readSizes h json d.sizes).insert Size.Full
            { ((readSizes h json d.sizes Size.Full).getD ImageSize.default) with
              url := (JsonObject.get json "file_url").toStr }
        else readSizes h json d.sizes
       else readSizes h json d.sizes) := by
  simp only [ImageData.readFields, ImageData.init_fields]
  split_ifs <;> rfl

theorem ImageData.readFields_roles (h : Helpers) (site : Site) (json : JsonObject)
    (d : ImageData) :
    (d.readFields h site json).sizes Size.Thumbnail = some (recordVariant h json "thumbnail") ∧
      (d.readFields h site json).sizes Size.Sample = some (recordVariant h json "sample") ∧
      ∃ f, (d.readFields h site json).sizes Size.Full = some f ∧
        f.sameButUrl (recordVariant h json "full") := by
  obtain ⟨h1, h2, h3⟩ := readSizes_roles h json d.sizes
  rw [ImageData.readFields_sizes]
  by_cases hf : StrMap.has json "file_url" = true
  · by_cases he : (((readSizes h json d.sizes Size.Full).map ImageSize.url).getD "").isEmpty = true
    · simp only [hf, he, if_true]
      refine ⟨?_, ?_, ?_⟩
      · simpa [SizeMap.insert] using h1
      · simpa [SizeMap.insert] using h2
      · simp only [SizeMap.insert, if_true, h3, Option.getD_some]
        exact ⟨_, rfl, ⟨rfl, rfl, rfl, rfl⟩⟩
    · simp only [hf, he, if_true, if_false]
      exact ⟨h1, h2, recordVariant h json "full", h3, ImageSize.sameButUrl_refl _⟩
  · simp only [hf, if_false]
    exact ⟨h1, h2, recordVariant h json "full", h3, ImageSize.sameButUrl_refl _⟩

/-- C22: variant-map invariant. After construction from any record, identity/data
map and candidate list with a non-null site, every role of the `prefixes` map
(Thumbnail, Sample, Full) has an entry in the variant map: it points to an object of
`m_allSizes` that is the default variant built for that role or one of the supplied
candidates (the candidate at position `j` of the list is the object at position
`3 + j`); the object still holds what it was created with, up to its URL, and only
the object Full points to can have a rewritten URL. After a successful read, the
three entries are present too: they are the variants built for the roles from the
record, the Full one up to the URL taken from `file_url`. -/
theorem variant_map_invariant (env : ConstructEnv) (site : Site) (details : StrMap String)
    (identity data : StrMap Variant) (medias : Option (List ImageSize))
    (tags : Option (List Tag)) (parent : Option Page)
    (h : Helpers) (sites : StrMap Site) (json : JsonObject) (self : Image)
    (hok : (Image.read h sites json self).1 = true) :
    (∀ p ∈ prefixes, ∃ i entry orig,
      (Image.construct env site details identity data medias tags parent).m_sizeRefs p.1 =
        some i ∧
      (Image.construct env site details identity data medias tags parent).m_allSizes[i]? =
        some entry ∧
      (Image.construct env site details identity data medias tags parent).d.sizes p.1 =
        some entry ∧
      ((Resolver.initRefs p.1 = some i ∧ orig = defaultVariant env site details p.2) ∨
        (∃ j, i = 3 + j ∧ (medias.getD [])[j]? = some orig)) ∧
      entry.sameButUrl orig ∧
      (entry = orig ∨
        (Image.construct env site details identity data medias tags parent).m_sizeRefs
          Size.Full = some i)) ∧
    (∃ f,
      (Image.read h sites json self).2.d.sizes Size.Thumbnail =
          some (recordVariant h json "thumbnail") ∧
      (Image.read h sites json self).2.d.sizes Size.Sample =
          some (recordVariant h json "sample") ∧
      (Image.read h sites json self).2.d.sizes Size.Full = some f ∧
      f.sameButUrl (recordVariant h json "full")) := by
  constructor
  · intro p hp
    have hinv := Image.construct_refsInv (defaultVariant env site details "preview_")
      (defaultVariant env site details "sample_") (defaultVariant env site details "") medias
    have hall := Image.construct_allSizes (defaultVariant env site details "preview_")
      (defaultVariant env site details "sample_") (defaultVariant env site details "") medias
    have hpk : p.1 ≠ Size.Unknown := by
      simp only [prefixes, List.mem_cons, List.mem_singleton, List.not_mem_nil, or_false] at hp
      rcases hp with rfl | rfl | rfl <;> decide
    obtain ⟨i, v, h1, h2, _, h4⟩ := hinv.2 p.1 hpk
    obtain ⟨iF, vF, hF1, hF2, _, _⟩ := hinv.2 Size.Full (by decide)
    obtain ⟨entry, e1, e2, e3, e4, e5⟩ := UrlState.fixExtension_entry env details
      (completeTagTypes env (tags.getD []))
      (Image.urlStateAtFix env site details medias) p.1 i iF v vF h1 h2 hF1 hF2
    refine ⟨i, entry, v, e1, e2, ?_, ?_, e4, e5⟩
    · simp only [Image.construct, ImageData.init_fields]
      exact e3
    · rw [hall] at h2
      rcases h4 with h4 | h4
      · left
        refine ⟨h4, ?_⟩
        simp only [prefixes, List.mem_cons, List.mem_singleton, List.not_mem_nil, or_false] at hp
        rcases hp with rfl | rfl | rfl
        · have hi : i = 0 := (Option.some.inj h4).symm
          subst hi
          simp only [List.cons_append, List.nil_append] at h2
          exact (Option.some.inj h2).symm
        · have hi : i = 1 := (Option.some.inj h4).symm
          subst hi
          simp only [List.cons_append, List.nil_append] at h2
          exact (Option.some.inj h2).symm
        · have hi : i = 2 := (Option.some.inj h4).symm
          subst hi
          simp only [List.cons_append, List.nil_append, List.getElem?_cons_succ,
            List.getElem?_cons_zero] at h2
          exact (Option.some.inj h2).symm
      · right
        refine ⟨i - 3, by omega, ?_⟩
        rw [List.getElem?_append_right (by simpa using h4)] at h2
        simpa using h2
  · obtain ⟨rsite, _, hd⟩ := Image.read_success_fields h sites json self hok
    rw [hd]
    obtain ⟨h1, h2, f, h3, hsame⟩ := ImageData.readFields_roles h rsite json self.d
    exact ⟨f, h1, h2, h3, hsame⟩

theorem variant_map_invariant_witness :
    (Image.read sampleHelpers [("a.com", sampleSite "a.com")]
        [("website", Json.str "a.com"), ("url", Json.str "https://test.com/new.jpg")]
        Image.fresh).1 = true ∧
    (∀ p ∈ prefixes, ∃ i entry orig,
      (Image.construct sampleConstructEnv (sampleSite "a.com") sampleGalleryDetails [] []
          (some [mkMedia Size.Unknown "b.jpg" 200 150]) (some [⟨"gif", "general"⟩])
          none).m_sizeRefs p.1 = some i ∧
      (Image.construct sampleConstructEnv (sampleSite "a.com") sampleGalleryDetails [] []
          (some [mkMedia Size.Unknown "b.jpg" 200 150]) (some [⟨"gif", "general"⟩])
          none).m_allSizes[i]? = some entry ∧
      (Image.construct sampleConstructEnv (sampleSite "a.com") sampleGalleryDetails [] []
          (some [mkMedia Size.Unknown "b.jpg" 200 150]) (some [⟨"gif", "general"⟩])
          none).d.sizes p.1 = some entry ∧
      ((Resolver.initRefs p.1 = some i ∧
          orig = defaultVariant sampleConstructEnv (sampleSite "a.com") sampleGalleryDetails
            p.2) ∨
        (∃ j, i = 3 + j ∧
          ((some [mkMedia Size.Unknown "b.jpg" 200 150] : Option (List ImageSize)).getD [])[j]? =
            some orig)) ∧
      entry.sameButUrl orig ∧
      (entry = orig ∨
        (Image.construct sampleConstructEnv (sampleSite "a.com") sampleGalleryDetails [] []
          (some [mkMedia Size.Unknown "b.jpg" 200 150]) (some [⟨"gif", "general"⟩])
          none).m_sizeRefs Size.Full = some i)) ∧
    (∃ f,
      (Image.read sampleHelpers [("a.com", sampleSite "a.com")]
        [("website", Json.str "a.com"), ("url", Json.str "https://test.com/new.jpg")]
        Image.fresh).2.d.sizes Size.Thumbnail =
          some (recordVariant sampleHelpers
            [("website", Json.str "a.com"), ("url", Json.str "https://test.com/new.jpg")]
            "thumbnail") ∧
      (Image.read sampleHelpers [("a.com", sampleSite "a.com")]
        [("website", Json.str "a.com"), ("url", Json.str "https://test.com/new.jpg")]
        Image.fresh).2.d.sizes Size.Sample =
          some (recordVariant sampleHelpers
            [("website", Json.str "a.com"), ("url", Json.str "https://test.com/new.jpg")]
            "sample") ∧
      (Image.read sampleHelpers [("a.com", sampleSite "a.com")]
        [("website", Json.str "a.com"), ("url", Json.str "https://test.com/new.jpg")]
        Image.fresh).2.d.sizes Size.Full = some f ∧
      f.sameButUrl (recordVariant sampleHelpers
        [("website", Json.str "a.com"), ("url", Json.str "https://test.com/new.jpg")]
        "full")) :=
  have hok : (Image.read sampleHelpers [("a.com", sampleSite "a.com")]
      [("website", Json.str "a.com"), ("url", Json.str "https://test.com/new.jpg")]
      Image.fresh).1 = true := by
    rw [Image.read_no_gallery sampleHelpers [("a.com", sampleSite "a.com")]
      [("website", Json.str "a.com"), ("url", Json.str "https://test.com/new.jpg")]
      Image.fresh (sampleSite "a.com") rfl rfl]
  ⟨hok, variant_map_invariant sampleConstructEnv (sampleSite "a.com") sampleGalleryDetails [] []
    (some [mkMedia Size.Unknown "b.jpg" 200 150]) (some [⟨"gif", "general"⟩]) none sampleHelpers
    [("a.com", sampleSite "a.com")]
    [("website", Json.str "a.com"), ("url", Json.str "https://test.com/new.jpg")] Image.fresh hok⟩

/-- The example of C22 evaluated: one unlabeled 200x150 candidate `b.jpg` on an item
tagged gif becomes both Thumbnail and Full; the two roles point to the same object,
the candidate at position 3 of `m_allSizes`, and the extension guess rewrites the URL
of that object, so both roles and `m_allSizes` show `b.gif`; Sample keeps the
default object. -/
theorem shared_candidate_example :
    (Image.construct sampleConstructEnv (sampleSite "a.com") sampleGalleryDetails [] []
        (some [mkMedia Size.Unknown "b.jpg" 200 150]) (some [⟨"gif", "general"⟩])
        none).m_sizeRefs Size.Thumbnail = some 3 ∧
      (Image.construct sampleConstructEnv (sampleSite "a.com") sampleGalleryDetails [] []
        (some [mkMedia Size.Unknown "b.jpg" 200 150]) (some [⟨"gif", "general"⟩])
        none).m_sizeRefs Size.Sample = some 1 ∧
      (Image.construct sampleConstructEnv (sampleSite "a.com") sampleGalleryDetails [] []
        (some [mkMedia Size.Unknown "b.jpg" 200 150]) (some [⟨"gif", "general"⟩])
        none).m_sizeRefs Size.Full = some 3 ∧
      ((Image.construct sampleConstructEnv (sampleSite "a.com") sampleGalleryDetails [] []
        (some [mkMedia Size.Unknown "b.jpg" 200 150]) (some [⟨"gif", "general"⟩])
        none).d.sizes Size.Thumbnail).map ImageSize.url = some "b.gif" ∧
      ((Image.construct sampleConstructEnv (sampleSite "a.com") sampleGalleryDetails [] []
        (some [mkMedia Size.Unknown "b.jpg" 200 150]) (some [⟨"gif", "general"⟩])
        none).d.sizes Size.Full).map ImageSize.url = some "b.gif" ∧
      (Image.construct sampleConstructEnv (sampleSite "a.com") sampleGalleryDetails [] []
        (some [mkMedia Size.Unknown "b.jpg" 200 150]) (some [⟨"gif", "general"⟩])
        none).m_allSizes.map ImageSize.url = ["", "", "", "b.gif"] ∧
      (Image.construct sampleConstructEnv (sampleSite "a.com") sampleGalleryDetails [] []
        (some [mkMedia Size.Unknown "b.jpg" 200 150]) (some [⟨"gif", "general"⟩])
        none).d.url = "b.gif" := by
  decide

/-! ## Theorems: copyright shortening -/

theorem isPrefixOf_length {y x : String} (h : isPrefixOf y x) : y.length ≤ x.length :=
  List.IsPrefix.length_le h

theorem isPrefixOf_refl (x : String) : isPrefixOf x x := List.prefix_refl _

theorem isPrefixOf_trans {a b c : String} (h1 : isPrefixOf a b) (h2 : isPrefixOf b c) :
    isPrefixOf a c := List.IsPrefix.trans h1 h2

theorem isPrefixOf_eq {y x : String} (h : isPrefixOf y x) (hl : x.length ≤ y.length) :
    y = x := by
  apply String.ext
  exact List.IsPrefix.eq_of_length h (Nat.le_antisymm (List.IsPrefix.length_le h) hl)

theorem prefixComparable_iff (e c : String) :
    prefixComparable e c = true ↔ isPrefixOf e c ∨ isPrefixOf c e := by
  obtain ⟨ed⟩ := e
  obtain ⟨cd⟩ := c
  have hmk : ∀ a b : List Char, (String.mk a = String.mk b) ↔ a = b :=
    fun a b => ⟨fun h => congrArg String.data h, fun h => congrArg String.mk h⟩
  simp only [prefixComparable, qLeft, beq_iff_eq, isPrefixOf, String.length, hmk]
  constructor
  · intro h
    by_cases hl : ed.length ≤ cd.length
    · left
      rw [List.take_of_length_le hl] at h
      rw [h]
      exact List.take_prefix _ _
    · right
      have hl2 : cd.length ≤ ed.length := by omega
      rw [List.take_of_length_le hl2] at h
      rw [← h]
      exact List.take_prefix _ _
  · rintro (h | h)
    · rw [List.take_of_length_le (List.IsPrefix.length_le h)]
      exact List.prefix_iff_eq_take.1 h
    · rw [List.take_of_length_le (List.IsPrefix.length_le h)]
      exact (List.prefix_iff_eq_take.1 h).symm

theorem shortenStep_mem {copyrights : List String} {cop x : String}
    (h : x ∈ shortenStep copyrights cop) :
    (∃ e ∈ copyrights, x = e ∧
        ¬(prefixComparable e cop = true ∧ cop.length < e.length)) ∨
      (x = cop ∧ ∃ e ∈ copyrights, prefixComparable e cop = true ∧ cop.length < e.length) ∨
      (x = cop ∧ ∀ e ∈ copyrights, prefixComparable e cop = false) := by
  simp only [shortenStep] at h
  have hmap : ∀ z, z ∈ copyrights.map (fun copyright =>
      if prefixComparable copyright cop && decide (cop.length < copyright.length) then cop
      else copyright) →
      (∃ e ∈ copyrights, z = e ∧
        ¬(prefixComparable e cop = true ∧ cop.length < e.length)) ∨
      (z = cop ∧ ∃ e ∈ copyrights, prefixComparable e cop = true ∧ cop.length < e.length) := by
    intro z hz
    obtain ⟨e, he, hze⟩ := List.mem_map.1 hz
    by_cases hc : prefixComparable e cop = true ∧ cop.length < e.length
    · right
      refine ⟨?_, e, he, hc⟩
      rw [← hze]
      simp [hc.1, hc.2]
    · left
      refine ⟨e, he, ?_, hc⟩
      rw [← hze]
      have : (prefixComparable e cop && decide (cop.length < e.length)) = false := by
        simpa [Bool.and_eq_true] using hc
      simp [this]
  split_ifs at h with hfound
  · rcases List.mem_append.1 h with h | h
    · rcases hmap x h with h | h
      · exact Or.inl h
      · exact Or.inr (Or.inl h)
    · right; right
      refine ⟨List.mem_singleton.1 h, ?_⟩
      intro e he
      simp only [Bool.not_eq_true', List.any_eq_false] at hfound
      simpa using hfound e he
  · rcases hmap x h with h | h
    · exact Or.inl h
    · exact Or.inr (Or.inl h)

theorem shortenStep_keeps {copyrights : List String} {cop e : String} (he : e ∈ copyrights) :
    (if prefixComparable e cop = true ∧ cop.length < e.length then cop else e) ∈
      shortenStep copyrights cop := by
  have hmem : (if prefixComparable e cop = true ∧ cop.length < e.length then cop else e) ∈
      copyrights.map (fun copyright =>
        if prefixComparable copyright cop && decide (cop.length < copyright.length) then cop
        else copyright) := by
    refine List.mem_map.2 ⟨e, he, ?_⟩
    by_cases hc : prefixComparable e cop = true ∧ cop.length < e.length
    · simp [hc.1, hc.2]
    · have : (prefixComparable e cop && decide (cop.length < e.length)) = false := by
        simpa [Bool.and_eq_true] using hc
      simp [this, hc]
  generalize (if prefixComparable e cop = true ∧ cop.length < e.length then cop else e) = z
    at hmem ⊢
  simp only [shortenStep]
  split_ifs
  · exact List.mem_append.2 (Or.inl hmem)
  · exact hmem

theorem shortenStep_appends {copyrights : List String} {cop : String}
    (h : ∀ e ∈ copyrights, prefixComparable e cop = false) :
    cop ∈ shortenStep copyrights cop := by
  have hfound : (copyrights.any fun copyright => prefixComparable copyright cop) = false := by
    simp only [List.any_eq_false]
    intro e he
    simp [h e he]
  simp [shortenStep, hfound]

theorem shortenStep_inv (seen copyrights : List String) (cop : String)
    (h : ShortenInv seen copyrights) : ShortenInv (seen ++ [cop]) (shortenStep copyrights cop) := by
  obtain ⟨hA, hB⟩ := h
  constructor
  · intro x hx
    rcases shortenStep_mem hx with ⟨e, he, rfl, hc⟩ | ⟨rfl, e, he, hcmp, hlt⟩ | ⟨rfl, hnone⟩
    · obtain ⟨hin, hmin⟩ := hA x he
      refine ⟨List.mem_append.2 (Or.inl hin), ?_⟩
      intro y hy hyx
      rcases List.mem_append.1 hy with hy | hy
      · exact hmin y hy hyx
      · rw [List.mem_singleton.1 hy] at hyx ⊢
        have hcmp : prefixComparable x cop = true :=
          (prefixComparable_iff x cop).2 (Or.inr hyx)
        have hle : x.length ≤ cop.length := by
          by_contra hlt
          exact hc ⟨hcmp, by omega⟩
        exact isPrefixOf_eq hyx hle
    · obtain ⟨hin, hmin⟩ := hA e he
      refine ⟨by simp, ?_⟩
      have hxe : isPrefixOf x e := by
        rcases (prefixComparable_iff e x).1 hcmp with h1 | h1
        · have := isPrefixOf_length h1
          omega
        · exact h1
      intro y hy hyx
      rcases List.mem_append.1 hy with hy | hy
      · have hye : y = e := hmin y hy (isPrefixOf_trans hyx hxe)
        rw [hye] at hyx
        have := isPrefixOf_length hyx
        omega
      · exact List.mem_singleton.1 hy
    · refine ⟨by simp, ?_⟩
      intro y hy hyx
      rcases List.mem_append.1 hy with hy | hy
      · obtain ⟨m, hm, hmy⟩ := hB y hy
        have hcmp : prefixComparable m x = true :=
          (prefixComparable_iff m x).2 (Or.inl (isPrefixOf_trans hmy hyx))
        rw [hnone m hm] at hcmp
        cases hcmp
      · exact List.mem_singleton.1 hy
  · intro y hy
    rcases List.mem_append.1 hy with hy | hy
    · obtain ⟨m, hm, hmy⟩ := hB y hy
      refine ⟨_, shortenStep_keeps hm, ?_⟩
      split_ifs with hc
      · rcases (prefixComparable_iff m cop).1 hc.1 with h1 | h1
        · have := isPrefixOf_length h1
          omega
        · exact isPrefixOf_trans h1 hmy
      · exact hmy
    · rw [List.mem_singleton.1 hy]
      by_cases hex : ∃ e ∈ copyrights, prefixComparable e cop = true
      · obtain ⟨e, he, hcmp⟩ := hex
        refine ⟨_, shortenStep_keeps he, ?_⟩
        split_ifs with hc
        · exact isPrefixOf_refl cop
        · rcases (prefixComparable_iff e cop).1 hcmp with h1 | h1
          · exact h1
          · have hle : e.length ≤ cop.length := by
              by_contra hlt
              exact hc ⟨hcmp, by omega⟩
            rw [isPrefixOf_eq h1 hle]
            exact isPrefixOf_refl e
      · refine ⟨cop, shortenStep_appends ?_, isPrefixOf_refl cop⟩
        intro e he
        by_contra hne
        exact hex ⟨e, he, by simpa using hne⟩

theorem shortenCopyrights_inv (cops : List String) :
    ShortenInv cops (shortenCopyrights cops) := by
  induction cops using List.reverseRecOn with
  | nil => exact ⟨by simp [shortenCopyrights], by simp⟩
  | append_singleton xs x ih =>
    have : shortenCopyrights (xs ++ [x]) = shortenStep (shortenCopyrights xs) x := by
      simp [shortenCopyrights, List.foldl_append]
    rw [this]
    exact shortenStep_inv xs _ x ih

/-- C25: copyright shortening keeps exactly the prefix-minimal tags. With the
shorten option enabled, a text is an entry of the resulting copyright list exactly
when it is an input text that has no other input text as a proper prefix; no result
entry is a proper prefix of another result entry, every result entry is an input
text, and every input text has a result entry as a prefix. -/
theorem shorten_prefix_minimal (cops : List String) :
    (∀ x, x ∈ tokenCopyrights true cops ↔
      x ∈ cops ∧ ∀ y ∈ cops, ¬isProperPrefixOf y x) ∧
    (∀ x ∈ tokenCopyrights true cops, ∀ y ∈ tokenCopyrights true cops,
      ¬isProperPrefixOf y x) ∧
    (∀ x ∈ tokenCopyrights true cops, x ∈ cops) ∧
    (∀ x ∈ cops, ∃ y ∈ tokenCopyrights true cops, isPrefixOf y x) := by
  obtain ⟨hA, hB⟩ := shortenCopyrights_inv cops
  have ht : tokenCopyrights true cops = shortenCopyrights cops := rfl
  rw [ht]
  refine ⟨?_, ?_, fun x hx => (hA x hx).1, hB⟩
  · intro x
    constructor
    · intro hx
      exact ⟨(hA x hx).1, fun y hy hp => hp.2 ((hA x hx).2 y hy hp.1)⟩
    · rintro ⟨hin, hmin⟩
      obtain ⟨m, hm, hmx⟩ := hB x hin
      have hmeq : m = x := by
        by_contra hne
        exact hmin m (hA m hm).1 ⟨hmx, hne⟩
      rw [← hmeq]
      exact hm
  · intro x hx y hy hp
    exact hp.2 ((hA x hx).2 y (hA y hy).1 hp.1)

/-- C26 (code diverges): three pairwise distinct copyright texts whose shortest one
comes last are shortened to a list holding `fate` twice, although only one input
text is prefix-minimal. -/
theorem shorten_duplicate_entry :
    ["fate/zero", "fate/stay night", "fate"].Nodup ∧
      tokenCopyrights true ["fate/zero", "fate/stay night", "fate"] = ["fate", "fate"] ∧
      ¬(tokenCopyrights true ["fate/zero", "fate/stay night", "fate"]).Nodup ∧
      (tokenCopyrights true ["fate/zero", "fate/stay night", "fate"]).length = 2 := by
  refine ⟨by decide, by decide, by decide, by decide⟩

/-! ## Theorems: outcomes of a completed details request -/

/-- C27 (code diverges): when the site has no details parser and the reply carries
no redirect, no rate-limit status, no Cloudflare wall and no error, `parseDetails`
returns without any call: no request is issued, no follow-up request is issued and
no result signal is emitted, while the loading flag is cleared. -/
theorem parseDetails_no_parser_silent (env : DetailsEnv) (reply : FinishedReply)
    (s : DetailsItem) (hapi : env.detailsApi = none)
    (hredir : reply.redirectionTarget.isEmpty = true)
    (hrate : isRateLimited reply.statusCode = false) (hcf : isCloudflareWall reply = false)
    (herr : reply.error = ReplyError.NoError) :
    (parseDetails env reply s).2 = [] ∧
      detailsRequests (parseDetails env reply s).2 = [] ∧
      followUpRequests (parseDetails env reply s).2 = [] ∧
      resultSignals (parseDetails env reply s).2 = [] ∧
      (parseDetails env reply s).1.m_loadingDetails = false := by
  have hev : parseDetails env reply s =
      ({ s with m_loadDetails := s.m_loadDetails.map fun _ => ⟨false⟩,
                m_loadingDetails := false }, []) := by
    simp [parseDetails, hapi, hredir, hrate, hcf, herr]
  rw [hev]
  exact ⟨rfl, rfl, rfl, rfl, rfl⟩

theorem parseDetails_no_parser_silent_witness :
    (parseDetails (sampleDetailsEnv none) (sampleReply 200) sampleLoadingItem).2 = [] ∧
      detailsRequests
        (parseDetails (sampleDetailsEnv none) (sampleReply 200) sampleLoadingItem).2 = [] ∧
      followUpRequests
        (parseDetails (sampleDetailsEnv none) (sampleReply 200) sampleLoadingItem).2 = [] ∧
      resultSignals
        (parseDetails (sampleDetailsEnv none) (sampleReply 200) sampleLoadingItem).2 = [] ∧
      (parseDetails (sampleDetailsEnv none) (sampleReply 200)
        sampleLoadingItem).1.m_loadingDetails = false :=
  parseDetails_no_parser_silent (sampleDetailsEnv none) (sampleReply 200) sampleLoadingItem
    rfl (by decide) (by decide) (by decide) rfl

/-- C28 (code diverges): a completed details request with status 429 or 503, no
redirect target and the server header `cloudflare` passes the Cloudflare test, yet
for an item whose details are not loaded and whose page URL is not empty it is
re-issued as a Retry request and no result signal is emitted: the rate-limit test
comes first. -/
theorem parseDetails_cloudflare_retried (env : DetailsEnv) (reply : FinishedReply)
    (s : DetailsItem) (hredir : reply.redirectionTarget.isEmpty = true)
    (hst : reply.statusCode = 429 ∨ reply.statusCode = 503)
    (hsrv : reply.server = "cloudflare")
    (hnl : s.m_loadedDetails = false) (hurl : s.m_pageUrl.isEmpty = false) :
    isCloudflareWall reply = true ∧
      detailsRequests (parseDetails env reply s).2 = [(s.m_pageUrl, QueryType.Retry)] ∧
      resultSignals (parseDetails env reply s).2 = [] ∧
      (parseDetails env reply s).1.m_loadingDetails = true := by
  have hcf : isCloudflareWall reply = true := by
    rcases hst with h | h <;> simp [isCloudflareWall, h, hsrv]
  obtain ⟨h1, h2, h3, _⟩ := parseDetails_retry env reply s hnl hurl hredir
    (hst.elim Or.inl fun h => Or.inr (Or.inl h))
  refine ⟨hcf, h2, h3, ?_⟩
  rw [h1]

theorem parseDetails_cloudflare_retried_witness :
    isCloudflareWall { sampleReply 503 with server := "cloudflare" } = true ∧
      detailsRequests (parseDetails (sampleDetailsEnv none)
          { sampleReply 503 with server := "cloudflare" } sampleLoadingItem).2 =
        [(sampleLoadingItem.m_pageUrl, QueryType.Retry)] ∧
      resultSignals (parseDetails (sampleDetailsEnv none)
          { sampleReply 503 with server := "cloudflare" } sampleLoadingItem).2 = [] ∧
      (parseDetails (sampleDetailsEnv none)
          { sampleReply 503 with server := "cloudflare" } sampleLoadingItem).1.m_loadingDetails =
        true :=
  parseDetails_cloudflare_retried (sampleDetailsEnv none)
    { sampleReply 503 with server := "cloudflare" } sampleLoadingItem (by decide)
    (Or.inr rfl) rfl rfl (by decide)

/-! ## Theorems: tag-based extension guessing -/

theorem hasTag_lowered (tags : List Tag) (tag : String) :
    hasTag tags tag = (loweredTexts tags).any fun text => text == qLower (qTrimmed tag) := by
  simp only [hasTag, loweredTexts]
  induction tags with
  | nil => rfl
  | cons t ts ih => simp only [List.any_cons, List.map_cons, ih]

theorem hasTag_congr {tags other : List Tag} (h : loweredTexts other = loweredTexts tags)
    (tag : String) : hasTag other tag = hasTag tags tag := by
  rw [hasTag_lowered, hasTag_lowered, h]

theorem completeTagTypes_lowered (env : ConstructEnv) (tags : List Tag) :
    loweredTexts (completeTagTypes env tags) = loweredTexts tags := by
  simp only [loweredTexts, completeTagTypes, List.map_map]
  apply List.map_congr_left
  intro t _
  simp only [Function.comp]
  split <;> rfl

theorem specGuessedExtension_congr {tags other : List Tag}
    (h : loweredTexts other = loweredTexts tags) :
    specGuessedExtension other = specGuessedExtension tags := by
  simp only [specGuessedExtension, hasTag_congr h]

theorem Image.urlStateAtFix_full (env : ConstructEnv) (site : Site) (details : StrMap String)
    (medias : Option (List ImageSize)) :
    ∃ v, (Image.urlStateAtFix env site details medias).sizes Size.Full = some v ∧
      v.url = (Image.urlStateAtFix env site details medias).url := by
  have hinv := Image.construct_refsInv (defaultVariant env site details "preview_")
    (defaultVariant env site details "sample_") (defaultVariant env site details "") medias
  obtain ⟨i, v, _, _, h3, _⟩ := hinv.2 Size.Full (by decide)
  have hs : (Image.urlStateAtFix env site details medias).sizes Size.Full = some v := by
    rw [← h3]
    exact UrlState.sizes_of_refsInv hinv _ _ Size.Full (by decide)
  refine ⟨v, hs, ?_⟩
  simp only [Image.urlStateAtFix, h3]
  rfl

theorem UrlState.setFileExtension_url (env : ConstructEnv) (c : UrlState) (ext : String)
    (v : ImageSize) (hv : c.sizes Size.Full = some v) (hu : v.url = c.url) :
    ∃ full, (c.setFileExtension env ext).sizes Size.Full = some full ∧
      full.url = env.setExtension c.url ext ∧
      (c.setFileExtension env ext).url = env.setExtension c.url ext := by
  refine ⟨{ v with url := env.setExtension v.url ext },
    UrlState.setFileExtension_full_entry env c ext v hv, ?_, rfl⟩
  simp [hu]

theorem UrlState.guessFromTags_jpg (env : ConstructEnv) (tags : List Tag) (c : UrlState)
    (v : ImageSize) (hv : c.sizes Size.Full = some v) (hu : v.url = c.url)
    (hjpg : env.helpers.getExtension c.url = "jpg")
    (hset : ∀ e ∈ ["swf", "gif", "mp4", "png", "webm"],
      env.helpers.getExtension (env.setExtension c.url e) = e) :
    ∃ full, (c.guessFromTags env tags "jpg").sizes Size.Full = some full ∧
      full.url = (c.guessFromTags env tags "jpg").url ∧
      env.helpers.getExtension full.url = specGuessedExtension tags := by
  have h1 : (("jpg" : String) != "swf") = true := by decide
  have h2 : (("jpg" : String) != "webm") = true := by decide
  have h3 : (("jpg" : String) != "mp4") = true := by decide
  have h4 : (("jpg" : String) != "gif") = true := by decide
  have key : ∀ e ∈ ["swf", "gif", "mp4", "png", "webm"],
      ∃ full, (c.setFileExtension env e).sizes Size.Full = some full ∧
        full.url = (c.setFileExtension env e).url ∧ env.helpers.getExtension full.url = e := by
    intro e he
    obtain ⟨full, hf, hfu, hcu⟩ := UrlState.setFileExtension_url env c e v hv hu
    exact ⟨full, hf, hfu.trans hcu.symm, by rw [hfu]; exact hset e he⟩
  simp only [UrlState.guessFromTags, specGuessedExtension, h1, h2, h3, h4, Bool.and_true]
  split_ifs
  · exact key "swf" (by simp)
  · exact key "gif" (by simp)
  · exact key "mp4" (by simp)
  · exact key "png" (by simp)
  · exact key "webm" (by simp)
  · exact ⟨v, hv, hu, by rw [hu]; exact hjpg⟩

theorem construct_fix_fields (env : ConstructEnv) (site : Site) (details : StrMap String)
    (identity data : StrMap Variant) (medias : Option (List ImageSize))
    (tags : Option (List Tag)) (parent : Option Page) :
    (Image.construct env site details identity data medias tags parent).d.sizes =
        ((Image.urlStateAtFix env site details medias).fixExtension env details
          (completeTagTypes env (tags.getD []))).sizes ∧
      (Image.construct env site details identity data medias tags parent).d.url =
        env.removeCacheBuster
          ((Image.urlStateAtFix env site details medias).fixExtension env details
            (completeTagTypes env (tags.getD []))).url :=
  ⟨rfl, rfl⟩

/-- C29: tag-based extension guessing uses a fixed first-match precedence. For an
item built from a record without an `ext` field, whose Full URL extension is jpg,
whose Thumbnail URL is not empty and whose extension is not fixed from the Sample
URL, given that `getExtension` reads back each of swf, gif, mp4, png and webm after
`setExtension` put it on the Full URL: the extension of the Full variant's URL after
construction is swf if the item has tag swf or flash; else gif if it has gif or
animated_gif; else mp4 if it has mp4; else png if it has animated_png; else webm if
it has webm or animated; else jpg; the item's URL is that URL without its cache
buster. Tags are matched without regard to case: tags `other` with the same texts up
to case give the same extension. -/
theorem extension_guess_precedence (env : ConstructEnv) (site : Site)
    (details : StrMap String) (identity data : StrMap Variant)
    (medias : Option (List ImageSize)) (tags : Option (List Tag)) (parent : Option Page)
    (other : List Tag)
    (hext : StrMap.has details "ext" = false)
    (hjpg : env.helpers.getExtension (Image.urlStateAtFix env site details medias).url = "jpg")
    (hthumb : ((Image.urlStateAtFix env site details medias).urlOf Size.Thumbnail).isEmpty =
      false)
    (hsample : ((Image.urlStateAtFix env site details medias).guessFromSample env "jpg").isNone =
      true)
    (hset : ∀ e ∈ ["swf", "gif", "mp4", "png", "webm"],
      env.helpers.getExtension
        (env.setExtension (Image.urlStateAtFix env site details medias).url e) = e)
    (hcase : loweredTexts other = loweredTexts (tags.getD [])) :
    (∃ full,
      (Image.construct env site details identity data medias tags parent).d.sizes Size.Full =
        some full ∧
      env.helpers.getExtension full.url = specGuessedExtension (tags.getD []) ∧
      (Image.construct env site details identity data medias tags parent).d.url =
        env.removeCacheBuster full.url) ∧
    specGuessedExtension other = specGuessedExtension (tags.getD []) := by
  refine ⟨?_, specGuessedExtension_congr hcase⟩
  obtain ⟨hsizes, hurl⟩ := construct_fix_fields env site details identity data medias tags parent
  obtain ⟨v, hv, hu⟩ := Image.urlStateAtFix_full env site details medias
  have hnone : (Image.urlStateAtFix env site details medias).guessFromSample env "jpg" = none :=
    Option.isNone_iff_eq_none.1 hsample
  have hfix : (Image.urlStateAtFix env site details medias).fixExtension env details
      (completeTagTypes env (tags.getD [])) =
      (Image.urlStateAtFix env site details medias).guessFromTags env
        (completeTagTypes env (tags.getD [])) "jpg" := by
    simp only [UrlState.fixExtension, hext, hjpg, hthumb, hnone, Bool.false_and,
      Bool.false_eq_true, if_false, beq_self_eq_true, Bool.not_false, Bool.and_self, if_true]
  obtain ⟨full, hf, hfu, hfe⟩ := UrlState.guessFromTags_jpg env
    (completeTagTypes env (tags.getD [])) (Image.urlStateAtFix env site details medias) v hv hu
    hjpg hset
  refine ⟨full, ?_, ?_, ?_⟩
  · rw [hsizes, hfix]
    exact hf
  · rw [hfe]
    exact specGuessedExtension_congr (completeTagTypes_lowered env (tags.getD []))
  · rw [hurl, hfix, hfu]

theorem extension_guess_precedence_witness :
    (∃ full,
      (Image.construct sampleConstructEnv (sampleSite "a.com") sampleJpgDetails [] [] none
          (some [⟨"Animated_GIF", "general"⟩, ⟨"webm", "general"⟩]) none).d.sizes Size.Full =
        some full ∧
      sampleConstructEnv.helpers.getExtension full.url =
        specGuessedExtension
          ((some [⟨"Animated_GIF", "general"⟩, ⟨"webm", "general"⟩] :
            Option (List Tag)).getD []) ∧
      (Image.construct sampleConstructEnv (sampleSite "a.com") sampleJpgDetails [] [] none
          (some [⟨"Animated_GIF", "general"⟩, ⟨"webm", "general"⟩]) none).d.url =
        sampleConstructEnv.removeCacheBuster full.url) ∧
    specGuessedExtension [⟨"animated_gif", "meta"⟩, ⟨"WEBM", "meta"⟩] =
      specGuessedExtension
        ((some [⟨"Animated_GIF", "general"⟩, ⟨"webm", "general"⟩] : Option (List Tag)).getD []) :=
  extension_guess_precedence sampleConstructEnv (sampleSite "a.com") sampleJpgDetails [] [] none
    (some [⟨"Animated_GIF", "general"⟩, ⟨"webm", "general"⟩]) none
    [⟨"animated_gif", "meta"⟩, ⟨"WEBM", "meta"⟩]
    (by decide) (by decide) (by decide) (by decide) (by decide) (by decide)

/-- The example of C29 evaluated: a jpg item tagged `Animated_GIF` and `webm` gets
the extension gif, the first match in the precedence order, on its Full variant and
on its URL. -/
theorem extension_guess_example :
    specGuessedExtension [⟨"Animated_GIF", "general"⟩, ⟨"webm", "general"⟩] = "gif" ∧
      ((Image.construct sampleConstructEnv (sampleSite "a.com") sampleJpgDetails [] [] none
          (some [⟨"Animated_GIF", "general"⟩, ⟨"webm", "general"⟩]) none).d.sizes
            Size.Full).map ImageSize.url = some "https://test.com/file.gif" ∧
      (Image.construct sampleConstructEnv (sampleSite "a.com") sampleJpgDetails [] [] none
          (some [⟨"Animated_GIF", "general"⟩, ⟨"webm", "general"⟩]) none).d.url =
        "https://test.com/file.gif" := by
  refine ⟨by decide, by decide, by decide⟩

/-! ## Theorems: reverse-search engines -/

theorem QMap.insert_keys {V : Type} (m : List (Int × V)) (k : Int) (v : V) (k' : Int) :
    k' ∈ (QMap.insert m k v).map Prod.fst ↔ k' = k ∨ k' ∈ m.map Prod.fst := by
  induction m with
  | nil => simp [QMap.insert]
  | cons x rest ih =>
    obtain ⟨a, b⟩ := x
    simp only [QMap.insert]
    split_ifs with h1 h2
    · simp
    · subst h2
      simp
    · simp only [List.map_cons, List.mem_cons, ih]
      tauto

theorem QMap.insert_sorted {V : Type} (m : List (Int × V)) (k : Int) (v : V)
    (hs : (m.map Prod.fst).Pairwise (fun a b => a < b)) :
    ((QMap.insert m k v).map Prod.fst).Pairwise (fun a b => a < b) := by
  induction m with
  | nil => simp [QMap.insert]
  | cons x rest ih =>
    obtain ⟨a, b⟩ := x
    simp only [List.map_cons, List.pairwise_cons] at hs
    simp only [QMap.insert]
    split_ifs with h1 h2
    · simp only [List.map_cons, List.pairwise_cons, List.mem_cons]
      refine ⟨?_, hs.1, hs.2⟩
      rintro c (rfl | hc)
      · exact h1
      · exact lt_trans h1 (hs.1 c hc)
    · subst h2
      simp only [List.map_cons, List.pairwise_cons]
      exact hs
    · simp only [List.map_cons, List.pairwise_cons]
      refine ⟨?_, ih hs.2⟩
      intro c hc
      rcases (QMap.insert_keys rest k v c).1 hc with rfl | hc
      · omega
      · exact hs.1 c hc

theorem QMap.insert_mem {V : Type} (m : List (Int × V)) (k : Int) (v : V)
    (hs : (m.map Prod.fst).Pairwise (fun a b => a < b)) (k' : Int) (v' : V) :
    (k', v') ∈ QMap.insert m k v ↔ (k' = k ∧ v' = v) ∨ ((k', v') ∈ m ∧ k' ≠ k) := by
  induction m with
  | nil => simp [QMap.insert]
  | cons x rest ih =>
    obtain ⟨a, b⟩ := x
    simp only [List.map_cons, List.pairwise_cons] at hs
    have hrest : ∀ p ∈ rest, a < p.1 := fun p hp => hs.1 p.1 (List.mem_map_of_mem Prod.fst hp)
    simp only [QMap.insert]
    split_ifs with h1 h2
    · simp only [List.mem_cons, Prod.mk.injEq]
      constructor
      · rintro (h | h | h)
        · exact Or.inl h
        · exact Or.inr ⟨Or.inl h, by omega⟩
        · have := hrest _ h
          exact Or.inr ⟨Or.inr h, by simp only at this; omega⟩
      · rintro (h | ⟨h | h, _⟩)
        · exact Or.inl h
        · exact Or.inr (Or.inl h)
        · exact Or.inr (Or.inr h)
    · subst h2
      simp only [List.mem_cons, Prod.mk.injEq]
      constructor
      · rintro (h | h)
        · exact Or.inl h
        · have := hrest _ h
          exact Or.inr ⟨Or.inr h, by simp only at this; omega⟩
      · rintro (h | ⟨h | h, hne⟩)
        · exact Or.inl h
        · exact absurd h.1 hne
        · exact Or.inr h
    · simp only [List.mem_cons, Prod.mk.injEq, ih hs.2]
      constructor
      · rintro (h | h | ⟨h, hne⟩)
        · exact Or.inr ⟨Or.inl h, by omega⟩
        · exact Or.inl h
        · exact Or.inr ⟨Or.inr h, hne⟩
      · rintro (h | ⟨h | h, hne⟩)
        · exact Or.inr (Or.inl h)
        · exact Or.inl h
        · exact Or.inr (Or.inr ⟨h, hne⟩)

theorem IsLastOfOrder_snoc (seen : List WebGroup) (x g : WebGroup) :
    IsLastOfOrder (seen ++ [x]) g ↔ g = x ∨ (IsLastOfOrder seen g ∧ x.order ≠ g.order) := by
  constructor
  · rintro ⟨pre, post, heq, hpost⟩
    rcases List.eq_nil_or_concat post with rfl | ⟨L, b, rfl⟩
    · left
      have h := List.append_inj_right' heq rfl
      exact (List.cons.inj h).1.symm
    · right
      have heq2 : seen ++ [x] = (pre ++ g :: L) ++ [b] := by simpa using heq
      have h1 := List.append_inj_left' heq2 rfl
      have h2 := List.append_inj_right' heq2 rfl
      have hb : x = b := (List.cons.inj h2).1
      refine ⟨⟨pre, L, h1, fun h hh => hpost h (by simp [hh])⟩, ?_⟩
      rw [hb]
      exact hpost b (by simp)
  · rintro (rfl | ⟨⟨pre, post, heq, hpost⟩, hne⟩)
    · exact ⟨seen, [], rfl, by simp⟩
    · refine ⟨pre, post ++ [x], by simp [heq], ?_⟩
      intro h hh
      rcases List.mem_append.1 hh with hh | hh
      · exact hpost h hh
      · rw [List.mem_singleton.1 hh]; exact hne

theorem LoadInv_step (savePath : String → String) (seen : List WebGroup)
    (ret : List (Int × ReverseSearchEngine)) (x : WebGroup) (h : LoadInv savePath seen ret) :
    LoadInv savePath (seen ++ [x]) (QMap.insert ret x.order (engineOfGroup savePath x)) := by
  obtain ⟨hs, hk, he⟩ := h
  refine ⟨QMap.insert_sorted ret _ _ hs, ?_, ?_⟩
  · intro k
    rw [QMap.insert_keys, hk]
    simp only [List.map_append, List.map_cons, List.map_nil, List.mem_append, List.mem_singleton]
    tauto
  · intro k e
    rw [QMap.insert_mem ret _ _ hs, he]
    constructor
    · rintro (⟨rfl, rfl⟩ | ⟨⟨g, hlast, rfl, rfl⟩, hne⟩)
      · exact ⟨x, (IsLastOfOrder_snoc seen x x).2 (Or.inl rfl), rfl, rfl⟩
      · exact ⟨g, (IsLastOfOrder_snoc seen x g).2 (Or.inr ⟨hlast, fun hh => hne hh.symm⟩),
          rfl, rfl⟩
    · rintro ⟨g, hlast, rfl, rfl⟩
      rcases (IsLastOfOrder_snoc seen x g).1 hlast with rfl | ⟨hl, hne⟩
      · exact Or.inl ⟨rfl, rfl⟩
      · exact Or.inr ⟨⟨g, hl, rfl, rfl⟩, fun hh => hne hh.symm⟩

theorem loadGroups_inv (savePath : String → String) (groups : List WebGroup) :
    LoadInv savePath groups (loadGroups savePath groups []) := by
  induction groups using List.reverseRecOn with
  | nil =>
    refine ⟨by simp [loadGroups], by simp [loadGroups], ?_⟩
    intro k e
    simp only [loadGroups, List.foldl_nil, List.not_mem_nil, false_iff]
    rintro ⟨g, ⟨pre, post, heq, _⟩, _⟩
    have hlen := congrArg List.length heq
    simp only [List.length_nil, List.length_append, List.length_cons] at hlen
    omega
  | append_singleton xs x ih =>
    have : loadGroups savePath (xs ++ [x]) [] =
        QMap.insert (loadGroups savePath xs []) x.order (engineOfGroup savePath x) := by
      simp [loadGroups, List.foldl_append]
    rw [this]
    exact LoadInv_step savePath xs _ x ih

theorem dedup_length_eq_iff (l : List Int) : l.dedup.length = l.length ↔ l.Nodup := by
  constructor
  · intro h
    have := (List.dedup_sublist l).eq_of_length h
    rw [← this]
    exact List.nodup_dedup l
  · intro h
    rw [List.Nodup.dedup h]

theorem getAllReverseSearchEngines_some (savePath : String → String) (groups : List WebGroup) :
    getAllReverseSearchEngines savePath ⟨some groups⟩ =
      QMap.values (loadGroups savePath groups []) := rfl

/-- C30 (as stated, refuted): with two child groups of `WebServices` that hold the
same order value, the returned list has one engine, the one of the later group, not
one engine for each child group. -/
theorem reverse_engines_clash_counterexample :
    sampleClashingGroups.length = 2 ∧
      (getAllReverseSearchEngines (fun p => p) ⟨some sampleClashingGroups⟩).length = 1 ∧
      (getAllReverseSearchEngines (fun p => p) ⟨some sampleClashingGroups⟩).map
        ReverseSearchEngine.name = ["SauceNAO"] := by
  decide

/-- C30 (amended): for a settings store that has a `WebServices` group, the returned
list is in strictly ascending order of the engines' order value; its engines are
exactly the engines of the child groups that are the last with their order value, so
every order value of a child group is the order of a returned engine; its length is
the number of distinct order values, which is the number of child groups exactly
when the order values of the child groups are pairwise distinct. When there is no
`WebServices` group the result is exactly the six default engines IQDB, SauceNAO,
Google, TinEye, Yandex, waifu2x with ids and orders 1 to 6, in that order. -/
theorem reverse_engines_sorted_last_wins (savePath : String → String)
    (groups : List WebGroup) :
    ((getAllReverseSearchEngines savePath ⟨some groups⟩).Pairwise
        (fun a b => a.order < b.order) ∧
      (∀ e, e ∈ getAllReverseSearchEngines savePath ⟨some groups⟩ ↔
        ∃ g, IsLastOfOrder groups g ∧ e = engineOfGroup savePath g) ∧
      (∀ g ∈ groups, ∃ e ∈ getAllReverseSearchEngines savePath ⟨some groups⟩,
        e.order = g.order) ∧
      (getAllReverseSearchEngines savePath ⟨some groups⟩).length =
        (groups.map WebGroup.order).dedup.length ∧
      ((getAllReverseSearchEngines savePath ⟨some groups⟩).length = groups.length ↔
        (groups.map WebGroup.order).Nodup)) ∧
    (getAllReverseSearchEngines savePath ⟨none⟩ = (defaultEngines savePath).map Prod.snd ∧
      (getAllReverseSearchEngines savePath ⟨none⟩).map ReverseSearchEngine.name =
        ["IQDB", "SauceNAO", "Google", "TinEye", "Yandex", "waifu2x"] ∧
      (getAllReverseSearchEngines savePath ⟨none⟩).map ReverseSearchEngine.id =
        [1, 2, 3, 4, 5, 6] ∧
      (getAllReverseSearchEngines savePath ⟨none⟩).map ReverseSearchEngine.order =
        [1, 2, 3, 4, 5, 6]) := by
  constructor
  · rw [getAllReverseSearchEngines_some]
    obtain ⟨hs, hk, he⟩ := loadGroups_inv savePath groups
    have hord : ∀ p ∈ loadGroups savePath groups [], p.2.order = p.1 := by
      rintro ⟨k, e⟩ hp
      obtain ⟨g, _, rfl, rfl⟩ := (he k e).1 hp
      rfl
    have hmem : ∀ e, e ∈ QMap.values (loadGroups savePath groups []) ↔
        ∃ g, IsLastOfOrder groups g ∧ e = engineOfGroup savePath g := by
      intro e
      simp only [QMap.values, List.mem_map]
      constructor
      · rintro ⟨⟨k, e2⟩, hp, rfl⟩
        obtain ⟨g, hl, _, rfl⟩ := (he k e2).1 hp
        exact ⟨g, hl, rfl⟩
      · rintro ⟨g, hl, rfl⟩
        exact ⟨(g.order, engineOfGroup savePath g), (he _ _).2 ⟨g, hl, rfl, rfl⟩, rfl⟩
    have hlen : (QMap.values (loadGroups savePath groups [])).length =
        (groups.map WebGroup.order).dedup.length := by
      have hnd : ((loadGroups savePath groups []).map Prod.fst).Nodup :=
        List.Pairwise.imp (fun h => ne_of_lt h) hs
      have hperm : List.Perm ((loadGroups savePath groups []).map Prod.fst)
          (groups.map WebGroup.order).dedup :=
        (List.perm_ext_iff_of_nodup hnd (List.nodup_dedup _)).2
          (fun k => by rw [hk, List.mem_dedup])
      have := hperm.length_eq
      simpa [QMap.values] using this
    refine ⟨?_, hmem, ?_, hlen, ?_⟩
    · simp only [QMap.values, List.pairwise_map] at hs ⊢
      exact List.Pairwise.imp_of_mem
        (fun ha hb hab => by rw [hord _ ha, hord _ hb]; exact hab) hs
    · intro g hg
      have hkey : g.order ∈ (loadGroups savePath groups []).map Prod.fst :=
        (hk g.order).2 (List.mem_map_of_mem WebGroup.order hg)
      obtain ⟨⟨k, e⟩, hp, hkk⟩ := List.mem_map.1 hkey
      refine ⟨e, List.mem_map.2 ⟨(k, e), hp, rfl⟩, ?_⟩
      rw [hord _ hp]
      exact hkk
    · rw [hlen, ← dedup_length_eq_iff, List.length_map]
  · refine ⟨?_, ?_, ?_, ?_⟩ <;>
      simp [getAllReverseSearchEngines, defaultEngines, loadGroups, QMap.insert, QMap.values]

end Grabber
